import Mathlib

/-!
# TCP handshake client over raw sockets (`A3/client.cpp`)

A shallow embedding of `checksum` and of `main` of `A3/client.cpp`, and the
properties of the specification proved (or refuted) about them.

Modelling conventions.

* A byte is a `Fin 256`.  Memory reachable from a pointer is a function from
  byte offsets to bytes (`Mem`); a C array of known contents is a `List Byte`
  viewed through `memOf`.
* The host byte order is a parameter `le : Bool` (`true` = little-endian): the
  source reads and writes `unsigned short` / `uint32_t` objects natively and
  converts with `htons`, `htonl`, `ntohl`.
* `long` is the 64-bit `long` of LP64 Linux.  The accumulator of `checksum`
  is bounded by `2^30 * 65535 < 2^63` for every `int` byte count
  (`sumWords_bound`), so it is a `Nat` without wrap-around.
* `struct iphdr` and `struct tcphdr` come from the system headers
  `<netinet/ip.h>` and `<netinet/tcp.h>`; their fields sit at the RFC 791 /
  RFC 793 offsets, bit-fields included, for both host byte orders.
-/

namespace A3

/-! ## Bytes, memory, native loads and stores -/

/-- One octet. -/
abbrev Byte := Fin 256

/-- Memory seen from a base pointer: byte offset to byte. -/
abbrev Mem := Nat → Byte

/-- View of a byte array as memory; offsets past the array read as zero. -/
def memOf (buf : List Byte) : Mem := fun i => buf.getD i 0

/-- Value of the `unsigned short` whose two bytes in memory are `b0`, `b1`. -/
def load16 (le : Bool) (b0 b1 : Byte) : Nat :=
  if le then b0.val + 256 * b1.val else 256 * b0.val + b1.val

/-! ## `checksum` (client.cpp lines 40-64) -/

/-- Lines 46-56: the `while (nbytes > 1)` loop followed by the odd-byte branch.
`ptr` is the byte offset of the `unsigned short *`, `nbytes` the bytes left,
`sum` the accumulator.  The odd byte is stored into the first byte of the
zeroed `oddbyte`, which is then added as a native 16-bit value. -/
def sumWords (le : Bool) (mem : Mem) : Nat → Nat → Nat → Nat
  | ptr, n + 2, sum => sumWords le mem (ptr + 2) n (sum + load16 le (mem ptr) (mem (ptr + 1)))
  | ptr, 1, sum => sum + load16 le (mem ptr) 0
  | _, 0, sum => sum

/-- Line 59: `sum = (sum >> 16) + (sum & 0xffff)`. -/
def fold1 (sum : Nat) : Nat := (sum >>> 16) + (sum &&& 0xffff)

/-- Line 60: `sum += (sum >> 16)`. -/
def fold2 (sum : Nat) : Nat := sum + (sum >>> 16)

/-- Line 61: `(unsigned short)~sum` for a non-negative `long`:
`~sum = -sum - 1`, reduced modulo `2^16`. -/
def notU16 (sum : Nat) : Nat := ((-(sum : Int) - 1) % 65536).toNat

/-- The function `checksum(ptr, nbytes)`.  A byte count `nbytes <= 0` skips
both the loop and the odd-byte branch, as does `Int.toNat`. -/
def checksum (le : Bool) (mem : Mem) (nbytes : Int) : Nat :=
  notU16 (fold2 (fold1 (sumWords le mem 0 nbytes.toNat 0)))

/-! ## RFC 1071 reference definitions (from the specification's words) -/

/-- One's-complement addition of two 16-bit values: add, then carry the
overflow out of bit 15 back into bit 0 (end-around carry). -/
def ocAdd (a b : Nat) : Nat := if a + b < 65536 then a + b else a + b - 65535

/-- The consecutive 16-bit words of a byte sequence; an odd trailing byte is
one more word, padded with a zero byte. -/
def words16 (le : Bool) : List Byte → List Nat
  | b0 :: b1 :: rest => load16 le b0 b1 :: words16 le rest
  | [b0] => [load16 le b0 0]
  | [] => []

/-- The Internet (RFC 1071) one's-complement sum of a byte sequence. -/
def onesComplementSum (le : Bool) (bytes : List Byte) : Nat :=
  (words16 le bytes).foldl ocAdd 0

/-- The Internet checksum: the 16-bit complement of the one's-complement sum. -/
def rfc1071 (le : Bool) (bytes : List Byte) : Nat :=
  65535 - onesComplementSum le bytes

/-! ## Byte order conversion and memory writes -/

/-- The byte holding the low eight bits of `v`. -/
def byteOf (v : Nat) : Byte := ⟨v % 256, Nat.mod_lt v (by decide)⟩

/-- Swap the two bytes of a 16-bit value. -/
def bswap16 (v : Nat) : Nat := v % 256 * 256 + v / 256 % 256

/-- Reverse the four bytes of a 32-bit value. -/
def bswap32 (v : Nat) : Nat :=
  v % 256 * 16777216 + v / 256 % 256 * 65536 + v / 65536 % 256 * 256 + v / 16777216 % 256

/-- The function `htons` on a `uint16_t`. -/
def htons (le : Bool) (v : Nat) : Nat := if le then bswap16 v else v % 65536

/-- The function `htonl` on a `uint32_t`. -/
def htonl (le : Bool) (v : Nat) : Nat := if le then bswap32 v else v % 4294967296

/-- The function `ntohl` on a `uint32_t` (the same byte permutation as `htonl`). -/
def ntohl (le : Bool) (v : Nat) : Nat := htonl le v

/-- Value of the `uint32_t` whose four bytes in memory are `b0 .. b3`. -/
def load32 (le : Bool) (b0 b1 b2 b3 : Byte) : Nat :=
  if le then b0.val + 256 * b1.val + 65536 * b2.val + 16777216 * b3.val
  else 16777216 * b0.val + 65536 * b1.val + 256 * b2.val + b3.val

/-- Store one byte at offset `i`. -/
def write8 (m : Mem) (i : Nat) (b : Byte) : Mem := fun j => if j = i then b else m j

/-- Native store of the `unsigned short` `v` at offset `i`. -/
def store16 (le : Bool) (m : Mem) (i v : Nat) : Mem :=
  if le then write8 (write8 m i (byteOf v)) (i + 1) (byteOf (v / 256))
  else write8 (write8 m i (byteOf (v / 256))) (i + 1) (byteOf v)

/-- Native store of the `uint32_t` `v` at offset `i`. -/
def store32 (le : Bool) (m : Mem) (i v : Nat) : Mem :=
  if le then
    write8 (write8 (write8 (write8 m i (byteOf v)) (i + 1) (byteOf (v / 256)))
      (i + 2) (byteOf (v / 65536))) (i + 3) (byteOf (v / 16777216))
  else
    write8 (write8 (write8 (write8 m i (byteOf (v / 16777216))) (i + 1) (byteOf (v / 65536)))
      (i + 2) (byteOf (v / 256))) (i + 3) (byteOf v)

/-- Assignment to a four-bit bit-field occupying the low nibble of byte `i`
(`iph->ihl`). -/
def setLowNibble (m : Mem) (i v : Nat) : Mem :=
  write8 m i (byteOf ((m i).val / 16 * 16 + v % 16))

/-- Assignment to a four-bit bit-field occupying the high nibble of byte `i`
(`iph->version`, `tcph->doff`). -/
def setHighNibble (m : Mem) (i v : Nat) : Mem :=
  write8 m i (byteOf (v % 16 * 16 + (m i).val % 16))

/-- Value of the one-bit bit-field at bit `k` of byte `b`. -/
def flag (b : Byte) (k : Nat) : Nat := b.val / 2 ^ k % 2

/-- Assignment of `1` to the one-bit bit-field at bit `k` of byte `i`
(`tcph->syn` is bit 1 and `tcph->ack` bit 4 of byte 13 of the TCP header): the
bit is set and the other bits of the byte are kept. -/
def setFlag (m : Mem) (i k : Nat) : Mem :=
  write8 m i (if flag (m i) k = 1 then m i else byteOf ((m i).val + 2 ^ k))

/-! ## Constants of `client.cpp` -/

/-- The macro `SERVER_PORT`, defined as `12345`. -/
def SERVER_PORT : Nat := 12345
/-- The client port, written as the literal `54321` in the source. -/
def CLIENT_PORT : Nat := 54321
/-- The macro `CLIENT_INITIAL_SEQ`, defined as `200`. -/
def CLIENT_INITIAL_SEQ : Nat := 200
/-- The macro `CLIENT_ACK_SEQ`, defined as `600`. -/
def CLIENT_ACK_SEQ : Nat := 600
/-- The macro `TIMEOUT_SECONDS`, defined as `5`. -/
def TIMEOUT_SECONDS : Int := 5
/-- The constant `IPPROTO_TCP` of `<netinet/in.h>`. -/
def IPPROTO_TCP : Nat := 6
/-- The value of `sizeof(struct iphdr)`. -/
def sizeofIphdr : Nat := 20
/-- The value of `sizeof(struct tcphdr)`. -/
def sizeofTcphdr : Nat := 20
/-- The value of `sizeof(datagram)`, the array `char datagram[4096]`. -/
def sizeofDatagram : Nat := 4096
/-- The value of `sizeof(buffer)`, the array `char buffer[65536]`. -/
def sizeofBuffer : Nat := 65536
/-- The value of `inet_addr("127.0.0.1")`: the address in network byte order. -/
def inetAddrLoopback (le : Bool) : Nat := htonl le 0x7F000001

/-! ## Packet construction (client.cpp lines 85-122 and 199-226) -/

/-- The call `memset(datagram, 0, sizeof(datagram))`.  Offsets from `sizeofDatagram` on
are the memory that follows the array; `memset` leaves it as it is. -/
def memsetDatagram (stack : Mem) : Mem :=
  fun i => if i < sizeofDatagram then 0 else stack i

/-- The first `n` bytes of memory, as handed to `sendto`. -/
def firstBytes (m : Mem) (n : Nat) : List Byte := (List.range n).map m

/-- Lines 86-109: `memset` and the IP header fields of the SYN packet, up to
the checksum call.  `stack` is the memory at and after `datagram` before the
`memset`. -/
def synIpHeader (le : Bool) (stack : Mem) : Mem :=
  let dg := memsetDatagram stack
  let dg := setLowNibble dg 0 5                                  -- iph->ihl = 5
  let dg := setHighNibble dg 0 4                                 -- iph->version = 4
  let dg := write8 dg 1 0                                        -- iph->tos = 0
  let dg := store16 le dg 2 (htons le (sizeofIphdr + sizeofTcphdr))  -- iph->tot_len
  let dg := store16 le dg 4 (htons le 54321)                     -- iph->id
  let dg := store16 le dg 6 0                                    -- iph->frag_off = 0
  let dg := write8 dg 8 64                                       -- iph->ttl = 64
  let dg := write8 dg 9 (byteOf IPPROTO_TCP)                     -- iph->protocol
  let dg := store16 le dg 10 0                                   -- iph->check = 0
  let dg := store32 le dg 12 (inetAddrLoopback le)               -- iph->saddr
  let dg := store32 le dg 16 (inetAddrLoopback le)               -- iph->daddr
  dg

/-- The byte count of lines 112 and 216: the field `iph->tot_len` read back as
a native `unsigned short` and converted to `int`. -/
def checksumCount (le : Bool) (dg : Mem) : Int := (load16 le (dg 2) (dg 3) : Nat)

/-- Lines 112 and 216:
`iph->check = checksum((unsigned short *)datagram, iph->tot_len)`. -/
def setIpChecksum (le : Bool) (dg : Mem) : Mem :=
  store16 le dg 10 (checksum le dg (checksumCount le dg))

/-- Lines 115-122: the TCP header fields of the SYN packet. -/
def synTcpHeader (le : Bool) (dg : Mem) : Mem :=
  let tcph := sizeofIphdr
  let dg := store16 le dg tcph (htons le 54321)                  -- tcph->source
  let dg := store16 le dg (tcph + 2) (htons le SERVER_PORT)      -- tcph->dest
  let dg := store32 le dg (tcph + 4) (htonl le CLIENT_INITIAL_SEQ)  -- tcph->seq
  let dg := store32 le dg (tcph + 8) 0                           -- tcph->ack_seq = 0
  let dg := setHighNibble dg (tcph + 12) 5                       -- tcph->doff = 5
  let dg := setFlag dg (tcph + 13) 1                             -- tcph->syn = 1
  let dg := store16 le dg (tcph + 14) (htons le 8192)            -- tcph->window
  let dg := store16 le dg (tcph + 16) 0                          -- tcph->check = 0
  dg

/-- Lines 86-122: the datagram after the SYN packet has been built. -/
def synDatagram (le : Bool) (stack : Mem) : Mem :=
  synTcpHeader le (setIpChecksum le (synIpHeader le stack))

/-- The packet given to the first `sendto` (line 126). -/
def synPacket (le : Bool) (stack : Mem) : List Byte :=
  firstBytes (synDatagram le stack) (sizeofIphdr + sizeofTcphdr)

/-- Offset of the TCP header in the receive buffer: `recv_ip->ihl * 4`
(line 183).  `ihl` is the low nibble of byte 0. -/
def recvTcpOffset (buffer : Mem) : Nat := (buffer 0).val % 16 * 4

/-- Native value of `recv_tcp->seq`. -/
def recvSeqField (le : Bool) (buffer : Mem) : Nat :=
  let t := recvTcpOffset buffer
  load32 le (buffer (t + 4)) (buffer (t + 5)) (buffer (t + 6)) (buffer (t + 7))

/-- Native value of `recv_tcp->ack_seq`. -/
def recvAckField (le : Bool) (buffer : Mem) : Nat :=
  let t := recvTcpOffset buffer
  load32 le (buffer (t + 8)) (buffer (t + 9)) (buffer (t + 10)) (buffer (t + 11))

/-- Lines 187-190: the condition under which the received packet is taken as
the expected SYN-ACK. -/
def isSynAck (le : Bool) (buffer : Mem) : Bool :=
  let t := recvTcpOffset buffer
  load16 le (buffer t) (buffer (t + 1)) == htons le SERVER_PORT &&
  load16 le (buffer (t + 2)) (buffer (t + 3)) == htons le 54321 &&
  flag (buffer (t + 13)) 1 == 1 && flag (buffer (t + 13)) 4 == 1 &&
  ntohl le (recvAckField le buffer) == CLIENT_INITIAL_SEQ + 1

/-- Lines 199-215: `memset` and the IP header fields of the ACK packet, up to
the checksum call (no separate `iph->check = 0` here: the `memset` has
zeroed the field).  `stack` is the memory at and after `datagram` before the
`memset`. -/
def ackIpHeader (le : Bool) (stack : Mem) : Mem :=
  let dg := memsetDatagram stack
  let dg := setLowNibble dg 0 5                                  -- iph->ihl = 5
  let dg := setHighNibble dg 0 4                                 -- iph->version = 4
  let dg := write8 dg 1 0                                        -- iph->tos = 0
  let dg := store16 le dg 2 (htons le (sizeofIphdr + sizeofTcphdr))  -- iph->tot_len
  let dg := store16 le dg 4 (htons le 54321)                     -- iph->id
  let dg := store16 le dg 6 0                                    -- iph->frag_off = 0
  let dg := write8 dg 8 64                                       -- iph->ttl = 64
  let dg := write8 dg 9 (byteOf IPPROTO_TCP)                     -- iph->protocol
  let dg := store32 le dg 12 (inetAddrLoopback le)               -- iph->saddr
  let dg := store32 le dg 16 (inetAddrLoopback le)               -- iph->daddr
  dg

/-- Lines 219-226: the TCP header fields of the ACK packet, from the receive
buffer holding the accepted SYN-ACK. -/
def ackTcpHeader (le : Bool) (buffer : Mem) (dg : Mem) : Mem :=
  let tcph := sizeofIphdr
  let dg := store16 le dg tcph (htons le 54321)                  -- tcph->source
  let dg := store16 le dg (tcph + 2) (htons le SERVER_PORT)      -- tcph->dest
  let dg := store32 le dg (tcph + 4) (htonl le CLIENT_ACK_SEQ)   -- tcph->seq
  let dg := store32 le dg (tcph + 8)
    (htonl le ((ntohl le (recvSeqField le buffer) + 1) % 4294967296))  -- tcph->ack_seq
  let dg := setHighNibble dg (tcph + 12) 5                       -- tcph->doff = 5
  let dg := setFlag dg (tcph + 13) 4                             -- tcph->ack = 1
  let dg := store16 le dg (tcph + 14) (htons le 8192)            -- tcph->window
  let dg := store16 le dg (tcph + 16) 0                          -- tcph->check = 0
  dg

/-- Lines 199-226: the datagram after the ACK packet has been built. -/
def ackDatagram (le : Bool) (stack : Mem) (buffer : Mem) : Mem :=
  ackTcpHeader le buffer (setIpChecksum le (ackIpHeader le stack))

/-- The packet given to the second `sendto` (line 230). -/
def ackPacket (le : Bool) (stack : Mem) (buffer : Mem) : List Byte :=
  firstBytes (ackDatagram le stack buffer) (sizeofIphdr + sizeofTcphdr)

/-- Effect of a successful `recvfrom(sock, buffer, sizeof(buffer), ..)` that
delivers `data`: the packet overwrites the start of `buffer`, the rest of the
array keeps what it held. -/
def recvInto (buffer : Mem) (data : List Byte) : Mem :=
  fun i => if i < (data.take sizeofBuffer).length then data.getD i 0 else buffer i

/-! ## Network-order readers for a packet given as a byte list -/

/-- Big-endian 16-bit field at offset `off`. -/
def be16 (pkt : List Byte) (off : Nat) : Nat :=
  256 * (pkt.getD off 0).val + (pkt.getD (off + 1) 0).val

/-- Big-endian 32-bit field at offset `off`. -/
def be32 (pkt : List Byte) (off : Nat) : Nat :=
  16777216 * (pkt.getD off 0).val + 65536 * (pkt.getD (off + 1) 0).val
    + 256 * (pkt.getD (off + 2) 0).val + (pkt.getD (off + 3) 0).val

/-- Big-endian 16-bit field at offset `off` of memory. -/
def mbe16 (m : Mem) (off : Nat) : Nat := 256 * (m off).val + (m (off + 1)).val

/-- Big-endian 32-bit field at offset `off` of memory. -/
def mbe32 (m : Mem) (off : Nat) : Nat :=
  16777216 * (m off).val + 65536 * (m (off + 1)).val + 256 * (m (off + 2)).val + (m (off + 3)).val

/-! ## `main` as a function of the environment's answers -/

/-- The observable actions of a run, in program order. -/
inductive Event
  /-- The call `socket(AF_INET, SOCK_RAW, IPPROTO_TCP)` and its result. -/
  | socket (r : Int)
  /-- The call `setsockopt(sock, IPPROTO_IP, IP_HDRINCL, ..)` and its result. -/
  | setsockopt (r : Int)
  /-- The `sendto` of line 126 with the bytes sent and its result. -/
  | sendSyn (pkt : List Byte) (r : Int)
  /-- The `select` of line 159 with `timeout.tv_sec` and its result. -/
  | select (tvSec : Int) (r : Int)
  /-- The `recvfrom` of line 174 and its result. -/
  | recvfrom (r : Int)
  /-- The outcome of the test of lines 187-190 on the packet just received. -/
  | validate (ok : Bool)
  /-- The `sendto` of line 230 with the bytes sent and its result. -/
  | sendAck (pkt : List Byte) (r : Int)
  /-- The timeout message of lines 247-248. -/
  | timeoutMessage
  /-- A call of `close(sock)`. -/
  | close
  deriving DecidableEq

/-- What the environment answers during one iteration of the wait loop.  An
answer is consumed only if the iteration reaches the call that asks for it. -/
structure Poll where
  /-- The reading `time(NULL)` in the loop condition (line 149). -/
  now1 : Int
  /-- The reading `time(NULL)` in the timeout computation (line 155). -/
  now2 : Int
  /-- Result of `select`. -/
  activity : Int
  /-- The value of `FD_ISSET(sock, &readfds)` after `select`. -/
  isset : Bool
  /-- The answer of `recvfrom`: `none` is a failure (`-1`), `some data` stores `data`. -/
  recv : Option (List Byte)
  /-- Memory at and after `datagram` when the ACK packet is built. -/
  stack : Mem
  /-- Result of the `sendto` of the ACK packet. -/
  ackSend : Int

/-- What the environment answers during a whole run. -/
structure Env where
  /-- Host byte order (`true` = little-endian). -/
  le : Bool
  /-- Result of `socket`. -/
  sock : Int
  /-- Result of `setsockopt`. -/
  setsockopt : Int
  /-- Memory at and after `datagram` when the SYN packet is built. -/
  stack : Mem
  /-- Result of the `sendto` of the SYN packet. -/
  synSend : Int
  /-- Indeterminate initial contents of the array `buffer`. -/
  buffer : Mem
  /-- The reading `time(NULL)` at line 145 (`start_time`). -/
  startTime : Int
  /-- The answers for the successive loop iterations. -/
  polls : List Poll

/-- Result of a finished run: the actions performed and the value returned by
`main`. -/
structure Outcome where
  trace : List Event
  ret : Int
  deriving DecidableEq

/-- How one execution of the loop body (lines 150-242) ends. -/
inductive Step
  /-- A `continue`, or the end of the body: back to the loop condition.
  `received_syn_ack` is still `false`. -/
  | next (buffer : Mem) (ev : List Event)
  /-- A `return` from inside the loop. -/
  | ret (code : Int) (ev : List Event)
  /-- The `break` of line 239, with the value of `received_syn_ack`. -/
  | brk (received : Bool) (ev : List Event)

/-- The number of bytes a successful `recvfrom` reports. -/
def recvBytes (data : List Byte) : Int := ((data.take sizeofBuffer).length : Int)

/-- Lines 150-242: one execution of the loop body. -/
def loopBody (le : Bool) (startTime : Int) (buffer : Mem) (p : Poll) : Step :=
  let tvSec := TIMEOUT_SECONDS - (p.now2 - startTime)
  let activity := p.activity
  if activity < 0 then
    .ret (-1) [.select tvSec activity, .close]
  else if activity = 0 then
    .next buffer [.select tvSec activity]
  else if p.isset then
    match p.recv with
    | none => .next buffer [.select tvSec activity, .recvfrom (-1)]
    | some data =>
      let buffer := recvInto buffer data
      if isSynAck le buffer then
        let received := true
        let pkt := ackPacket le p.stack buffer
        if p.ackSend < 0 then
          .ret (-1) [.select tvSec activity, .recvfrom (recvBytes data), .validate true,
            .sendAck pkt p.ackSend, .close]
        else
          .brk received [.select tvSec activity, .recvfrom (recvBytes data), .validate true,
            .sendAck pkt p.ackSend]
      else
        .next buffer [.select tvSec activity, .recvfrom (recvBytes data), .validate false]
  else
    .next buffer [.select tvSec activity]

/-- Lines 245-253: the code after the loop. -/
def afterLoop (received : Bool) : Outcome :=
  { trace := (if received then [] else [.timeoutMessage]) ++ [.close],
    ret := if received then 0 else -1 }

/-- Put the actions `ev` in front of an outcome's trace. -/
def Outcome.after (ev : List Event) (o : Outcome) : Outcome :=
  { o with trace := ev ++ o.trace }

/-- Lines 149-253: the wait loop and the exit code.  The result is `none` when
the answers run out before the loop is left. -/
def waitLoop (le : Bool) (startTime : Int) : Mem → List Poll → Option Outcome
  | _, [] => none
  | buffer, p :: ps =>
    if p.now1 - startTime < TIMEOUT_SECONDS then
      match loopBody le startTime buffer p with
      | .next buffer1 ev => (waitLoop le startTime buffer1 ps).map (Outcome.after ev)
      | .ret code ev => some { trace := ev, ret := code }
      | .brk received ev => some ((afterLoop received).after ev)
    else
      some (afterLoop false)

/-- The function `main`. -/
def main (env : Env) : Option Outcome :=
  if env.sock < 0 then
    some { trace := [.socket env.sock], ret := -1 }
  else if env.setsockopt < 0 then
    some { trace := [.socket env.sock, .setsockopt env.setsockopt, .close], ret := -1 }
  else
    let pkt := synPacket env.le env.stack
    if env.synSend < 0 then
      some { trace := [.socket env.sock, .setsockopt env.setsockopt, .sendSyn pkt env.synSend,
        .close], ret := -1 }
    else
      (waitLoop env.le env.startTime env.buffer env.polls).map
        (Outcome.after [.socket env.sock, .setsockopt env.setsockopt, .sendSyn pkt env.synSend])

/-! ## Auxiliary definitions used in the statements and proofs -/

/-- Closed form of the one's-complement sum of 16-bit words whose plain sum is
`s`: zero for `s = 0`, otherwise the representative of `s` modulo `0xFFFF` in
`1 .. 0xFFFF`. -/
def ocFold (s : Nat) : Nat := if s = 0 then 0 else (s - 1) % 65535 + 1

/-- A buffer of 131077 bytes: 65538 words `0xFFFF` followed by the byte `0x01`. -/
def longBuffer : List Byte := List.replicate 131076 255 ++ [1]

/-- A buffer of 131079 bytes: a zero checksum field, then `longBuffer`. -/
def longPacket : List Byte := 0 :: 0 :: longBuffer

/-- The actions performed by one execution of the loop body. -/
def Step.events : Step → List Event
  | .next _ ev => ev
  | .ret _ ev => ev
  | .brk _ ev => ev

/-- Source port of the TCP header parsed from the receive buffer (network
byte order, RFC 793 offset 0). -/
def recvSrcPort (buffer : Mem) : Nat := mbe16 buffer (recvTcpOffset buffer)

/-- Destination port of the parsed TCP header (offset 2). -/
def recvDstPort (buffer : Mem) : Nat := mbe16 buffer (recvTcpOffset buffer + 2)

/-- Sequence number of the parsed TCP header (offset 4). -/
def recvSeqNum (buffer : Mem) : Nat := mbe32 buffer (recvTcpOffset buffer + 4)

/-- Acknowledgment number of the parsed TCP header (offset 8). -/
def recvAckNum (buffer : Mem) : Nat := mbe32 buffer (recvTcpOffset buffer + 8)

/-- SYN flag of the parsed TCP header (bit 1 of offset 13). -/
def recvSynFlag (buffer : Mem) : Nat := flag (buffer (recvTcpOffset buffer + 13)) 1

/-- ACK flag of the parsed TCP header (bit 4 of offset 13). -/
def recvAckFlag (buffer : Mem) : Nat := flag (buffer (recvTcpOffset buffer + 13)) 4

/-- A 44-byte packet with a 24-byte IP header (`ihl = 6`, option bytes
`9 9 9 9`) and a SYN-ACK from port 12345 to port 54321 with sequence number
500 and acknowledgment number 201. -/
def sampleSynAck : List Byte :=
  [0x46, 0, 0, 44, 0, 0, 0, 0, 64, 6, 0, 0, 127, 0, 0, 1, 127, 0, 0, 1, 9, 9, 9, 9,
   0x30, 0x39, 0xd4, 0x31, 0, 0, 1, 0xf4, 0, 0, 0, 201, 0x50, 0x12, 0x20, 0, 0, 0, 0, 0]

/-- A 40-byte packet with a 20-byte IP header and a SYN-ACK from port 12345 to
port 54321 with sequence number 500 and acknowledgment number 201. -/
def plainSynAck : List Byte :=
  [0x45, 0, 0, 40, 0, 0, 0, 0, 64, 6, 0, 0, 127, 0, 0, 1, 127, 0, 0, 1,
   0x30, 0x39, 0xd4, 0x31, 0, 0, 1, 0xf4, 0, 0, 0, 201, 0x50, 0x12, 0x20, 0, 0, 0, 0, 0]

/-- As `plainSynAck`, with acknowledgment number 202. -/
def wrongAckSynAck : List Byte :=
  [0x45, 0, 0, 40, 0, 0, 0, 0, 64, 6, 0, 0, 127, 0, 0, 1, 127, 0, 0, 1,
   0x30, 0x39, 0xd4, 0x31, 0, 0, 1, 0xf4, 0, 0, 0, 202, 0x50, 0x12, 0x20, 0, 0, 0, 0, 0]

/-- Memory holding zero bytes only. -/
def zeroMem : Mem := fun _ => 0

/-- A poll, one second after the start at time 100, that delivers
`plainSynAck`; the ACK `sendto` then reports 40 bytes sent. -/
def acceptPoll : Poll :=
  { now1 := 101, now2 := 101, activity := 1, isset := true, recv := some plainSynAck,
    stack := zeroMem, ackSend := 40 }

/-- A run on a little-endian host: socket 3, every call succeeds, start at
time 100, and the first poll delivers `plainSynAck`. -/
def acceptEnv : Env :=
  { le := true, sock := 3, setsockopt := 0, stack := zeroMem, synSend := 40, buffer := zeroMem,
    startTime := 100, polls := [acceptPoll] }

/-- The shapes of the outcome of the wait loop and the exit code: a sequence
of iterations that go back to the loop condition (idle poll, failed
`recvfrom`, rejected packet), ended by the deadline, a failed `select`, a
failed ACK `sendto`, or an accepted packet whose ACK was sent. -/
inductive LoopOutcome : Outcome → Prop
  | deadline : LoopOutcome (afterLoop false)
  | selectFailed (tv r : Int) (h : r < 0) :
      LoopOutcome { trace := [.select tv r, .close], ret := -1 }
  | idle (tv r : Int) (hr : 0 ≤ r) (o : Outcome) :
      LoopOutcome o → LoopOutcome (o.after [.select tv r])
  | recvFailed (tv r : Int) (hr : 0 ≤ r) (o : Outcome) :
      LoopOutcome o → LoopOutcome (o.after [.select tv r, .recvfrom (-1)])
  | rejected (tv r n : Int) (hr : 0 ≤ r) (o : Outcome) :
      LoopOutcome o → LoopOutcome (o.after [.select tv r, .recvfrom n, .validate false])
  | ackFailed (tv r n : Int) (hr : 0 ≤ r) (pkt : List Byte) (s : Int) (h : s < 0) :
      LoopOutcome { trace := [.select tv r, .recvfrom n, .validate true, .sendAck pkt s, .close],
                    ret := -1 }
  | accepted (tv r n : Int) (hr : 0 ≤ r) (pkt : List Byte) (s : Int) (h : 0 ≤ s) :
      LoopOutcome ((afterLoop true).after
        [.select tv r, .recvfrom n, .validate true, .sendAck pkt s])

/-- The outcome of the run `acceptEnv`. -/
def acceptOutcome : Outcome :=
  { trace :=
      [.socket 3, .setsockopt 0,
       .sendSyn [0x45, 0, 0, 40, 0xd4, 0x31, 0, 0, 64, 6, 0xa8, 0x9c, 127, 0, 0, 1, 127, 0, 0, 1,
                 0xd4, 0x31, 0x30, 0x39, 0, 0, 0, 200, 0, 0, 0, 0, 0x50, 0x02, 0x20, 0,
                 0, 0, 0, 0] 40,
       .select 4 1, .recvfrom 40, .validate true,
       .sendAck [0x45, 0, 0, 40, 0xd4, 0x31, 0, 0, 64, 6, 0xa8, 0x9c, 127, 0, 0, 1, 127, 0, 0, 1,
                 0xd4, 0x31, 0x30, 0x39, 0, 0, 2, 0x58, 0, 0, 1, 0xf5, 0x50, 0x10, 0x20, 0,
                 0, 0, 0, 0] 40,
       .close],
    ret := 0 }

/-- Two memories hold the same bytes at all offsets below `n`. -/
def AgreeBelow (n : Nat) (m1 m2 : Mem) : Prop := ∀ i, i < n → m1 i = m2 i

/-- The 20-byte IP header of a packet, with its checksum field (bytes 10 and
11) set to zero. -/
def ipHeaderZeroCheck (pkt : List Byte) : List Byte := ((pkt.take 20).set 10 0).set 11 0

/-- Memory after the `datagram` array whose first byte (offset 4096 from the
start of the array) is `0x01`, all other bytes zero. -/
def dirtyStack : Mem := fun i => if i = 4096 then 1 else 0

/-- The actions that are neither a passed SYN-ACK test, nor an ACK
transmission, nor the end of the run: the setup calls, the SYN transmission,
polls, receives and failed tests. -/
def Event.quiet : Event → Bool
  | .socket _ => true
  | .setsockopt _ => true
  | .sendSyn _ _ => true
  | .select _ _ => true
  | .recvfrom _ => true
  | .validate ok => !ok
  | .sendAck _ _ => false
  | .timeoutMessage => false
  | .close => false

/-- Whether an action is the `sendto` of an ACK packet. -/
def Event.isSendAck : Event → Bool
  | .sendAck _ _ => true
  | _ => false

/-- A poll at time `t` after which `select` reports a timeout (nothing to
read). -/
def idlePoll (t : Int) : Poll :=
  { now1 := t, now2 := t, activity := 0, isset := false, recv := none, stack := zeroMem,
    ackSend := 0 }

/-- A run on a little-endian host in which no packet arrives: start at time
100, one idle poll at 103, and the clock reads 105 at the next loop
condition. -/
def silentEnv : Env :=
  { le := true, sock := 3, setsockopt := 0, stack := zeroMem, synSend := 40, buffer := zeroMem,
    startTime := 100, polls := [idlePoll 103, idlePoll 105] }

/-- The outcome of the run `silentEnv`. -/
def silentOutcome : Outcome :=
  { trace :=
      [.socket 3, .setsockopt 0,
       .sendSyn [0x45, 0, 0, 40, 0xd4, 0x31, 0, 0, 64, 6, 0xa8, 0x9c, 127, 0, 0, 1, 127, 0, 0, 1,
                 0xd4, 0x31, 0x30, 0x39, 0, 0, 0, 200, 0, 0, 0, 0, 0x50, 0x02, 0x20, 0,
                 0, 0, 0, 0] 40,
       .select 2 0, .timeoutMessage, .close],
    ret := -1 }

/-- The values of `timeout.tv_sec` handed to the successive `select` calls of
a trace. -/
def selectTimeouts : List Event → List Int
  | [] => []
  | .select tvSec _ :: rest => tvSec :: selectTimeouts rest
  | _ :: rest => selectTimeouts rest

/-- The value of `timeout.tv_sec` computed at line 155 in the iteration that
gets the answers `p`. -/
def timeoutOf (startTime : Int) (p : Poll) : Int := TIMEOUT_SECONDS - (p.now2 - startTime)

/-- The clock does not go back: starting from the reading `t`, the successive
readings `now1`, `now2` of the polls are non-decreasing. -/
def clockMonotone : Int → List Poll → Prop
  | _, [] => True
  | t, p :: ps => t ≤ p.now1 ∧ p.now1 ≤ p.now2 ∧ clockMonotone p.now2 ps

/-- A poll whose loop condition reads the clock at 104 and whose timeout
computation reads it at 105; `select` reports a timeout. -/
def latePoll : Poll :=
  { now1 := 104, now2 := 105, activity := 0, isset := false, recv := none, stack := zeroMem,
    ackSend := 0 }

/-- A run on a little-endian host started at time 100 in which the clock
passes from 104 to 105 between the loop condition and the timeout
computation of the first iteration. -/
def lateEnv : Env :=
  { le := true, sock := 3, setsockopt := 0, stack := zeroMem, synSend := 40, buffer := zeroMem,
    startTime := 100, polls := [latePoll, idlePoll 105] }

/-- The outcome of the run `lateEnv`. -/
def lateOutcome : Outcome :=
  { trace :=
      [.socket 3, .setsockopt 0,
       .sendSyn [0x45, 0, 0, 40, 0xd4, 0x31, 0, 0, 64, 6, 0xa8, 0x9c, 127, 0, 0, 1, 127, 0, 0, 1,
                 0xd4, 0x31, 0x30, 0x39, 0, 0, 0, 200, 0, 0, 0, 0, 0x50, 0x02, 0x20, 0,
                 0, 0, 0, 0] 40,
       .select 0 0, .timeoutMessage, .close],
    ret := -1 }

/-- A poll at time `t` in which `select` reports the socket readable and
`recvfrom` delivers `data`; an ACK `sendto`, if reached, reports 40 bytes. -/
def deliverPoll (t : Int) (data : List Byte) : Poll :=
  { now1 := t, now2 := t, activity := 1, isset := true, recv := some data, stack := zeroMem,
    ackSend := 40 }

/-- A 40-byte packet that differs from `plainSynAck` in its first byte only:
the IP header-length field is 6, so that the TCP header is looked for at
offset 24 and the packet is rejected. -/
def strayPacket : List Byte :=
  [0x46, 0, 0, 40, 0, 0, 0, 0, 64, 6, 0, 0, 127, 0, 0, 1, 127, 0, 0, 1,
   0x30, 0x39, 0xd4, 0x31, 0, 0, 1, 0xf4, 0, 0, 0, 201, 0x50, 0x12, 0x20, 0, 0, 0, 0, 0]

/-- A 20-byte packet: an IP header (version 4, header length 5, total length
20, protocol 6) with no TCP header after it. -/
def shortPacket : List Byte :=
  [0x45, 0, 0, 20, 0, 0, 0, 0, 64, 6, 0, 0, 127, 0, 0, 1, 127, 0, 0, 1]

/-- A run on a little-endian host that receives `strayPacket` and then
`shortPacket`. -/
def staleEnv : Env :=
  { le := true, sock := 3, setsockopt := 0, stack := zeroMem, synSend := 40, buffer := zeroMem,
    startTime := 100, polls := [deliverPoll 101 strayPacket, deliverPoll 102 shortPacket] }

/-- The outcome of the run `staleEnv`. -/
def staleOutcome : Outcome :=
  { trace :=
      [.socket 3, .setsockopt 0,
       .sendSyn [0x45, 0, 0, 40, 0xd4, 0x31, 0, 0, 64, 6, 0xa8, 0x9c, 127, 0, 0, 1, 127, 0, 0, 1,
                 0xd4, 0x31, 0x30, 0x39, 0, 0, 0, 200, 0, 0, 0, 0, 0x50, 0x02, 0x20, 0,
                 0, 0, 0, 0] 40,
       .select 4 1, .recvfrom 40, .validate false,
       .select 3 1, .recvfrom 20, .validate true,
       .sendAck [0x45, 0, 0, 40, 0xd4, 0x31, 0, 0, 64, 6, 0xa8, 0x9c, 127, 0, 0, 1, 127, 0, 0, 1,
                 0xd4, 0x31, 0x30, 0x39, 0, 0, 2, 0x58, 0, 0, 1, 0xf5, 0x50, 0x10, 0x20, 0,
                 0, 0, 0, 0] 40,
       .close],
    ret := 0 }

/-- A run on a little-endian host that receives `shortPacket` only; the clock
reads 105 at the next loop condition. -/
def freshEnv : Env :=
  { le := true, sock := 3, setsockopt := 0, stack := zeroMem, synSend := 40, buffer := zeroMem,
    startTime := 100, polls := [deliverPoll 102 shortPacket, idlePoll 105] }

/-- The outcome of the run `freshEnv`. -/
def freshOutcome : Outcome :=
  { trace :=
      [.socket 3, .setsockopt 0,
       .sendSyn [0x45, 0, 0, 40, 0xd4, 0x31, 0, 0, 64, 6, 0xa8, 0x9c, 127, 0, 0, 1, 127, 0, 0, 1,
                 0xd4, 0x31, 0x30, 0x39, 0, 0, 0, 200, 0, 0, 0, 0, 0x50, 0x02, 0x20, 0,
                 0, 0, 0, 0] 40,
       .select 3 1, .recvfrom 20, .validate false, .timeoutMessage, .close],
    ret := -1 }

/-- Offset of the TCP header inside a packet: four times the header-length
field (low nibble of the first byte) of its IP header. -/
def pktTcpOffset (data : List Byte) : Nat := 4 * ((data.getD 0 0).val % 16)

/-- Source port of the TCP header of a packet, read from the bytes of the
packet itself (a byte the packet does not have reads as zero). -/
def pktSrcPort (data : List Byte) : Nat := be16 data (pktTcpOffset data)

/-- Destination port of the TCP header of a packet. -/
def pktDstPort (data : List Byte) : Nat := be16 data (pktTcpOffset data + 2)

/-- Sequence number of the TCP header of a packet. -/
def pktSeqNum (data : List Byte) : Nat := be32 data (pktTcpOffset data + 4)

/-- Acknowledgment number of the TCP header of a packet. -/
def pktAckNum (data : List Byte) : Nat := be32 data (pktTcpOffset data + 8)

/-- SYN flag of the TCP header of a packet. -/
def pktSynFlag (data : List Byte) : Nat := flag (data.getD (pktTcpOffset data + 13) 0) 1

/-- ACK flag of the TCP header of a packet. -/
def pktAckFlag (data : List Byte) : Nat := flag (data.getD (pktTcpOffset data + 13) 0) 4

/-- The SYN-ACK predicate of the specification, on the bytes of a packet:
source port 12345, destination port 54321, SYN = 1, ACK = 1 and
acknowledgment number 201. -/
def packetIsSynAck (data : List Byte) : Bool :=
  pktSrcPort data == 12345 && pktDstPort data == 54321 &&
  pktSynFlag data == 1 && pktAckFlag data == 1 && pktAckNum data == 201

/-- The packet holds every byte that the SYN-ACK test reads: it is at least
`4 * ihl + 14` bytes long, the flags being byte 13 of the TCP header. -/
def coversTcpFields (data : List Byte) : Bool := decide (pktTcpOffset data + 14 ≤ data.length)

/-- The packet that `recvfrom` stores in the iteration that gets the answers
`p`: the call is reached when `select` returned a positive value and
`FD_ISSET` holds (lines 160-172), and it may fail. -/
def received (p : Poll) : Option (List Byte) :=
  if 0 < p.activity ∧ p.isset = true then p.recv else none

/-- The number of loop iterations entered in a trace: each iteration calls
`select` once. -/
def iterations (trace : List Event) : Nat := (selectTimeouts trace).length

/-- The answers of the iterations that a finished run entered. -/
def consumedPolls (env : Env) (out : Outcome) : List Poll :=
  env.polls.take (iterations out.trace)

/-- The packets received during a finished run, in order of arrival. -/
def receivedPackets (env : Env) (out : Outcome) : List (List Byte) :=
  (consumedPolls env out).filterMap received

/-- The first 33 bytes of `plainSynAck`: the TCP header is cut off right
before its flags byte. -/
def flaglessPacket : List Byte := plainSynAck.take 33

/-- A run on a little-endian host that receives `wrongAckSynAck` and then
`plainSynAck`. -/
def retryEnv : Env :=
  { le := true, sock := 3, setsockopt := 0, stack := zeroMem, synSend := 40, buffer := zeroMem,
    startTime := 100, polls := [deliverPoll 101 wrongAckSynAck, deliverPoll 102 plainSynAck] }

/-- The outcome of the run `retryEnv`. -/
def retryOutcome : Outcome :=
  { trace :=
      [.socket 3, .setsockopt 0,
       .sendSyn [0x45, 0, 0, 40, 0xd4, 0x31, 0, 0, 64, 6, 0xa8, 0x9c, 127, 0, 0, 1, 127, 0, 0, 1,
                 0xd4, 0x31, 0x30, 0x39, 0, 0, 0, 200, 0, 0, 0, 0, 0x50, 0x02, 0x20, 0,
                 0, 0, 0, 0] 40,
       .select 4 1, .recvfrom 40, .validate false,
       .select 3 1, .recvfrom 40, .validate true,
       .sendAck [0x45, 0, 0, 40, 0xd4, 0x31, 0, 0, 64, 6, 0xa8, 0x9c, 127, 0, 0, 1, 127, 0, 0, 1,
                 0xd4, 0x31, 0x30, 0x39, 0, 0, 2, 0x58, 0, 0, 1, 0xf5, 0x50, 0x10, 0x20, 0,
                 0, 0, 0, 0] 40,
       .close],
    ret := 0 }

/-- A run on a little-endian host started at time 100 in which no packet
arrives: idle polls at 101 and 103, and the clock reads 105 at the next loop
condition. -/
def shrinkEnv : Env :=
  { le := true, sock := 3, setsockopt := 0, stack := zeroMem, synSend := 40, buffer := zeroMem,
    startTime := 100, polls := [idlePoll 101, idlePoll 103, idlePoll 105] }

/-- The outcome of the run `shrinkEnv`. -/
def shrinkOutcome : Outcome :=
  { trace :=
      [.socket 3, .setsockopt 0,
       .sendSyn [0x45, 0, 0, 40, 0xd4, 0x31, 0, 0, 64, 6, 0xa8, 0x9c, 127, 0, 0, 1, 127, 0, 0, 1,
                 0xd4, 0x31, 0x30, 0x39, 0, 0, 0, 200, 0, 0, 0, 0, 0x50, 0x02, 0x20, 0,
                 0, 0, 0, 0] 40,
       .select 4 0, .select 2 0, .timeoutMessage, .close],
    ret := -1 }

/-! ## The checksum: arithmetic of the fold steps -/

theorem load16_lt (le : Bool) (a b : Byte) : load16 le a b < 65536 := by
  unfold load16; split <;> omega

theorem fold1_eq (s : Nat) : fold1 s = s / 65536 + s % 65536 := by
  unfold fold1
  rw [Nat.shiftRight_eq_div_pow]
  have h : (0xffff : Nat) = 2 ^ 16 - 1 := by norm_num
  rw [h, Nat.and_pow_two_sub_one_eq_mod]

theorem fold2_eq (s : Nat) : fold2 s = s + s / 65536 := by
  unfold fold2
  rw [Nat.shiftRight_eq_div_pow]

theorem notU16_eq (s : Nat) : notU16 s = 65535 - s % 65536 := by
  unfold notU16; omega

theorem ocFold_le (s : Nat) : ocFold s ≤ 65535 := by
  unfold ocFold; split <;> omega

/-- The first fold step keeps the residue modulo `0xFFFF`. -/
theorem ocFold_fold1 (s : Nat) : ocFold (fold1 s) = ocFold s := by
  rw [fold1_eq]
  unfold ocFold
  by_cases hs : s = 0
  · subst hs; simp
  · have h1 : ¬ (s / 65536 + s % 65536 = 0) := by omega
    rw [if_neg hs, if_neg h1]
    have h2 : s - 1 = (s / 65536 + s % 65536 - 1) + 65535 * (s / 65536) := by omega
    rw [h2, Nat.add_mul_mod_self_left]

/-- The second fold step absorbs a single carry: the low 16 bits of the result
are the one's-complement value as long as the input is below `0x1FFFF`. -/
theorem fold2_low (t : Nat) (h : t < 131071) : fold2 t % 65536 = ocFold t := by
  rw [fold2_eq]
  unfold ocFold
  rcases Nat.lt_or_ge t 65536 with h1 | h1
  · have h2 : t / 65536 = 0 := Nat.div_eq_of_lt h1
    rw [h2]
    split <;> omega
  · have h2 : t / 65536 = 1 := by omega
    have h3 : (t - 1) % 65535 = t - 65536 := by omega
    rw [h2, h3, if_neg (by omega)]
    omega

theorem fold1_lt (s : Nat) (h : s < 4294967296 + 65535) : fold1 s < 131071 := by
  rw [fold1_eq]; omega

/-- Both fold steps together, for an accumulator below `2^32 + 0xFFFF`. -/
theorem fold_low (s : Nat) (h : s < 4294967296 + 65535) :
    fold2 (fold1 s) % 65536 = ocFold s := by
  rw [fold2_low _ (fold1_lt s h), ocFold_fold1]

theorem fold_correct (s : Nat) (h : s < 4294967296 + 65535) :
    notU16 (fold2 (fold1 s)) = 65535 - ocFold s := by
  rw [notU16_eq, fold_low s h]

theorem ocAdd_ocFold (s w : Nat) (hw : w < 65536) : ocAdd (ocFold s) w = ocFold (s + w) := by
  unfold ocAdd ocFold
  split <;> split <;> split <;> omega

theorem foldl_ocAdd (ws : List Nat) (hws : ∀ w ∈ ws, w < 65536) (s : Nat) :
    ws.foldl ocAdd (ocFold s) = ocFold (s + ws.sum) := by
  induction ws generalizing s with
  | nil => simp
  | cons w ws ih =>
    simp only [List.foldl_cons, List.sum_cons]
    rw [ocAdd_ocFold s w (hws w (List.mem_cons_self _ _)),
      ih (fun x hx => hws x (List.mem_cons_of_mem _ hx))]
    congr 1; omega

/-! ## The checksum: the word loop -/

theorem words16_lt (le : Bool) : ∀ (l : List Byte), ∀ w ∈ words16 le l, w < 65536
  | [], w, hw => by simp [words16] at hw
  | [b], w, hw => by
    simp only [words16, List.mem_singleton] at hw
    rw [hw]; exact load16_lt le b 0
  | b0 :: b1 :: rest, w, hw => by
    simp only [words16, List.mem_cons] at hw
    rcases hw with hw | hw
    · rw [hw]; exact load16_lt le b0 b1
    · exact words16_lt le rest w hw

theorem words16_sum_le (le : Bool) : ∀ (l : List Byte),
    (words16 le l).sum ≤ 65535 * ((l.length + 1) / 2)
  | [] => by simp [words16]
  | [b] => by
    have := load16_lt le b 0
    simp [words16]; omega
  | b0 :: b1 :: rest => by
    have h1 := load16_lt le b0 b1
    have h2 := words16_sum_le le rest
    simp only [words16, List.sum_cons, List.length_cons]
    omega

/-- The one's-complement sum in closed form. -/
theorem onesComplementSum_eq (le : Bool) (l : List Byte) :
    onesComplementSum le l = ocFold (words16 le l).sum := by
  unfold onesComplementSum
  have h := foldl_ocAdd (words16 le l) (words16_lt le l) 0
  simpa [ocFold] using h

theorem rfc1071_eq (le : Bool) (l : List Byte) :
    rfc1071 le l = 65535 - ocFold (words16 le l).sum := by
  unfold rfc1071
  rw [onesComplementSum_eq]

/-- The loop of `checksum` adds up the 16-bit words of the bytes it walks over. -/
theorem sumWords_eq (le : Bool) (mem : Mem) : ∀ (l : List Byte) (p s : Nat),
    (∀ i, i < l.length → mem (p + i) = l.getD i 0) →
    sumWords le mem p l.length s = s + (words16 le l).sum
  | [], p, s, _ => by simp [sumWords, words16]
  | [b], p, s, h => by
    have h0 := h 0 (by simp)
    simp at h0
    simp [sumWords, words16, h0]
  | b0 :: b1 :: rest, p, s, h => by
    have h0 := h 0 (by simp)
    have h1 := h 1 (by simp)
    simp at h0 h1
    have ih := sumWords_eq le mem rest (p + 2) (s + load16 le b0 b1) (fun i hi => by
      have := h (i + 2) (by simp; omega)
      simpa [Nat.add_assoc, Nat.add_comm 2 i] using this)
    simp only [List.length_cons, sumWords, words16, List.sum_cons, h0, h1]
    rw [ih]; omega

theorem memOf_take (buf : List Byte) (n i : Nat) (h : i < n) :
    memOf buf i = (buf.take n).getD i 0 := by
  unfold memOf
  simp [List.getD_eq_getElem?_getD, List.getElem?_take, h]

/-- The accumulator of `checksum` on the first `n` bytes of a buffer. -/
theorem sumWords_memOf (le : Bool) (buf : List Byte) (n : Nat) (h : n ≤ buf.length) :
    sumWords le (memOf buf) 0 n 0 = (words16 le (buf.take n)).sum := by
  have hlen : (buf.take n).length = n := by simp [h]
  have := sumWords_eq le (memOf buf) (buf.take n) 0 0 (fun i hi => by
    rw [hlen] at hi
    simpa using memOf_take buf n i hi)
  rw [hlen] at this
  simpa using this

/-- The accumulator never exceeds `0xFFFF` per word: for every `int` byte
count it stays far below `2^63`, so the 64-bit `long` does not overflow. -/
theorem sumWords_bound (le : Bool) (mem : Mem) : ∀ (n p s : Nat),
    sumWords le mem p n s ≤ s + 65535 * ((n + 1) / 2)
  | 0, p, s => by simp [sumWords]
  | 1, p, s => by
    have := load16_lt le (mem p) 0
    simp [sumWords]; omega
  | n + 2, p, s => by
    have h1 := load16_lt le (mem p) (mem (p + 1))
    have h2 := sumWords_bound le mem n (p + 2) (s + load16 le (mem p) (mem (p + 1)))
    simp only [sumWords]
    omega

/-- Closed form of `checksum` and of the folded accumulator on the first `L`
bytes of a buffer, for `L <= 131076`. -/
theorem checksum_closed_form (le : Bool) (buf : List Byte) (L : Int)
    (h0 : 0 ≤ L) (hL : L ≤ buf.length) (hmax : L ≤ 131076) :
    checksum le (memOf buf) L = 65535 - ocFold (words16 le (buf.take L.toNat)).sum ∧
    fold2 (fold1 (sumWords le (memOf buf) 0 L.toNat 0)) % 65536
      = ocFold (words16 le (buf.take L.toNat)).sum := by
  have hn : L.toNat ≤ buf.length := by omega
  have hlen : (buf.take L.toNat).length = L.toNat := by simp [hn]
  have hsum := sumWords_memOf le buf L.toNat hn
  have hb := words16_sum_le le (buf.take L.toNat)
  rw [hlen] at hb
  have hlt : (words16 le (buf.take L.toNat)).sum < 4294967296 + 65535 := by omega
  unfold checksum
  rw [hsum, fold_correct _ hlt, fold_low _ hlt]
  exact ⟨rfl, rfl⟩

/-! ## C1: the checksum against RFC 1071 -/

/-- C1 (as amended): for every host byte order, every byte buffer and every
length `L` with `0 <= L <= buffer size` and `L <= 131076`, `checksum(buffer, L)`
is the 16-bit complement of the RFC 1071 one's-complement sum of the first `L`
bytes (odd trailing byte padded with a zero byte), and the low 16 bits of the
accumulator after the two fold steps are that one's-complement sum. -/
theorem checksum_eq_rfc1071 (le : Bool) (buf : List Byte) (L : Int)
    (h0 : 0 ≤ L) (hL : L ≤ buf.length) (hmax : L ≤ 131076) :
    checksum le (memOf buf) L = rfc1071 le (buf.take L.toNat) ∧
    fold2 (fold1 (sumWords le (memOf buf) 0 L.toNat 0)) % 65536
      = onesComplementSum le (buf.take L.toNat) := by
  have h := checksum_closed_form le buf L h0 hL hmax
  rw [rfc1071_eq, onesComplementSum_eq]
  exact h

/-- Witness for C1: the 20-byte IP header of the SYN packet with a zero
checksum field. -/
theorem checksum_eq_rfc1071_witness :
    checksum false (memOf [0x45, 0, 0, 40, 0xd4, 0x31, 0, 0, 64, 6, 0, 0,
      127, 0, 0, 1, 127, 0, 0, 1]) 20
      = rfc1071 false (List.take (20 : Int).toNat [0x45, 0, 0, 40, 0xd4, 0x31, 0, 0, 64, 6, 0, 0,
          127, 0, 0, 1, 127, 0, 0, 1]) ∧
    fold2 (fold1 (sumWords false (memOf [0x45, 0, 0, 40, 0xd4, 0x31, 0, 0, 64, 6, 0, 0,
      127, 0, 0, 1, 127, 0, 0, 1]) 0 (20 : Int).toNat 0)) % 65536
      = onesComplementSum false (List.take (20 : Int).toNat
          [0x45, 0, 0, 40, 0xd4, 0x31, 0, 0, 64, 6, 0, 0, 127, 0, 0, 1, 127, 0, 0, 1]) :=
  checksum_eq_rfc1071 false _ 20 (by decide) (by decide) (by decide)

theorem words16_replicate (le : Bool) (t : List Byte) : ∀ k : Nat,
    words16 le (List.replicate (2 * k) 255 ++ t) = List.replicate k 65535 ++ words16 le t
  | 0 => by simp
  | k + 1 => by
    have h : 2 * (k + 1) = (2 * k + 1) + 1 := by omega
    have hw : load16 le 255 255 = 65535 := by cases le <;> rfl
    rw [h, List.replicate_succ, List.replicate_succ, List.cons_append, List.cons_append,
      words16, words16_replicate le t k, hw, List.replicate_succ, List.cons_append]

theorem longBuffer_length : longBuffer.length = 131077 := by
  unfold longBuffer
  rw [List.length_append, List.length_replicate, List.length_singleton]

theorem longBuffer_sum : (words16 true longBuffer).sum = 4295032831 := by
  have h : (131076 : Nat) = 2 * 65538 := by norm_num
  unfold longBuffer
  rw [h, words16_replicate, List.sum_append, List.sum_replicate]
  rfl

/-- C1 (counterexample): on a little-endian host, for the 131077-byte buffer
of 65538 words `0xFFFF` and a last byte `0x01`, `checksum` returns `0xFFFF`
while the complement of the RFC 1071 sum is `0xFFFE`; the accumulator after
the two fold steps is `0x20000`, a carry above bit 15 that is dropped. -/
theorem checksum_ne_rfc1071_long :
    (131077 : Int) ≤ longBuffer.length ∧
    checksum true (memOf longBuffer) 131077
      ≠ rfc1071 true (longBuffer.take (131077 : Int).toNat) ∧
    checksum true (memOf longBuffer) 131077 = 65535 ∧
    rfc1071 true (longBuffer.take (131077 : Int).toNat) = 65534 ∧
    fold2 (fold1 (sumWords true (memOf longBuffer) 0 (131077 : Int).toNat 0)) = 131072 := by
  have hn : (131077 : Int).toNat = 131077 := rfl
  have hs : sumWords true (memOf longBuffer) 0 131077 0 = 4295032831 := by
    rw [sumWords_memOf true longBuffer 131077 (by rw [longBuffer_length]),
      List.take_of_length_le (by rw [longBuffer_length]), longBuffer_sum]
  have hc : checksum true (memOf longBuffer) 131077 = 65535 := by
    unfold checksum
    rw [hn, hs, notU16_eq, fold2_eq, fold1_eq]
  have hr : rfc1071 true (longBuffer.take (131077 : Int).toNat) = 65534 := by
    rw [hn, List.take_of_length_le (by rw [longBuffer_length]), rfc1071_eq, longBuffer_sum]
    decide
  refine ⟨by rw [longBuffer_length]; decide, by rw [hc, hr]; decide, hc, hr, ?_⟩
  · rw [hn, hs, fold2_eq, fold1_eq]

/-! ## C10: odd length -/

theorem words16_append_zero (le : Bool) : ∀ (l : List Byte), l.length % 2 = 1 →
    words16 le (l ++ [0]) = words16 le l
  | [], h => by simp at h
  | [b], _ => by simp [words16]
  | b0 :: b1 :: rest, h => by
    have h2 : rest.length % 2 = 1 := by
      simp only [List.length_cons] at h; omega
    have ih := words16_append_zero le rest h2
    simp only [List.cons_append, words16]
    exact congrArg (List.cons (load16 le b0 b1)) ih

/-- C10: for every host byte order, every buffer and every odd length `L`
within it, `checksum(B, L)` equals the checksum of the `L + 1` bytes made of
the first `L` bytes of `B` followed by one `0x00` byte: the final byte is the
first byte of a zero-padded 16-bit word. -/
theorem checksum_odd_pad (le : Bool) (buf : List Byte) (L : Int)
    (h0 : 0 ≤ L) (hL : L ≤ buf.length) (hodd : L % 2 = 1) :
    checksum le (memOf buf) L = checksum le (memOf (buf.take L.toNat ++ [0])) (L + 1) := by
  have hn : L.toNat ≤ buf.length := by omega
  have hlen : (buf.take L.toNat).length = L.toNat := by simp [hn]
  have hodd2 : (buf.take L.toNat).length % 2 = 1 := by rw [hlen]; omega
  have h1 : (L + 1).toNat = (buf.take L.toNat ++ [0]).length := by
    rw [List.length_append, hlen]; simp; omega
  unfold checksum
  rw [sumWords_memOf le buf L.toNat hn, h1,
    sumWords_memOf le (buf.take L.toNat ++ [0]) _ (le_refl _), List.take_length,
    words16_append_zero le _ hodd2]

/-- Witness for C10: three bytes. -/
theorem checksum_odd_pad_witness :
    checksum true (memOf [0x12, 0x34, 0x56]) 3
      = checksum true (memOf (List.take (3 : Int).toNat [0x12, 0x34, 0x56] ++ [0])) (3 + 1) :=
  checksum_odd_pad true [0x12, 0x34, 0x56] 3 (by decide) (by decide) (by decide)

/-! ## C2: self-verification -/

theorem sumWords_acc (le : Bool) (mem : Mem) : ∀ (n p s a : Nat),
    sumWords le mem p n (s + a) = sumWords le mem p n s + a
  | 0, p, s, a => by simp [sumWords]
  | 1, p, s, a => by simp only [sumWords]; omega
  | n + 2, p, s, a => by
    simp only [sumWords]
    rw [← sumWords_acc le mem n (p + 2) _ a]
    congr 1; omega

theorem sumWords_congr (le : Bool) (m1 m2 : Mem) : ∀ (n p s : Nat),
    (∀ i, p ≤ i → i < p + n → m1 i = m2 i) →
    sumWords le m1 p n s = sumWords le m2 p n s
  | 0, p, s, _ => by simp [sumWords]
  | 1, p, s, h => by
    simp only [sumWords]
    rw [h p (le_refl _) (by omega)]
  | n + 2, p, s, h => by
    simp only [sumWords]
    rw [h p (le_refl _) (by omega), h (p + 1) (by omega) (by omega)]
    exact sumWords_congr le m1 m2 n (p + 2) _ (fun i h1 h2 => h i (by omega) (by omega))

theorem byteOf_val (v : Nat) : (byteOf v).val = v % 256 := rfl

theorem store16_other (le : Bool) (m : Mem) (k v i : Nat) (h1 : i ≠ k) (h2 : i ≠ k + 1) :
    store16 le m k v i = m i := by
  unfold store16 write8
  cases le <;> simp [h1, h2]

theorem load16_store16 (le : Bool) (m : Mem) (k v : Nat) (hv : v < 65536) :
    load16 le (store16 le m k v k) (store16 le m k v (k + 1)) = v := by
  unfold store16 write8 load16
  cases le <;> simp [byteOf_val] <;> omega

/-- Storing a 16-bit value into a zero field at an even offset that lies inside
the summed bytes adds that value to the accumulator. -/
theorem sumWords_store16 (le : Bool) (m : Mem) (k v : Nat) (hv : v < 65536)
    (hz0 : m k = 0) (hz1 : m (k + 1) = 0) : ∀ (j p n s : Nat), k = p + 2 * j → k + 2 ≤ p + n →
    sumWords le (store16 le m k v) p n s = sumWords le m p n s + v
  | 0, p, n, s, hk, hn => by
    obtain ⟨n1, rfl⟩ : ∃ n1, n = n1 + 2 := ⟨n - 2, by omega⟩
    have hp : p = k := by omega
    subst hp
    simp only [sumWords]
    rw [load16_store16 le m p v hv, hz0, hz1,
      sumWords_congr le (store16 le m p v) m n1 (p + 2) _ (fun i h1 _ =>
        store16_other le m p v i (by omega) (by omega))]
    have h00 : load16 le 0 0 = 0 := by cases le <;> rfl
    rw [h00, sumWords_acc]
    rfl
  | j + 1, p, n, s, hk, hn => by
    obtain ⟨n1, rfl⟩ : ∃ n1, n = n1 + 2 := ⟨n - 2, by omega⟩
    simp only [sumWords]
    rw [store16_other le m k v p (by omega) (by omega),
      store16_other le m k v (p + 1) (by omega) (by omega)]
    exact sumWords_store16 le m k v hv hz0 hz1 j (p + 2) n1 _ (by omega) (by omega)

theorem ocFold_complement (s : Nat) : ocFold (s + (65535 - ocFold s)) = 65535 := by
  unfold ocFold
  by_cases hs : s = 0
  · subst hs; rfl
  · rw [if_neg hs, if_neg (by omega)]
    have h1 : s + (65535 - ((s - 1) % 65535 + 1)) - 1
        = 65534 + 65535 * ((s - 1) / 65535) := by
      have := Nat.div_add_mod (s - 1) 65535
      omega
    rw [h1, Nat.add_mul_mod_self_left]

/-- The word sum of a buffer that holds a zero 16-bit field inside the summed
bytes: one word contributes nothing, so the sum is at most `0xFFFF` times the
number of words less one. -/
theorem sumWords_zero_field (le : Bool) (m : Mem) (k n : Nat) (hk : k % 2 = 0)
    (hkn : k + 2 ≤ n) (hz0 : m k = 0) (hz1 : m (k + 1) = 0) :
    sumWords le m 0 n 0 + 65535 ≤ 65535 * ((n + 1) / 2) := by
  have hst := sumWords_store16 le m k 65535 (by norm_num) hz0 hz1 (k / 2) 0 n 0
    (by omega) (by omega)
  have hb := sumWords_bound le (store16 le m k 65535) n 0 0
  omega

/-- Adding the complement of its own one's-complement residue to a sum of at
most `65538 * 0xFFFF` gives a multiple of `0xFFFF` that is again at most
`65538 * 0xFFFF`. -/
theorem complement_sum_bound (s : Nat) (hs : s ≤ 4295032830) :
    s + (65535 - ocFold s) < 4294967296 + 65535 := by
  unfold ocFold
  by_cases h : s = 0
  · subst h; decide
  · rw [if_neg h]
    have := Nat.div_add_mod (s - 1) 65535
    have := Nat.mod_lt (s - 1) (show 0 < 65535 by norm_num)
    omega

/-- C2 (as amended): for every host byte order, every buffer `B` and length
`L <= 131078` within it, and every even offset `k` with `k + 2 <= L` at which
`B` holds a zero 16-bit field, storing `c = checksum(B, L)` into that field
makes the low 16 bits of the folded accumulator `0xFFFF` and the checksum of
the result `0`. -/
theorem checksum_self_verify (le : Bool) (B : List Byte) (L : Int) (k : Nat)
    (h0 : 0 ≤ L) (hL : L ≤ B.length) (hmax : L ≤ 131078)
    (hk : k % 2 = 0) (hkL : (k : Int) + 2 ≤ L)
    (hz0 : memOf B k = 0) (hz1 : memOf B (k + 1) = 0) :
    fold2 (fold1 (sumWords le (store16 le (memOf B) k (checksum le (memOf B) L)) 0 L.toNat 0))
        % 65536 = 65535 ∧
    checksum le (store16 le (memOf B) k (checksum le (memOf B) L)) L = 0 := by
  have _ := hL
  have hzf := sumWords_zero_field le (memOf B) k L.toNat hk (by omega) hz0 hz1
  have hS : sumWords le (memOf B) 0 L.toNat 0 ≤ 4295032830 := by omega
  have hc : checksum le (memOf B) L = 65535 - ocFold (sumWords le (memOf B) 0 L.toNat 0) := by
    unfold checksum
    exact fold_correct _ (by omega)
  have hcv : checksum le (memOf B) L < 65536 := by rw [hc]; omega
  have hst := sumWords_store16 le (memOf B) k _ hcv hz0 hz1 (k / 2) 0 L.toNat 0
    (by omega) (by omega)
  have hlt : sumWords le (store16 le (memOf B) k (checksum le (memOf B) L)) 0 L.toNat 0
      < 4294967296 + 65535 := by
    rw [hst, hc]
    exact complement_sum_bound _ hS
  have hfold : ocFold (sumWords le (store16 le (memOf B) k (checksum le (memOf B) L)) 0
      L.toNat 0) = 65535 := by
    rw [hst, hc]
    exact ocFold_complement _
  unfold checksum at *
  rw [fold_low _ hlt, fold_correct _ hlt, hfold]
  exact ⟨rfl, rfl⟩

/-- Witness for C2: the IP header of the SYN packet, checksum field at
offset 10. -/
theorem checksum_self_verify_witness :
    fold2 (fold1 (sumWords true (store16 true (memOf [0x45, 0, 0, 40, 0xd4, 0x31, 0, 0, 64, 6,
        0, 0, 127, 0, 0, 1, 127, 0, 0, 1]) 10 (checksum true (memOf [0x45, 0, 0, 40, 0xd4, 0x31,
        0, 0, 64, 6, 0, 0, 127, 0, 0, 1, 127, 0, 0, 1]) 20)) 0 (20 : Int).toNat 0))
        % 65536 = 65535 ∧
    checksum true (store16 true (memOf [0x45, 0, 0, 40, 0xd4, 0x31, 0, 0, 64, 6,
        0, 0, 127, 0, 0, 1, 127, 0, 0, 1]) 10 (checksum true (memOf [0x45, 0, 0, 40, 0xd4, 0x31,
        0, 0, 64, 6, 0, 0, 127, 0, 0, 1, 127, 0, 0, 1]) 20)) 20 = 0 :=
  checksum_self_verify true _ 20 10 (by decide) (by decide) (by decide) (by decide) (by decide)
    (by decide) (by decide)

theorem longPacket_length : longPacket.length = 131079 := by
  unfold longPacket
  rw [List.length_cons, List.length_cons, longBuffer_length]

theorem longPacket_sum : (words16 true longPacket).sum = 4295032831 := by
  unfold longPacket
  rw [words16, List.sum_cons, longBuffer_sum]
  rfl

theorem longPacket_sumWords : sumWords true (memOf longPacket) 0 131079 0 = 4295032831 := by
  rw [sumWords_memOf true longPacket 131079 (by rw [longPacket_length]),
    List.take_of_length_le (by rw [longPacket_length]), longPacket_sum]

theorem longPacket_checksum : checksum true (memOf longPacket) 131079 = 65535 := by
  have hn : (131079 : Int).toNat = 131079 := rfl
  unfold checksum
  rw [hn, longPacket_sumWords, notU16_eq, fold2_eq, fold1_eq]

/-- C2 (counterexample): on a little-endian host, for the 131079-byte buffer
made of a zero checksum field at offset 0, 65538 words `0xFFFF` and a last
byte `0x01`, the checksum is `0xFFFF`; with it stored in the field, the
accumulator folds to `0x20000`, whose low 16 bits are `0` and not `0xFFFF`,
and the checksum of the result is `0xFFFF` and not `0`. -/
theorem checksum_self_verify_long :
    (131079 : Int) ≤ longPacket.length ∧
    memOf longPacket 0 = 0 ∧ memOf longPacket 1 = 0 ∧
    fold2 (fold1 (sumWords true (store16 true (memOf longPacket) 0
      (checksum true (memOf longPacket) 131079)) 0 (131079 : Int).toNat 0)) % 65536 = 0 ∧
    checksum true (store16 true (memOf longPacket) 0
      (checksum true (memOf longPacket) 131079)) 131079 = 65535 := by
  have hn : (131079 : Int).toNat = 131079 := rfl
  have hs : sumWords true (store16 true (memOf longPacket) 0 65535) 0 131079 0
      = 4295032831 + 65535 := by
    rw [sumWords_store16 true (memOf longPacket) 0 65535 (by decide) rfl rfl 0 0 131079 0
      rfl (by decide), longPacket_sumWords]
  refine ⟨by rw [longPacket_length]; decide, rfl, rfl, ?_, ?_⟩
  · rw [longPacket_checksum, hn, hs, fold2_eq, fold1_eq]
  · rw [longPacket_checksum]
    unfold checksum
    rw [hn, hs, notU16_eq, fold2_eq, fold1_eq]

/-! ## Byte order: native loads and stores against network order -/

theorem ntohl_load32 (le : Bool) (b0 b1 b2 b3 : Byte) :
    ntohl le (load32 le b0 b1 b2 b3)
      = 16777216 * b0.val + 65536 * b1.val + 256 * b2.val + b3.val := by
  have h0 := b0.isLt
  have h1 := b1.isLt
  have h2 := b2.isLt
  have h3 := b3.isLt
  unfold ntohl htonl load32 bswap32
  cases le <;> simp only [if_true, if_false, Bool.false_eq_true] <;> omega

theorem load16_eq_htons (le : Bool) (b0 b1 : Byte) (v : Nat) (hv : v < 65536) :
    load16 le b0 b1 = htons le v ↔ 256 * b0.val + b1.val = v := by
  have h0 := b0.isLt
  have h1 := b1.isLt
  have hq : v / 256 % 256 = v / 256 := Nat.mod_eq_of_lt (by omega)
  have hr := Nat.div_add_mod v 256
  have hr2 : v % 256 < 256 := Nat.mod_lt v (by decide)
  unfold load16 htons bswap16
  rw [hq]
  generalize v / 256 = q at *
  generalize v % 256 = r at *
  cases le <;> simp only [if_true, if_false, Bool.false_eq_true] <;> constructor <;> intro h <;> omega

/-! ## The SYN-ACK test of lines 187-190 -/

/-- The test of lines 187-190 in terms of the network-order fields of the TCP
header found at `recv_ip->ihl * 4`. -/
theorem isSynAck_eq_true_iff (le : Bool) (buffer : Mem) :
    isSynAck le buffer = true ↔
      (mbe16 buffer (recvTcpOffset buffer) = 12345 ∧
       mbe16 buffer (recvTcpOffset buffer + 2) = 54321 ∧
       flag (buffer (recvTcpOffset buffer + 13)) 1 = 1 ∧
       flag (buffer (recvTcpOffset buffer + 13)) 4 = 1 ∧
       mbe32 buffer (recvTcpOffset buffer + 8) = 201) := by
  unfold isSynAck recvAckField mbe16 mbe32 SERVER_PORT CLIENT_INITIAL_SEQ
  simp only [Bool.and_eq_true, beq_iff_eq, ntohl_load32,
    load16_eq_htons le _ _ 12345 (by decide), load16_eq_htons le _ _ 54321 (by decide)]
  constructor
  · rintro ⟨⟨⟨⟨h1, h2⟩, h3⟩, h4⟩, h5⟩
    exact ⟨h1, h2, h3, h4, h5⟩
  · rintro ⟨h1, h2, h3, h4, h5⟩
    exact ⟨⟨⟨⟨h1, h2⟩, h3⟩, h4⟩, h5⟩

theorem isSynAck_iff_fields (le : Bool) (buffer : Mem) :
    isSynAck le buffer = true ↔
      (recvSrcPort buffer = SERVER_PORT ∧ recvDstPort buffer = CLIENT_PORT ∧
       recvSynFlag buffer = 1 ∧ recvAckFlag buffer = 1 ∧
       recvAckNum buffer = CLIENT_INITIAL_SEQ + 1) :=
  isSynAck_eq_true_iff le buffer

/-- An accepted packet whose ACK is sent: the loop body ends with `break`. -/
theorem loopBody_accept (le : Bool) (startTime : Int) (old : Mem) (p : Poll) (data : List Byte)
    (hrecv : p.recv = some data) (hact : 0 < p.activity) (hset : p.isset = true)
    (hacc : isSynAck le (recvInto old data) = true) :
    loopBody le startTime old p =
      if p.ackSend < 0 then
        Step.ret (-1) [.select (TIMEOUT_SECONDS - (p.now2 - startTime)) p.activity,
          .recvfrom (recvBytes data), .validate true,
          .sendAck (ackPacket le p.stack (recvInto old data)) p.ackSend, .close]
      else
        Step.brk true [.select (TIMEOUT_SECONDS - (p.now2 - startTime)) p.activity,
          .recvfrom (recvBytes data), .validate true,
          .sendAck (ackPacket le p.stack (recvInto old data)) p.ackSend] := by
  unfold loopBody
  simp only [hrecv, hset, hacc]
  rw [if_neg (by omega), if_neg (by omega)]
  simp


/-! ## C7: the TCP header offset follows the IP header length -/

theorem isSynAck_congr (le : Bool) (b1 b2 : Mem) (h0 : b1 0 = b2 0)
    (h : ∀ i, recvTcpOffset b1 ≤ i → i < recvTcpOffset b1 + 20 → b1 i = b2 i) :
    isSynAck le b1 = isSynAck le b2 := by
  have ht : recvTcpOffset b2 = recvTcpOffset b1 := by unfold recvTcpOffset; rw [h0]
  unfold isSynAck recvAckField
  simp only [ht]
  rw [h _ (le_refl _) (by omega), h (recvTcpOffset b1 + 1) (by omega) (by omega),
    h (recvTcpOffset b1 + 2) (by omega) (by omega), h (recvTcpOffset b1 + 3) (by omega) (by omega),
    h (recvTcpOffset b1 + 13) (by omega) (by omega), h (recvTcpOffset b1 + 8) (by omega) (by omega),
    h (recvTcpOffset b1 + 9) (by omega) (by omega), h (recvTcpOffset b1 + 10) (by omega) (by omega),
    h (recvTcpOffset b1 + 11) (by omega) (by omega)]

/-- C7: when the IP header-length field of the packet in the receive buffer is
`h` words, the ports, flags, acknowledgment number and sequence number that
the client inspects are the network-order fields at offset `4 * h`; and for
`h = 6` the outcome of the test is the same for every buffer that differs
only in the four option bytes at offsets 20..23. -/
theorem tcp_header_at_ihl (le : Bool) (buffer : Mem) (h : Nat)
    (hh : (buffer 0).val % 16 = h) :
    recvTcpOffset buffer = 4 * h ∧
    (isSynAck le buffer = true ↔
      (mbe16 buffer (4 * h) = 12345 ∧ mbe16 buffer (4 * h + 2) = 54321 ∧
       flag (buffer (4 * h + 13)) 1 = 1 ∧ flag (buffer (4 * h + 13)) 4 = 1 ∧
       mbe32 buffer (4 * h + 8) = 201)) ∧
    ntohl le (recvSeqField le buffer) = mbe32 buffer (4 * h + 4) ∧
    (h = 6 → ∀ other : Mem, (∀ i, i < 20 ∨ 24 ≤ i → other i = buffer i) →
      isSynAck le other = isSynAck le buffer) := by
  have ht : recvTcpOffset buffer = 4 * h := by unfold recvTcpOffset; omega
  refine ⟨ht, ?_, ?_, ?_⟩
  · rw [isSynAck_eq_true_iff, ht]
  · unfold recvSeqField
    rw [ntohl_load32, ht]
    rfl
  · intro h6 other hother
    have h0 : other 0 = buffer 0 := hother 0 (Or.inl (by decide))
    have hto : recvTcpOffset other = 24 := by
      unfold recvTcpOffset; rw [h0, hh, h6]
    exact isSynAck_congr le other buffer h0 (fun i hi _ => hother i (Or.inr (by omega)))

/-- Witness for C7: a packet with `ihl = 6` and option bytes `9 9 9 9` whose
TCP header at offset 24 is the expected SYN-ACK. -/
theorem tcp_header_at_ihl_witness :
    recvTcpOffset (recvInto zeroMem sampleSynAck) = 4 * 6 ∧
    isSynAck true (recvInto zeroMem sampleSynAck) = true ∧
    ntohl true (recvSeqField true (recvInto zeroMem sampleSynAck)) = 500 ∧
    isSynAck true (write8 (recvInto zeroMem sampleSynAck) 21 77) = true :=
  have hw := tcp_header_at_ihl true (recvInto zeroMem sampleSynAck) 6 (by decide)
  ⟨hw.1, by decide, hw.2.2.1.trans (by decide),
   (hw.2.2.2 rfl (write8 (recvInto zeroMem sampleSynAck) 21 77) (fun i hi => by
      unfold write8
      rw [if_neg (by omega)])).trans (by decide)⟩

/-! ## The packets that are built -/

theorem synIpHeader_zero (le : Bool) (stack : Mem) (i : Nat) (h1 : 20 ≤ i) (h2 : i < 4096) :
    synIpHeader le stack i = 0 := by
  have e : ∀ k : Nat, k < 20 → ¬ (i = k) := fun k hk => by omega
  cases le <;>
  simp [synIpHeader, store16, store32, write8, setHighNibble, setLowNibble, memsetDatagram,
    sizeofDatagram, h2, e]

theorem ackIpHeader_zero (le : Bool) (stack : Mem) (i : Nat) (h1 : 20 ≤ i) (h2 : i < 4096) :
    ackIpHeader le stack i = 0 := by
  have e : ∀ k : Nat, k < 20 → ¬ (i = k) := fun k hk => by omega
  cases le <;>
  simp [ackIpHeader, store16, store32, write8, setHighNibble, setLowNibble, memsetDatagram,
    sizeofDatagram, h2, e]

theorem setIpChecksum_other (le : Bool) (dg : Mem) (i : Nat) (h1 : i ≠ 10) (h2 : i ≠ 11) :
    setIpChecksum le dg i = dg i :=
  store16_other le dg 10 _ i h1 h2

theorem firstBytes_length (m : Mem) (n : Nat) : (firstBytes m n).length = n := by
  simp [firstBytes]

theorem firstBytes_getD (m : Mem) (n i : Nat) (h : i < n) : (firstBytes m n).getD i 0 = m i := by
  simp [firstBytes, List.getD_eq_getElem?_getD, h]

theorem be16_firstBytes (m : Mem) (n off : Nat) (h : off + 1 < n) :
    be16 (firstBytes m n) off = mbe16 m off := by
  unfold be16 mbe16
  rw [firstBytes_getD m n off (by omega), firstBytes_getD m n (off + 1) h]

theorem be32_firstBytes (m : Mem) (n off : Nat) (h : off + 3 < n) :
    be32 (firstBytes m n) off = mbe32 m off := by
  unfold be32 mbe32
  rw [firstBytes_getD m n off (by omega), firstBytes_getD m n (off + 1) (by omega),
    firstBytes_getD m n (off + 2) (by omega), firstBytes_getD m n (off + 3) h]

theorem bswap32_bytes (a b c d : Nat) (ha : a < 256) (hb : b < 256) (hc : c < 256)
    (hd : d < 256) :
    (d * 16777216 + c * 65536 + b * 256 + a) % 256 = a ∧
    (d * 16777216 + c * 65536 + b * 256 + a) / 256 % 256 = b ∧
    (d * 16777216 + c * 65536 + b * 256 + a) / 65536 % 256 = c ∧
    (d * 16777216 + c * 65536 + b * 256 + a) / 16777216 % 256 = d := by
  refine ⟨by omega, by omega, by omega, by omega⟩

theorem mbe32_store32 (le : Bool) (m : Mem) (k w : Nat) :
    mbe32 (store32 le m k w) k =
      if le then 16777216 * (w % 256) + 65536 * (w / 256 % 256) + 256 * (w / 65536 % 256)
        + w / 16777216 % 256
      else 16777216 * (w / 16777216 % 256) + 65536 * (w / 65536 % 256) + 256 * (w / 256 % 256)
        + w % 256 := by
  unfold mbe32 store32 write8
  cases le <;> simp [byteOf_val]

theorem htonl_bytes (le : Bool) (v : Nat) (m : Mem) (k : Nat) :
    mbe32 (store32 le m k (htonl le v)) k = v % 4294967296 := by
  rw [mbe32_store32]
  unfold htonl
  cases le
  · simp only [Bool.false_eq_true, if_false]
    omega
  · have hb := bswap32_bytes (v / 16777216 % 256) (v / 65536 % 256) (v / 256 % 256) (v % 256)
      (Nat.mod_lt _ (by decide)) (Nat.mod_lt _ (by decide)) (Nat.mod_lt _ (by decide))
      (Nat.mod_lt _ (by decide))
    simp only [bswap32, if_true]
    rw [hb.1, hb.2.1, hb.2.2.1, hb.2.2.2]
    clear hb
    omega

/-- The TCP header written by lines 115-122 over twenty zero bytes. -/
theorem synTcpHeader_fields (le : Bool) (dg : Mem) (hz : ∀ i, 20 ≤ i → i < 40 → dg i = 0) :
    mbe16 (synTcpHeader le dg) 20 = 54321 ∧ mbe16 (synTcpHeader le dg) 22 = 12345 ∧
    mbe32 (synTcpHeader le dg) 24 = 200 ∧ mbe32 (synTcpHeader le dg) 28 = 0 ∧
    (synTcpHeader le dg 32).val = 0x50 ∧ (synTcpHeader le dg 33).val = 0x02 ∧
    mbe16 (synTcpHeader le dg) 34 = 8192 ∧ mbe16 (synTcpHeader le dg) 36 = 0 ∧
    mbe16 (synTcpHeader le dg) 38 = 0 := by
  have h32 := hz 32 (by decide) (by decide)
  have h33 := hz 33 (by decide) (by decide)
  have h38 := hz 38 (by decide) (by decide)
  have h39 := hz 39 (by decide) (by decide)
  cases le <;>
  simp [synTcpHeader, mbe16, mbe32, store16, store32, write8, setHighNibble, setFlag, flag,
    sizeofIphdr, htons, htonl, bswap16, bswap32, byteOf_val, SERVER_PORT, CLIENT_INITIAL_SEQ,
    h32, h33, h38, h39]

theorem mbe32_congr (m1 m2 : Mem) (k : Nat) (h : ∀ i, k ≤ i → i < k + 4 → m1 i = m2 i) :
    mbe32 m1 k = mbe32 m2 k := by
  unfold mbe32
  rw [h k (le_refl _) (by omega), h (k + 1) (by omega) (by omega),
    h (k + 2) (by omega) (by omega), h (k + 3) (by omega) (by omega)]

theorem ntohl_recvSeqField (le : Bool) (buffer : Mem) :
    ntohl le (recvSeqField le buffer) = recvSeqNum buffer := by
  unfold recvSeqField recvSeqNum
  rw [ntohl_load32]
  rfl

/-- The acknowledgment number written by line 222. -/
theorem ackTcpHeader_ackNum (le : Bool) (buffer dg : Mem) :
    mbe32 (ackTcpHeader le buffer dg) 28 = (recvSeqNum buffer + 1) % 4294967296 := by
  have h := htonl_bytes le ((ntohl le (recvSeqField le buffer) + 1) % 4294967296)
    (store32 le (store16 le (store16 le dg 20 (htons le 54321)) 22 (htons le SERVER_PORT)) 24
      (htonl le CLIENT_ACK_SEQ)) 28
  rw [ntohl_recvSeqField, Nat.mod_mod] at h
  rw [← h]
  apply mbe32_congr
  intro i h1 h2
  have e : ∀ k : Nat, 32 ≤ k → ¬ (i = k) := fun k hk => by omega
  cases le <;>
  simp [ackTcpHeader, sizeofIphdr, store16, write8, setHighNibble, setFlag, e,
    ntohl_recvSeqField]

/-- The other TCP header fields written by lines 219-226 over twenty zero
bytes. -/
theorem ackTcpHeader_fields (le : Bool) (buffer dg : Mem)
    (hz : ∀ i, 20 ≤ i → i < 40 → dg i = 0) :
    mbe16 (ackTcpHeader le buffer dg) 20 = 54321 ∧ mbe16 (ackTcpHeader le buffer dg) 22 = 12345 ∧
    mbe32 (ackTcpHeader le buffer dg) 24 = 600 ∧
    (ackTcpHeader le buffer dg 32).val = 0x50 ∧ (ackTcpHeader le buffer dg 33).val = 0x10 ∧
    mbe16 (ackTcpHeader le buffer dg) 34 = 8192 ∧ mbe16 (ackTcpHeader le buffer dg) 36 = 0 ∧
    mbe16 (ackTcpHeader le buffer dg) 38 = 0 := by
  have h32 := hz 32 (by decide) (by decide)
  have h33 := hz 33 (by decide) (by decide)
  have h38 := hz 38 (by decide) (by decide)
  have h39 := hz 39 (by decide) (by decide)
  cases le <;>
  simp [ackTcpHeader, mbe16, mbe32, store16, store32, write8, setHighNibble, setFlag, flag,
    sizeofIphdr, htons, htonl, bswap16, bswap32, byteOf_val, SERVER_PORT, CLIENT_ACK_SEQ,
    h32, h33, h38, h39]

theorem ackDatagram_zero (le : Bool) (stack : Mem) (i : Nat) (h1 : 20 ≤ i) (h2 : i < 40) :
    setIpChecksum le (ackIpHeader le stack) i = 0 := by
  rw [setIpChecksum_other le _ i (by omega) (by omega)]
  exact ackIpHeader_zero le stack i h1 (by omega)

theorem synDatagram_zero (le : Bool) (stack : Mem) (i : Nat) (h1 : 20 ≤ i) (h2 : i < 40) :
    setIpChecksum le (synIpHeader le stack) i = 0 := by
  rw [setIpChecksum_other le _ i (by omega) (by omega)]
  exact synIpHeader_zero le stack i h1 (by omega)

/-! ## C4: the ACK packet -/

/-- C4: when the loop body accepts a SYN-ACK whose sequence number is `s`, the
one `sendto` it performs sends the 40 bytes of `ackPacket`, whose TCP header
(bytes 20..39) has, in network byte order, source port 54321, destination port
12345, sequence number 600 = `CLIENT_ACK_SEQ`, acknowledgment number
`(s + 1) mod 2^32`, data offset 5, ACK set, SYN clear, window 8192 and
checksum 0. -/
theorem ack_packet_fields (le : Bool) (startTime : Int) (old : Mem) (p : Poll)
    (data : List Byte) (hrecv : p.recv = some data) (hact : 0 < p.activity)
    (hset : p.isset = true) (hacc : isSynAck le (recvInto old data) = true) :
    Event.sendAck (ackPacket le p.stack (recvInto old data)) p.ackSend
      ∈ (loopBody le startTime old p).events ∧
    (∀ pkt r, Event.sendAck pkt r ∈ (loopBody le startTime old p).events →
      pkt = ackPacket le p.stack (recvInto old data)) ∧
    (ackPacket le p.stack (recvInto old data)).length = 40 ∧
    be16 (ackPacket le p.stack (recvInto old data)) 20 = 54321 ∧
    be16 (ackPacket le p.stack (recvInto old data)) 22 = 12345 ∧
    be32 (ackPacket le p.stack (recvInto old data)) 24 = 600 ∧
    CLIENT_ACK_SEQ = 600 ∧
    be32 (ackPacket le p.stack (recvInto old data)) 28
      = (recvSeqNum (recvInto old data) + 1) % 4294967296 ∧
    ((ackPacket le p.stack (recvInto old data)).getD 32 0).val / 16 = 5 ∧
    flag ((ackPacket le p.stack (recvInto old data)).getD 33 0) 4 = 1 ∧
    flag ((ackPacket le p.stack (recvInto old data)).getD 33 0) 1 = 0 ∧
    be16 (ackPacket le p.stack (recvInto old data)) 34 = 8192 ∧
    be16 (ackPacket le p.stack (recvInto old data)) 36 = 0 := by
  have hbody := loopBody_accept le startTime old p data hrecv hact hset hacc
  have hf := ackTcpHeader_fields le (recvInto old data) (setIpChecksum le (ackIpHeader le p.stack))
    (fun i h1 h2 => ackDatagram_zero le p.stack i h1 h2)
  have ha := ackTcpHeader_ackNum le (recvInto old data) (setIpChecksum le (ackIpHeader le p.stack))
  have h40 : sizeofIphdr + sizeofTcphdr = 40 := rfl
  refine ⟨?_, ?_, ?_, ?_, ?_, ?_, rfl, ?_, ?_, ?_, ?_, ?_, ?_⟩
  · rw [hbody]; split <;> simp [Step.events]
  · intro pkt r hmem
    rw [hbody] at hmem
    split at hmem <;> simp [Step.events] at hmem <;> exact hmem.1
  · unfold ackPacket; rw [firstBytes_length]; rfl
  · unfold ackPacket; rw [h40, be16_firstBytes _ _ _ (by decide)]; exact hf.1
  · unfold ackPacket; rw [h40, be16_firstBytes _ _ _ (by decide)]; exact hf.2.1
  · unfold ackPacket; rw [h40, be32_firstBytes _ _ _ (by decide)]; exact hf.2.2.1
  · unfold ackPacket; rw [h40, be32_firstBytes _ _ _ (by decide)]; exact ha
  · unfold ackPacket; rw [h40, firstBytes_getD _ _ _ (by decide)]
    unfold ackDatagram; rw [hf.2.2.2.1]
  · unfold ackPacket; rw [h40, firstBytes_getD _ _ _ (by decide)]
    unfold ackDatagram flag; rw [hf.2.2.2.2.1]; decide
  · unfold ackPacket; rw [h40, firstBytes_getD _ _ _ (by decide)]
    unfold ackDatagram flag; rw [hf.2.2.2.2.1]; decide
  · unfold ackPacket; rw [h40, be16_firstBytes _ _ _ (by decide)]; exact hf.2.2.2.2.2.1
  · unfold ackPacket; rw [h40, be16_firstBytes _ _ _ (by decide)]; exact hf.2.2.2.2.2.2.1

/-- Witness for C4: the peer's SYN-ACK has sequence number 500 and
acknowledgment number 201; it is accepted and the ACK carries acknowledgment
number 501 and sequence number 600. -/
theorem ack_packet_fields_witness :
    isSynAck true (recvInto zeroMem plainSynAck) = true ∧
    recvSeqNum (recvInto zeroMem plainSynAck) = 500 ∧
    recvAckNum (recvInto zeroMem plainSynAck) = 201 ∧
    be32 (ackPacket true acceptPoll.stack (recvInto zeroMem plainSynAck)) 28 = 501 ∧
    be32 (ackPacket true acceptPoll.stack (recvInto zeroMem plainSynAck)) 24 = 600 :=
  have hw := ack_packet_fields true 100 zeroMem acceptPoll plainSynAck rfl (by decide) rfl
    (by decide)
  ⟨by decide, by decide, by decide, hw.2.2.2.2.2.2.2.1.trans (by decide), hw.2.2.2.2.2.1⟩

/-! ## C5: the SYN packet -/

/-- The six ways in which one execution of the loop body can end. -/
theorem loopBody_cases (le : Bool) (startTime : Int) (buffer : Mem) (p : Poll) :
    (p.activity < 0 ∧ loopBody le startTime buffer p =
      .ret (-1) [.select (TIMEOUT_SECONDS - (p.now2 - startTime)) p.activity, .close]) ∨
    (0 ≤ p.activity ∧ loopBody le startTime buffer p =
      .next buffer [.select (TIMEOUT_SECONDS - (p.now2 - startTime)) p.activity]) ∨
    (0 ≤ p.activity ∧ loopBody le startTime buffer p =
      .next buffer [.select (TIMEOUT_SECONDS - (p.now2 - startTime)) p.activity,
        .recvfrom (-1)]) ∨
    (∃ data, 0 ≤ p.activity ∧ p.recv = some data ∧
      isSynAck le (recvInto buffer data) = false ∧
      loopBody le startTime buffer p = .next (recvInto buffer data)
        [.select (TIMEOUT_SECONDS - (p.now2 - startTime)) p.activity,
         .recvfrom (recvBytes data), .validate false]) ∨
    (∃ data, 0 ≤ p.activity ∧ p.recv = some data ∧
      isSynAck le (recvInto buffer data) = true ∧ p.ackSend < 0 ∧
      loopBody le startTime buffer p = .ret (-1)
        [.select (TIMEOUT_SECONDS - (p.now2 - startTime)) p.activity,
         .recvfrom (recvBytes data), .validate true,
         .sendAck (ackPacket le p.stack (recvInto buffer data)) p.ackSend, .close]) ∨
    (∃ data, 0 ≤ p.activity ∧ p.recv = some data ∧
      isSynAck le (recvInto buffer data) = true ∧ 0 ≤ p.ackSend ∧
      loopBody le startTime buffer p = .brk true
        [.select (TIMEOUT_SECONDS - (p.now2 - startTime)) p.activity,
         .recvfrom (recvBytes data), .validate true,
         .sendAck (ackPacket le p.stack (recvInto buffer data)) p.ackSend]) := by
  unfold loopBody
  by_cases h1 : p.activity < 0
  · exact Or.inl ⟨h1, by simp [h1]⟩
  · have h0 : 0 ≤ p.activity := by omega
    by_cases h2 : p.activity = 0
    · exact Or.inr (Or.inl ⟨h0, by simp [h2]⟩)
    · by_cases h3 : p.isset = true
      · cases h4 : p.recv with
        | none => exact Or.inr (Or.inr (Or.inl ⟨h0, by simp [h1, h2, h3]⟩))
        | some data =>
          cases h5 : isSynAck le (recvInto buffer data) with
          | false =>
            exact Or.inr (Or.inr (Or.inr (Or.inl
              ⟨data, h0, rfl, h5, by simp [h1, h2, h3, h5]⟩)))
          | true =>
            by_cases h6 : p.ackSend < 0
            · exact Or.inr (Or.inr (Or.inr (Or.inr (Or.inl
                ⟨data, h0, rfl, h5, h6, by simp [h1, h2, h3, h5, h6]⟩))))
            · exact Or.inr (Or.inr (Or.inr (Or.inr (Or.inr
                ⟨data, h0, rfl, h5, by omega, by simp [h1, h2, h3, h5, h6]⟩))))
      · exact Or.inr (Or.inl ⟨h0, by simp [h1, h2, h3]⟩)

theorem loopBody_no_sendSyn (le : Bool) (startTime : Int) (buffer : Mem) (p : Poll)
    (pkt : List Byte) (r : Int) :
    Event.sendSyn pkt r ∉ (loopBody le startTime buffer p).events := by
  rcases loopBody_cases le startTime buffer p with
    ⟨_, h⟩ | ⟨_, h⟩ | ⟨_, h⟩ | ⟨_, _, _, _, h⟩ | ⟨_, _, _, _, _, h⟩ | ⟨_, _, _, _, _, h⟩ <;>
  rw [h] <;> simp [Step.events]

theorem afterLoop_no_sendSyn (received : Bool) (pkt : List Byte) (r : Int) :
    Event.sendSyn pkt r ∉ (afterLoop received).trace := by
  cases received <;> simp [afterLoop]

theorem waitLoop_no_sendSyn (le : Bool) (startTime : Int) (pkt : List Byte) (r : Int) :
    ∀ (polls : List Poll) (buffer : Mem) (out : Outcome),
      waitLoop le startTime buffer polls = some out → Event.sendSyn pkt r ∉ out.trace
  | [], _, _, h => by simp [waitLoop] at h
  | p :: ps, buffer, out, h => by
    have hb := loopBody_no_sendSyn le startTime buffer p pkt r
    rw [waitLoop] at h
    split_ifs at h with hnow
    · split at h
      · rename_i buffer1 ev heq
        rw [heq] at hb
        rcases hw : waitLoop le startTime buffer1 ps with _ | o
        · rw [hw] at h; simp at h
        · rw [hw] at h
          simp only [Option.map_some', Option.some.injEq] at h
          have ih := waitLoop_no_sendSyn le startTime pkt r ps buffer1 o hw
          rw [← h]
          simp only [Outcome.after, List.mem_append, not_or]
          exact ⟨hb, ih⟩
      · rename_i code ev heq
        rw [heq] at hb
        simp only [Option.some.injEq] at h
        rw [← h]; exact hb
      · rename_i received ev heq
        rw [heq] at hb
        simp only [Option.some.injEq] at h
        rw [← h]
        simp only [Outcome.after, List.mem_append, not_or]
        exact ⟨hb, afterLoop_no_sendSyn received pkt r⟩
    · simp only [Option.some.injEq] at h
      rw [← h]; exact afterLoop_no_sendSyn false pkt r

/-- Every SYN `sendto` of a run sends `synPacket`. -/
theorem main_sendSyn (env : Env) (out : Outcome) (pkt : List Byte) (r : Int)
    (hrun : main env = some out) (hmem : Event.sendSyn pkt r ∈ out.trace) :
    pkt = synPacket env.le env.stack := by
  unfold main at hrun
  split_ifs at hrun with h1 h2 h3
  · simp only [Option.some.injEq] at hrun
    rw [← hrun] at hmem; simp at hmem
  · simp only [Option.some.injEq] at hrun
    rw [← hrun] at hmem; simp at hmem
  · simp only [Option.some.injEq] at hrun
    rw [← hrun] at hmem; simp at hmem
    exact hmem.1
  · rcases hw : waitLoop env.le env.startTime env.buffer env.polls with _ | o
    · rw [hw] at hrun; simp at hrun
    · rw [hw] at hrun
      simp only [Option.map_some', Option.some.injEq] at hrun
      rw [← hrun] at hmem
      simp only [Outcome.after, List.mem_append, List.mem_cons, List.mem_singleton] at hmem
      rcases hmem with hmem | hmem
      · simp at hmem
        exact hmem.1
      · exact absurd hmem (waitLoop_no_sendSyn env.le env.startTime pkt r _ _ o hw)

/-- C5: the TCP header of every SYN packet that a run transmits (bytes 20..39
of the 40 bytes sent) has, in network byte order, source port 54321,
destination port 12345, sequence number 200 = `CLIENT_INITIAL_SEQ`,
acknowledgment number 0, data offset 5, a flag byte with SYN set and every
other flag (ACK among them) clear, window 8192 and checksum 0. -/
theorem syn_packet_fields (env : Env) (out : Outcome) (pkt : List Byte) (r : Int)
    (hrun : main env = some out) (hmem : Event.sendSyn pkt r ∈ out.trace) :
    pkt.length = 40 ∧ be16 pkt 20 = 54321 ∧ be16 pkt 22 = 12345 ∧
    be32 pkt 24 = 200 ∧ CLIENT_INITIAL_SEQ = 200 ∧ be32 pkt 28 = 0 ∧
    (pkt.getD 32 0).val / 16 = 5 ∧ (pkt.getD 33 0).val = 2 ∧
    flag (pkt.getD 33 0) 1 = 1 ∧ flag (pkt.getD 33 0) 4 = 0 ∧
    be16 pkt 34 = 8192 ∧ be16 pkt 36 = 0 := by
  rw [main_sendSyn env out pkt r hrun hmem]
  have hf := synTcpHeader_fields env.le (setIpChecksum env.le (synIpHeader env.le env.stack))
    (fun i h1 h2 => synDatagram_zero env.le env.stack i h1 h2)
  have h40 : sizeofIphdr + sizeofTcphdr = 40 := rfl
  have h33 : ((synPacket env.le env.stack).getD 33 0).val = 2 := by
    unfold synPacket; rw [h40, firstBytes_getD _ _ _ (by decide)]
    unfold synDatagram; rw [hf.2.2.2.2.2.1]
  refine ⟨?_, ?_, ?_, ?_, rfl, ?_, ?_, h33, ?_, ?_, ?_, ?_⟩
  · unfold synPacket; rw [firstBytes_length]; rfl
  · unfold synPacket; rw [h40, be16_firstBytes _ _ _ (by decide)]; exact hf.1
  · unfold synPacket; rw [h40, be16_firstBytes _ _ _ (by decide)]; exact hf.2.1
  · unfold synPacket; rw [h40, be32_firstBytes _ _ _ (by decide)]; exact hf.2.2.1
  · unfold synPacket; rw [h40, be32_firstBytes _ _ _ (by decide)]; exact hf.2.2.2.1
  · unfold synPacket; rw [h40, firstBytes_getD _ _ _ (by decide)]
    unfold synDatagram; rw [hf.2.2.2.2.1]
  · unfold flag; rw [h33]; decide
  · unfold flag; rw [h33]; decide
  · unfold synPacket; rw [h40, be16_firstBytes _ _ _ (by decide)]; exact hf.2.2.2.2.2.2.1
  · unfold synPacket; rw [h40, be16_firstBytes _ _ _ (by decide)]; exact hf.2.2.2.2.2.2.2.1

/-! ## The IP checksum call -/

theorem sumWords_zero (le : Bool) (mem : Mem) : ∀ (n p s : Nat),
    (∀ i, p ≤ i → i < p + n → mem i = 0) → sumWords le mem p n s = s
  | 0, p, s, _ => by simp [sumWords]
  | 1, p, s, h => by
    have h00 : load16 le 0 0 = 0 := by cases le <;> rfl
    simp only [sumWords]
    rw [h p (le_refl _) (by omega), h00]
    rfl
  | n + 2, p, s, h => by
    have h00 : load16 le 0 0 = 0 := by cases le <;> rfl
    simp only [sumWords]
    rw [h p (le_refl _) (by omega), h (p + 1) (by omega) (by omega), h00,
      sumWords_zero le mem n (p + 2) _ (fun i h1 h2 => h i (by omega) (by omega))]
    rfl

theorem sumWords_split (le : Bool) (mem : Mem) (n : Nat) : ∀ (a p s : Nat),
    sumWords le mem p (2 * a + n) s = sumWords le mem (p + 2 * a) n (sumWords le mem p (2 * a) s)
  | 0, p, s => by simp [sumWords]
  | a + 1, p, s => by
    have h1 : 2 * (a + 1) + n = (2 * a + n) + 2 := by omega
    have h2 : 2 * (a + 1) = 2 * a + 2 := by omega
    have h3 : p + (2 * a + 2) = p + 2 + 2 * a := by omega
    rw [h1, h2, sumWords, sumWords, sumWords_split le mem n a (p + 2), h3]

/-- Zero bytes after an even offset do not change the checksum. -/
theorem checksum_zero_tail (le : Bool) (mem : Mem) (a n : Nat)
    (h : ∀ i, 2 * a ≤ i → i < 2 * a + n → mem i = 0) :
    checksum le mem ((2 * a + n : Nat) : Int) = checksum le mem ((2 * a : Nat) : Int) := by
  unfold checksum
  rw [Int.toNat_ofNat, Int.toNat_ofNat, sumWords_split le mem n a 0 0,
    sumWords_zero le mem n (0 + 2 * a) _ (fun i h1 h2 => h i (by omega) (by omega))]

theorem synIpHeader_beyond (le : Bool) (stack : Mem) (i : Nat) (h : 4096 ≤ i) :
    synIpHeader le stack i = stack i := by
  have e : ∀ k : Nat, k < 20 → ¬ (i = k) := fun k hk => by omega
  have h2 : ¬ (i < 4096) := by omega
  cases le <;>
  simp [synIpHeader, store16, store32, write8, setHighNibble, setLowNibble, memsetDatagram,
    sizeofDatagram, h2, e]

theorem ackIpHeader_beyond (le : Bool) (stack : Mem) (i : Nat) (h : 4096 ≤ i) :
    ackIpHeader le stack i = stack i := by
  have e : ∀ k : Nat, k < 20 → ¬ (i = k) := fun k hk => by omega
  have h2 : ¬ (i < 4096) := by omega
  cases le <;>
  simp [ackIpHeader, store16, store32, write8, setHighNibble, setLowNibble, memsetDatagram,
    sizeofDatagram, h2, e]

/-- The byte count handed to `checksum` when the SYN packet is built: the
network-order field read natively, 10240 on a little-endian host and 40 on a
big-endian host. -/
theorem checksumCount_syn (le : Bool) (stack : Mem) :
    checksumCount le (synIpHeader le stack) = if le then 10240 else 40 := by
  cases le <;>
  simp [checksumCount, synIpHeader, store16, store32, write8, load16, htons, bswap16,
    sizeofIphdr, sizeofTcphdr, byteOf_val]

/-- The byte count handed to `checksum` when the ACK packet is built. -/
theorem checksumCount_ack (le : Bool) (stack : Mem) :
    checksumCount le (ackIpHeader le stack) = if le then 10240 else 40 := by
  cases le <;>
  simp [checksumCount, ackIpHeader, store16, store32, write8, load16, htons, bswap16,
    sizeofIphdr, sizeofTcphdr, byteOf_val]

theorem synIpHeader_zeroMem (le : Bool) (i : Nat) (h : 20 ≤ i) :
    synIpHeader le zeroMem i = 0 := by
  rcases Nat.lt_or_ge i 4096 with h2 | h2
  · exact synIpHeader_zero le zeroMem i h h2
  · rw [synIpHeader_beyond le zeroMem i h2]; rfl

theorem ackIpHeader_zeroMem (le : Bool) (i : Nat) (h : 20 ≤ i) :
    ackIpHeader le zeroMem i = 0 := by
  rcases Nat.lt_or_ge i 4096 with h2 | h2
  · exact ackIpHeader_zero le zeroMem i h h2
  · rw [ackIpHeader_beyond le zeroMem i h2]; rfl

theorem synChecksum_zeroMem :
    checksum true (synIpHeader true zeroMem) (checksumCount true (synIpHeader true zeroMem))
      = 40104 := by
  rw [checksumCount_syn]
  have h := checksum_zero_tail true (synIpHeader true zeroMem) 10 10220
    (fun i h1 _ => synIpHeader_zeroMem true i (by omega))
  have e1 : ((2 * 10 + 10220 : Nat) : Int) = 10240 := by norm_num
  rw [e1] at h
  simp only [if_true]
  rw [h]
  decide

theorem ackChecksum_zeroMem :
    checksum true (ackIpHeader true zeroMem) (checksumCount true (ackIpHeader true zeroMem))
      = 40104 := by
  rw [checksumCount_ack]
  have h := checksum_zero_tail true (ackIpHeader true zeroMem) 10 10220
    (fun i h1 _ => ackIpHeader_zeroMem true i (by omega))
  have e1 : ((2 * 10 + 10220 : Nat) : Int) = 10240 := by norm_num
  rw [e1] at h
  simp only [if_true]
  rw [h]
  decide

theorem synPacket_zeroMem :
    synPacket true zeroMem =
      [0x45, 0, 0, 40, 0xd4, 0x31, 0, 0, 64, 6, 0xa8, 0x9c, 127, 0, 0, 1, 127, 0, 0, 1,
       0xd4, 0x31, 0x30, 0x39, 0, 0, 0, 200, 0, 0, 0, 0, 0x50, 0x02, 0x20, 0, 0, 0, 0, 0] := by
  unfold synPacket synDatagram setIpChecksum
  rw [synChecksum_zeroMem]
  decide

theorem ackPacket_zeroMem :
    ackPacket true zeroMem (recvInto zeroMem plainSynAck) =
      [0x45, 0, 0, 40, 0xd4, 0x31, 0, 0, 64, 6, 0xa8, 0x9c, 127, 0, 0, 1, 127, 0, 0, 1,
       0xd4, 0x31, 0x30, 0x39, 0, 0, 2, 0x58, 0, 0, 1, 0xf5, 0x50, 0x10, 0x20, 0, 0, 0, 0, 0] := by
  unfold ackPacket ackDatagram setIpChecksum
  rw [ackChecksum_zeroMem]
  decide

theorem main_acceptEnv : main acceptEnv = some acceptOutcome := by
  have h3 : isSynAck true (recvInto zeroMem plainSynAck) = true := by decide
  have h4 : recvBytes plainSynAck = 40 := by decide
  simp [main, acceptEnv, acceptPoll, waitLoop, loopBody, afterLoop, Outcome.after, acceptOutcome,
    TIMEOUT_SECONDS, synPacket_zeroMem, ackPacket_zeroMem, h3, h4]

/-- Witness for C5: the SYN packet of the run `acceptEnv`. -/
theorem syn_packet_fields_witness :
    (synPacket true zeroMem).length = 40 ∧ be16 (synPacket true zeroMem) 20 = 54321 ∧
    be16 (synPacket true zeroMem) 22 = 12345 ∧
    be32 (synPacket true zeroMem) 24 = 200 ∧ CLIENT_INITIAL_SEQ = 200 ∧
    be32 (synPacket true zeroMem) 28 = 0 ∧
    ((synPacket true zeroMem).getD 32 0).val / 16 = 5 ∧
    ((synPacket true zeroMem).getD 33 0).val = 2 ∧
    flag ((synPacket true zeroMem).getD 33 0) 1 = 1 ∧
    flag ((synPacket true zeroMem).getD 33 0) 4 = 0 ∧
    be16 (synPacket true zeroMem) 34 = 8192 ∧ be16 (synPacket true zeroMem) 36 = 0 :=
  syn_packet_fields acceptEnv acceptOutcome (synPacket true zeroMem) 40 main_acceptEnv
    (by rw [synPacket_zeroMem]; decide)

/-! ## The wait loop: shape of the outcome and termination -/

theorem waitLoop_outcome (le : Bool) (startTime : Int) :
    ∀ (polls : List Poll) (buffer : Mem) (out : Outcome),
      waitLoop le startTime buffer polls = some out → LoopOutcome out
  | [], _, _, h => by simp [waitLoop] at h
  | p :: ps, buffer, out, h => by
    rw [waitLoop] at h
    split_ifs at h with hnow
    · have ih : ∀ buffer1 ev, (waitLoop le startTime buffer1 ps).map (Outcome.after ev) = some out →
          ∃ o, LoopOutcome o ∧ out = o.after ev := by
        intro buffer1 ev hm
        rcases hw : waitLoop le startTime buffer1 ps with _ | o
        · rw [hw] at hm; simp at hm
        · rw [hw] at hm
          simp only [Option.map_some', Option.some.injEq] at hm
          exact ⟨o, waitLoop_outcome le startTime ps buffer1 o hw, hm.symm⟩
      rcases loopBody_cases le startTime buffer p with
        ⟨h1, hb⟩ | ⟨h0, hb⟩ | ⟨h0, hb⟩ | ⟨data, h0, _, _, hb⟩ | ⟨data, h0, _, _, h1, hb⟩ |
        ⟨data, h0, _, _, h1, hb⟩
      · rw [hb] at h
        simp only [Option.some.injEq] at h
        rw [← h]; exact LoopOutcome.selectFailed _ _ h1
      · rw [hb] at h
        obtain ⟨o, ho, rfl⟩ := ih _ _ h
        exact LoopOutcome.idle _ _ h0 o ho
      · rw [hb] at h
        obtain ⟨o, ho, rfl⟩ := ih _ _ h
        exact LoopOutcome.recvFailed _ _ h0 o ho
      · rw [hb] at h
        obtain ⟨o, ho, rfl⟩ := ih _ _ h
        exact LoopOutcome.rejected _ _ _ h0 o ho
      · rw [hb] at h
        simp only [Option.some.injEq] at h
        rw [← h]; exact LoopOutcome.ackFailed _ _ _ h0 _ _ h1
      · rw [hb] at h
        simp only [Option.some.injEq] at h
        rw [← h]; exact LoopOutcome.accepted _ _ _ h0 _ _ h1
    · simp only [Option.some.injEq] at h
      rw [← h]; exact LoopOutcome.deadline

/-- The wait loop returns as soon as the answers contain a clock reading at
or past the deadline. -/
theorem waitLoop_terminates (le : Bool) (startTime : Int) :
    ∀ (polls : List Poll) (buffer : Mem),
      (∃ p ∈ polls, TIMEOUT_SECONDS ≤ p.now1 - startTime) →
      ∃ out, waitLoop le startTime buffer polls = some out
  | [], _, h => by simp at h
  | p :: ps, buffer, h => by
    rw [waitLoop]
    split_ifs with hnow
    · have hps : ∃ q ∈ ps, TIMEOUT_SECONDS ≤ q.now1 - startTime := by
        obtain ⟨q, hq, hle⟩ := h
        rcases List.mem_cons.mp hq with rfl | hq
        · omega
        · exact ⟨q, hq, hle⟩
      rcases hb : loopBody le startTime buffer p with ⟨buffer1, ev⟩ | ⟨code, ev⟩ | ⟨received, ev⟩
      · obtain ⟨o, ho⟩ := waitLoop_terminates le startTime ps buffer1 hps
        exact ⟨o.after ev, by simp [ho]⟩
      · exact ⟨_, rfl⟩
      · exact ⟨_, rfl⟩
    · exact ⟨_, rfl⟩

/-- The outcome of a run: a failed setup, a failed SYN `sendto`, or the setup
actions followed by an outcome of the wait loop. -/
theorem main_outcome (env : Env) (out : Outcome) (hrun : main env = some out) :
    (env.sock < 0 ∧ out = { trace := [.socket env.sock], ret := -1 }) ∨
    (0 ≤ env.sock ∧ env.setsockopt < 0 ∧
      out = { trace := [.socket env.sock, .setsockopt env.setsockopt, .close], ret := -1 }) ∨
    (0 ≤ env.sock ∧ 0 ≤ env.setsockopt ∧ env.synSend < 0 ∧
      out = { trace := [.socket env.sock, .setsockopt env.setsockopt,
        .sendSyn (synPacket env.le env.stack) env.synSend, .close], ret := -1 }) ∨
    (0 ≤ env.sock ∧ 0 ≤ env.setsockopt ∧ 0 ≤ env.synSend ∧
      ∃ o, LoopOutcome o ∧ out = o.after [.socket env.sock, .setsockopt env.setsockopt,
        .sendSyn (synPacket env.le env.stack) env.synSend]) := by
  unfold main at hrun
  split_ifs at hrun with h1 h2 h3
  · simp only [Option.some.injEq] at hrun
    exact Or.inl ⟨h1, hrun.symm⟩
  · simp only [Option.some.injEq] at hrun
    exact Or.inr (Or.inl ⟨by omega, h2, hrun.symm⟩)
  · simp only [Option.some.injEq] at hrun
    exact Or.inr (Or.inr (Or.inl ⟨by omega, by omega, h3, hrun.symm⟩))
  · rcases hw : waitLoop env.le env.startTime env.buffer env.polls with _ | o
    · rw [hw] at hrun; simp at hrun
    · rw [hw] at hrun
      simp only [Option.map_some', Option.some.injEq] at hrun
      exact Or.inr (Or.inr (Or.inr ⟨by omega, by omega, by omega, o,
        waitLoop_outcome env.le env.startTime _ _ o hw, hrun.symm⟩))

/-! ## The value returned by the wait loop -/

theorem loopOutcome_ret (o : Outcome) (h : LoopOutcome o) :
    (o.ret = 0 ∨ o.ret = -1) ∧
    (o.ret = 0 ↔ (Event.validate true ∈ o.trace ∧
      ∃ pkt r, Event.sendAck pkt r ∈ o.trace ∧ 0 ≤ r)) := by
  induction h with
  | deadline => simp [afterLoop]
  | selectFailed tv r h => simp
  | idle tv r hr o _ ih => simpa [Outcome.after] using ih
  | recvFailed tv r hr o _ ih => simpa [Outcome.after] using ih
  | rejected tv r n hr o _ ih => simpa [Outcome.after] using ih
  | ackFailed tv r n hr pkt s h =>
    refine ⟨Or.inr rfl, ?_⟩
    simp only [List.mem_cons, List.mem_singleton, reduceCtorEq, false_or, or_false,
      Event.sendAck.injEq, List.not_mem_nil]
    constructor
    · intro h0; simp at h0
    · rintro ⟨_, pkt1, r1, ⟨_, rfl⟩, h2⟩; omega
  | accepted tv r n hr pkt s h =>
    refine ⟨Or.inl rfl, ?_⟩
    simp only [afterLoop, Outcome.after]
    constructor
    · intro _
      exact ⟨by simp, pkt, s, by simp, h⟩
    · intro _; rfl

/-- The failures inside the wait loop end the run with -1: a `select` or an
ACK `sendto` with a negative result, and the deadline (timeout message). -/
theorem loopOutcome_failures (o : Outcome) (h : LoopOutcome o) :
    (∀ tv r, Event.select tv r ∈ o.trace → r < 0 → o.ret = -1) ∧
    (∀ pkt r, Event.sendAck pkt r ∈ o.trace → r < 0 → o.ret = -1) ∧
    (Event.timeoutMessage ∈ o.trace → o.ret = -1) := by
  induction h with
  | deadline => simp [afterLoop]
  | selectFailed tv r h => simp
  | idle tv r hr o _ ih =>
    refine ⟨?_, ?_, ?_⟩
    · intro tv1 r1 hm hneg
      simp only [Outcome.after, List.singleton_append, List.mem_cons, Event.select.injEq] at hm
      rcases hm with ⟨_, rfl⟩ | hm
      · omega
      · exact ih.1 tv1 r1 hm hneg
    · intro pkt r1 hm hneg
      simp only [Outcome.after, List.singleton_append, List.mem_cons, reduceCtorEq,
        false_or] at hm
      exact ih.2.1 pkt r1 hm hneg
    · intro hm
      simp only [Outcome.after, List.singleton_append, List.mem_cons, reduceCtorEq,
        false_or] at hm
      exact ih.2.2 hm
  | recvFailed tv r hr o _ ih =>
    refine ⟨?_, ?_, ?_⟩
    · intro tv1 r1 hm hneg
      simp only [Outcome.after, List.cons_append, List.nil_append, List.mem_cons,
        Event.select.injEq, reduceCtorEq, false_or] at hm
      rcases hm with ⟨_, rfl⟩ | hm
      · omega
      · exact ih.1 tv1 r1 hm hneg
    · intro pkt r1 hm hneg
      simp only [Outcome.after, List.cons_append, List.nil_append, List.mem_cons, reduceCtorEq,
        false_or] at hm
      exact ih.2.1 pkt r1 hm hneg
    · intro hm
      simp only [Outcome.after, List.cons_append, List.nil_append, List.mem_cons, reduceCtorEq,
        false_or] at hm
      exact ih.2.2 hm
  | rejected tv r n hr o _ ih =>
    refine ⟨?_, ?_, ?_⟩
    · intro tv1 r1 hm hneg
      simp only [Outcome.after, List.cons_append, List.nil_append, List.mem_cons,
        Event.select.injEq, reduceCtorEq, false_or] at hm
      rcases hm with ⟨_, rfl⟩ | hm
      · omega
      · exact ih.1 tv1 r1 hm hneg
    · intro pkt r1 hm hneg
      simp only [Outcome.after, List.cons_append, List.nil_append, List.mem_cons, reduceCtorEq,
        false_or] at hm
      exact ih.2.1 pkt r1 hm hneg
    · intro hm
      simp only [Outcome.after, List.cons_append, List.nil_append, List.mem_cons, reduceCtorEq,
        false_or] at hm
      exact ih.2.2 hm
  | ackFailed tv r n hr pkt s h => simp
  | accepted tv r n hr pkt s h =>
    refine ⟨?_, ?_, ?_⟩
    · intro tv1 r1 hm hneg
      simp [afterLoop, Outcome.after] at hm
      omega
    · intro pkt1 r1 hm hneg
      simp [afterLoop, Outcome.after] at hm
      omega
    · intro hm
      simp [afterLoop, Outcome.after] at hm

/-! ## C9: the socket is closed once -/

theorem loopOutcome_close (o : Outcome) (h : LoopOutcome o) :
    o.trace.count Event.close = 1 ∧ o.trace.getLast? = some Event.close := by
  induction h with
  | deadline => exact ⟨by decide, by decide⟩
  | selectFailed tv r h => simp [List.count_cons]
  | idle tv r hr o ho ih =>
    have hne : o.trace ≠ [] := by intro h0; rw [h0] at ih; simp at ih
    simp [Outcome.after, List.count_cons, ih.1, List.getLast?_cons_cons,
      List.getLast?_eq_getLast, hne] at ih ⊢
    exact ih
  | recvFailed tv r hr o ho ih =>
    have hne : o.trace ≠ [] := by intro h0; rw [h0] at ih; simp at ih
    simp [Outcome.after, List.count_cons, ih.1, List.getLast?_cons_cons,
      List.getLast?_eq_getLast, hne] at ih ⊢
    exact ih
  | rejected tv r n hr o ho ih =>
    have hne : o.trace ≠ [] := by intro h0; rw [h0] at ih; simp at ih
    simp [Outcome.after, List.count_cons, ih.1, List.getLast?_cons_cons,
      List.getLast?_eq_getLast, hne] at ih ⊢
    exact ih
  | ackFailed tv r n hr pkt s h => simp [List.count_cons]
  | accepted tv r n hr pkt s h => simp [afterLoop, Outcome.after, List.count_cons]

theorem nothing_after_last (tr : List Event) (e : Event) (hc : tr.count e = 1)
    (hl : tr.getLast? = some e) (pre post : List Event) (h : tr = pre ++ e :: post) :
    post = [] := by
  by_contra hne
  subst h
  have h1 : List.count e post = 0 := by
    simp [List.count_append, List.count_cons] at hc
    omega
  have h2 : (pre ++ e :: post).getLast? = post.getLast? := by
    rw [List.getLast?_append_of_ne_nil _ (by simp)]
    cases post with
    | nil => exact absurd rfl hne
    | cons b bs => rw [List.getLast?_cons_cons]
  rw [h2] at hl
  have h3 : e ∈ post := List.mem_of_getLast?_eq_some hl
  exact absurd (List.count_pos_iff.mpr h3) (by omega)

/-- C9: in every finished run in which `socket` succeeded, `close(sock)` is
called exactly once, it is the last action of the run, and hence no `sendto`,
`select` or `recvfrom` follows it. -/
theorem socket_closed_once (env : Env) (out : Outcome) (hrun : main env = some out)
    (hopen : 0 ≤ env.sock) :
    out.trace.count Event.close = 1 ∧ out.trace.getLast? = some Event.close ∧
    (∀ pre post, out.trace = pre ++ Event.close :: post → post = []) := by
  have key : out.trace.count Event.close = 1 ∧ out.trace.getLast? = some Event.close := by
    rcases main_outcome env out hrun with
      ⟨h, _⟩ | ⟨_, _, rfl⟩ | ⟨_, _, _, rfl⟩ | ⟨_, _, _, o, ho, rfl⟩
    · omega
    · simp [List.count_cons]
    · simp [List.count_cons]
    · have ih := loopOutcome_close o ho
      have hne : o.trace ≠ [] := by intro h0; rw [h0] at ih; simp at ih
      simp [Outcome.after, List.count_cons, ih.1, List.getLast?_cons_cons,
        List.getLast?_eq_getLast, hne] at ih ⊢
      exact ih
  exact ⟨key.1, key.2, nothing_after_last out.trace Event.close key.1 key.2⟩

/-- Witness for C9: the run `acceptEnv`. -/
theorem socket_closed_once_witness :
    acceptOutcome.trace.count Event.close = 1 ∧
    acceptOutcome.trace.getLast? = some Event.close ∧
    (∀ pre post, acceptOutcome.trace = pre ++ Event.close :: post → post = []) :=
  socket_closed_once acceptEnv acceptOutcome main_acceptEnv (by decide)

/-! ## Memories that agree below a bound -/

theorem AgreeBelow.write8 {n : Nat} {m1 m2 : Mem} (h : AgreeBelow n m1 m2) (k : Nat) (b : Byte) :
    AgreeBelow n (write8 m1 k b) (write8 m2 k b) := by
  intro i hi
  unfold A3.write8
  split
  · rfl
  · exact h i hi

theorem AgreeBelow.write8_of_eq {n : Nat} {m1 m2 : Mem} (h : AgreeBelow n m1 m2) (k : Nat)
    (b1 b2 : Byte) (hb : k < n → b1 = b2) :
    AgreeBelow n (A3.write8 m1 k b1) (A3.write8 m2 k b2) := by
  intro i hi
  unfold A3.write8
  split
  · rename_i hik
    exact hb (by omega)
  · exact h i hi

theorem AgreeBelow.store16 {n : Nat} {m1 m2 : Mem} (h : AgreeBelow n m1 m2) (le : Bool)
    (k v : Nat) : AgreeBelow n (store16 le m1 k v) (store16 le m2 k v) := by
  unfold A3.store16
  cases le
  · exact (h.write8 _ _).write8 _ _
  · exact (h.write8 _ _).write8 _ _

theorem AgreeBelow.store32 {n : Nat} {m1 m2 : Mem} (h : AgreeBelow n m1 m2) (le : Bool)
    (k v : Nat) : AgreeBelow n (store32 le m1 k v) (store32 le m2 k v) := by
  unfold A3.store32
  cases le
  · exact (((h.write8 _ _).write8 _ _).write8 _ _).write8 _ _
  · exact (((h.write8 _ _).write8 _ _).write8 _ _).write8 _ _

theorem AgreeBelow.setLowNibble {n : Nat} {m1 m2 : Mem} (h : AgreeBelow n m1 m2) (k v : Nat) :
    AgreeBelow n (setLowNibble m1 k v) (setLowNibble m2 k v) := by
  unfold A3.setLowNibble
  exact h.write8_of_eq k _ _ (fun hk => by rw [h k hk])

theorem AgreeBelow.setHighNibble {n : Nat} {m1 m2 : Mem} (h : AgreeBelow n m1 m2) (k v : Nat) :
    AgreeBelow n (setHighNibble m1 k v) (setHighNibble m2 k v) := by
  unfold A3.setHighNibble
  exact h.write8_of_eq k _ _ (fun hk => by rw [h k hk])

theorem AgreeBelow.setFlag {n : Nat} {m1 m2 : Mem} (h : AgreeBelow n m1 m2) (k b : Nat) :
    AgreeBelow n (setFlag m1 k b) (setFlag m2 k b) := by
  unfold A3.setFlag
  exact h.write8_of_eq k _ _ (fun hk => by rw [h k hk])

theorem AgreeBelow.memset (s1 s2 : Mem) :
    AgreeBelow 4096 (memsetDatagram s1) (memsetDatagram s2) := by
  intro i hi
  simp [memsetDatagram, sizeofDatagram, hi]

theorem AgreeBelow.synIpHeader (le : Bool) (s1 s2 : Mem) :
    AgreeBelow 4096 (synIpHeader le s1) (synIpHeader le s2) := by
  unfold A3.synIpHeader
  exact (((((((((((AgreeBelow.memset s1 s2).setLowNibble _ _).setHighNibble _ _).write8 _ _).store16
    _ _ _).store16 _ _ _).store16 _ _ _).write8 _ _).write8 _ _).store16 _ _ _).store32
    _ _ _).store32 _ _ _

theorem AgreeBelow.ackIpHeader (le : Bool) (s1 s2 : Mem) :
    AgreeBelow 4096 (ackIpHeader le s1) (ackIpHeader le s2) := by
  unfold A3.ackIpHeader
  exact ((((((((((AgreeBelow.memset s1 s2).setLowNibble _ _).setHighNibble _ _).write8 _ _).store16
    _ _ _).store16 _ _ _).store16 _ _ _).write8 _ _).write8 _ _).store32 _ _ _).store32 _ _ _

theorem AgreeBelow.synTcpHeader {n : Nat} {m1 m2 : Mem} (h : AgreeBelow n m1 m2) (le : Bool) :
    AgreeBelow n (synTcpHeader le m1) (synTcpHeader le m2) := by
  unfold A3.synTcpHeader
  exact (((((((h.store16 _ _ _).store16 _ _ _).store32 _ _ _).store32 _ _ _).setHighNibble
    _ _).setFlag _ _).store16 _ _ _).store16 _ _ _

theorem AgreeBelow.ackTcpHeader {n : Nat} {m1 m2 : Mem} (h : AgreeBelow n m1 m2) (le : Bool)
    (buffer : Mem) : AgreeBelow n (ackTcpHeader le buffer m1) (ackTcpHeader le buffer m2) := by
  unfold A3.ackTcpHeader
  exact (((((((h.store16 _ _ _).store16 _ _ _).store32 _ _ _).store32 _ _ _).setHighNibble
    _ _).setFlag _ _).store16 _ _ _).store16 _ _ _

theorem AgreeBelow.firstBytes {n : Nat} {m1 m2 : Mem} (h : AgreeBelow n m1 m2) (k : Nat)
    (hk : k ≤ n) : firstBytes m1 k = firstBytes m2 k := by
  unfold A3.firstBytes
  apply List.map_congr_left
  intro i hi
  exact h i (by have := List.mem_range.mp hi; omega)

theorem AgreeBelow.sumWords {n : Nat} {m1 m2 : Mem} (h : AgreeBelow n m1 m2) (le : Bool)
    (p k s : Nat) (hk : p + k ≤ n) : sumWords le m1 p k s = sumWords le m2 p k s :=
  sumWords_congr le m1 m2 k p s (fun i _ h2 => h i (by omega))

/-! ## C6: the IP header checksum -/

/-- On a little-endian host the accumulator of the SYN checksum call covers
the 10240 bytes from the start of `datagram`: the header words (sum 25431),
the zeroed rest of the array, and the 6144 bytes that follow the array. -/
theorem synChecksum_littleEndian (stack : Mem) :
    sumWords true (synIpHeader true stack) 0 10240 0
      = 25431 + sumWords true stack 4096 6144 0 := by
  have h1 := sumWords_split true (synIpHeader true stack) 6144 2048 0 0
  have e1 : 2 * 2048 + 6144 = 10240 := by norm_num
  have e2 : 0 + 2 * 2048 = 4096 := by norm_num
  have e3 : 2 * 2048 = 2 * 10 + 4076 := by norm_num
  rw [e1, e2] at h1
  have h2 : sumWords true (synIpHeader true stack) 0 (2 * 2048) 0 = 25431 := by
    rw [(AgreeBelow.synIpHeader true stack zeroMem).sumWords true 0 (2 * 2048) 0 (by norm_num),
      e3, sumWords_split true (synIpHeader true zeroMem) 4076 10 0 0,
      sumWords_zero true _ 4076 _ _ (fun i hi _ => synIpHeader_zeroMem true i (by omega))]
    decide
  rw [h1, h2, sumWords_congr true (synIpHeader true stack) stack 6144 4096 25431
    (fun i hi _ => synIpHeader_beyond true stack i hi)]
  have h3 := sumWords_acc true stack 6144 4096 0 25431
  rw [Nat.zero_add] at h3
  rw [h3, Nat.add_comm]

/-- The same for the ACK checksum call. -/
theorem ackChecksum_littleEndian (stack : Mem) :
    sumWords true (ackIpHeader true stack) 0 10240 0
      = 25431 + sumWords true stack 4096 6144 0 := by
  have h1 := sumWords_split true (ackIpHeader true stack) 6144 2048 0 0
  have e1 : 2 * 2048 + 6144 = 10240 := by norm_num
  have e2 : 0 + 2 * 2048 = 4096 := by norm_num
  have e3 : 2 * 2048 = 2 * 10 + 4076 := by norm_num
  rw [e1, e2] at h1
  have h2 : sumWords true (ackIpHeader true stack) 0 (2 * 2048) 0 = 25431 := by
    rw [(AgreeBelow.ackIpHeader true stack zeroMem).sumWords true 0 (2 * 2048) 0 (by norm_num),
      e3, sumWords_split true (ackIpHeader true zeroMem) 4076 10 0 0,
      sumWords_zero true _ 4076 _ _ (fun i hi _ => ackIpHeader_zeroMem true i (by omega))]
    decide
  rw [h1, h2, sumWords_congr true (ackIpHeader true stack) stack 6144 4096 25431
    (fun i hi _ => ackIpHeader_beyond true stack i hi)]
  have h3 := sumWords_acc true stack 6144 4096 0 25431
  rw [Nat.zero_add] at h3
  rw [h3, Nat.add_comm]

theorem dirtyStack_sum : sumWords true dirtyStack 4096 6144 0 = 1 := by
  have h1 := sumWords_split true dirtyStack 6142 1 4096 0
  have e1 : 2 * 1 + 6142 = 6144 := by norm_num
  rw [e1] at h1
  rw [h1, sumWords_zero true dirtyStack 6142 _ _ (fun i hi _ => by
    unfold dirtyStack
    rw [if_neg (by omega)])]
  decide

theorem synChecksum_dirty :
    checksum true (synIpHeader true dirtyStack) (checksumCount true (synIpHeader true dirtyStack))
      = 40103 := by
  rw [checksumCount_syn]
  unfold checksum
  have e : (if true = true then (10240 : Int) else 40).toNat = 10240 := rfl
  rw [e, synChecksum_littleEndian, dirtyStack_sum]
  decide

theorem ackChecksum_dirty :
    checksum true (ackIpHeader true dirtyStack) (checksumCount true (ackIpHeader true dirtyStack))
      = 40103 := by
  rw [checksumCount_ack]
  unfold checksum
  have e : (if true = true then (10240 : Int) else 40).toNat = 10240 := rfl
  rw [e, ackChecksum_littleEndian, dirtyStack_sum]
  decide

theorem synPacket_dirty :
    synPacket true dirtyStack =
      [0x45, 0, 0, 40, 0xd4, 0x31, 0, 0, 64, 6, 0xa7, 0x9c, 127, 0, 0, 1, 127, 0, 0, 1,
       0xd4, 0x31, 0x30, 0x39, 0, 0, 0, 200, 0, 0, 0, 0, 0x50, 0x02, 0x20, 0, 0, 0, 0, 0] := by
  unfold synPacket synDatagram setIpChecksum
  rw [synChecksum_dirty]
  decide

theorem ackPacket_dirty :
    ackPacket true dirtyStack (recvInto zeroMem plainSynAck) =
      [0x45, 0, 0, 40, 0xd4, 0x31, 0, 0, 64, 6, 0xa7, 0x9c, 127, 0, 0, 1, 127, 0, 0, 1,
       0xd4, 0x31, 0x30, 0x39, 0, 0, 2, 0x58, 0, 0, 1, 0xf5, 0x50, 0x10, 0x20, 0, 0, 0, 0, 0] := by
  unfold ackPacket ackDatagram setIpChecksum
  rw [ackChecksum_dirty]
  decide

/-- C6 (the code at the failing input): on a little-endian host, with the byte
`0x01` right after the `datagram` array, the byte count given to `checksum` is
10240 (more than the 4096 bytes of the array), the checksum field of the SYN
packet and of the ACK packet holds 40103 while `checksum()` of the 20-byte
header with the field zero is 40104, and the checksum of the 20-byte header as
sent is 1, not 0. -/
theorem ip_checksum_field_dirty :
    checksumCount true (synIpHeader true dirtyStack) = 10240 ∧
    checksumCount true (ackIpHeader true dirtyStack) = 10240 ∧
    (sizeofDatagram : Int) < 10240 ∧
    load16 true ((synPacket true dirtyStack).getD 10 0) ((synPacket true dirtyStack).getD 11 0)
      = 40103 ∧
    checksum true (memOf (ipHeaderZeroCheck (synPacket true dirtyStack))) 20 = 40104 ∧
    checksum true (memOf ((synPacket true dirtyStack).take 20)) 20 = 1 ∧
    load16 true ((ackPacket true dirtyStack (recvInto zeroMem plainSynAck)).getD 10 0)
      ((ackPacket true dirtyStack (recvInto zeroMem plainSynAck)).getD 11 0) = 40103 ∧
    checksum true (memOf (ipHeaderZeroCheck
      (ackPacket true dirtyStack (recvInto zeroMem plainSynAck)))) 20 = 40104 ∧
    checksum true (memOf ((ackPacket true dirtyStack (recvInto zeroMem plainSynAck)).take 20)) 20
      = 1 := by
  rw [synPacket_dirty, ackPacket_dirty]
  refine ⟨?_, ?_, by decide, by decide, by decide, by decide, by decide, by decide, by decide⟩
  · rw [checksumCount_syn]; rfl
  · rw [checksumCount_ack]; rfl

theorem synTcpHeader_low (le : Bool) (dg : Mem) (i : Nat) (h : i < 20) :
    synTcpHeader le dg i = dg i := by
  have e : ∀ k : Nat, 20 ≤ k → ¬ (i = k) := fun k hk => by omega
  cases le <;>
  simp [synTcpHeader, sizeofIphdr, store16, store32, write8, setHighNibble, setFlag, e]

theorem ackTcpHeader_low (le : Bool) (buffer dg : Mem) (i : Nat) (h : i < 20) :
    ackTcpHeader le buffer dg i = dg i := by
  have e : ∀ k : Nat, 20 ≤ k → ¬ (i = k) := fun k hk => by omega
  cases le <;>
  simp [ackTcpHeader, sizeofIphdr, store16, store32, write8, setHighNibble, setFlag, e]

theorem take_firstBytes (m : Mem) (n k : Nat) (h : k ≤ n) :
    (firstBytes m n).take k = firstBytes m k := by
  unfold firstBytes
  rw [← List.map_take, List.take_range, Nat.min_eq_left h]

theorem firstBytes_congr (m1 m2 : Mem) (k : Nat) (h : ∀ i, i < k → m1 i = m2 i) :
    firstBytes m1 k = firstBytes m2 k :=
  AgreeBelow.firstBytes (n := k) h k (le_refl _)

/-- On a big-endian host the byte count is 40 and the IP header that is sent
does not depend on the memory after the array. -/
theorem synHeader_bigEndian (stack : Mem) :
    (synPacket false stack).take 20 =
      [0x45, 0, 0, 40, 0xd4, 0x31, 0, 0, 64, 6, 0xa8, 0x9c, 127, 0, 0, 1, 127, 0, 0, 1] := by
  have hc : checksum false (synIpHeader false stack) (checksumCount false (synIpHeader false stack))
      = checksum false (synIpHeader false zeroMem)
          (checksumCount false (synIpHeader false zeroMem)) := by
    rw [checksumCount_syn, checksumCount_syn]
    unfold checksum
    rw [(AgreeBelow.synIpHeader false stack zeroMem).sumWords false 0 _ 0 (by decide)]
  have hagree : AgreeBelow 4096 (setIpChecksum false (synIpHeader false stack))
      (setIpChecksum false (synIpHeader false zeroMem)) := by
    unfold setIpChecksum
    rw [hc]
    exact (AgreeBelow.synIpHeader false stack zeroMem).store16 _ _ _
  unfold synPacket synDatagram
  rw [take_firstBytes _ _ _ (by decide),
    firstBytes_congr _ (setIpChecksum false (synIpHeader false stack)) 20
      (fun i hi => synTcpHeader_low false _ i hi),
    hagree.firstBytes 20 (by decide)]
  decide

theorem ackHeader_bigEndian (stack buffer : Mem) :
    (ackPacket false stack buffer).take 20 =
      [0x45, 0, 0, 40, 0xd4, 0x31, 0, 0, 64, 6, 0xa8, 0x9c, 127, 0, 0, 1, 127, 0, 0, 1] := by
  have hc : checksum false (ackIpHeader false stack) (checksumCount false (ackIpHeader false stack))
      = checksum false (ackIpHeader false zeroMem)
          (checksumCount false (ackIpHeader false zeroMem)) := by
    rw [checksumCount_ack, checksumCount_ack]
    unfold checksum
    rw [(AgreeBelow.ackIpHeader false stack zeroMem).sumWords false 0 _ 0 (by decide)]
  have hagree : AgreeBelow 4096 (setIpChecksum false (ackIpHeader false stack))
      (setIpChecksum false (ackIpHeader false zeroMem)) := by
    unfold setIpChecksum
    rw [hc]
    exact (AgreeBelow.ackIpHeader false stack zeroMem).store16 _ _ _
  unfold ackPacket ackDatagram
  rw [take_firstBytes _ _ _ (by decide),
    firstBytes_congr _ (setIpChecksum false (ackIpHeader false stack)) 20
      (fun i hi => ackTcpHeader_low false buffer _ i hi),
    hagree.firstBytes 20 (by decide)]
  decide

/-- On a big-endian host, whatever the memory after the array holds, the
checksum field of both packets is `checksum()` of the 20-byte header with the
field zero, and the header as sent verifies. -/
theorem ip_checksum_bigEndian (stack buffer : Mem) :
    (load16 false ((synPacket false stack).getD 10 0) ((synPacket false stack).getD 11 0)
        = checksum false (memOf (ipHeaderZeroCheck (synPacket false stack))) 20 ∧
      checksum false (memOf ((synPacket false stack).take 20)) 20 = 0) ∧
    (load16 false ((ackPacket false stack buffer).getD 10 0)
        ((ackPacket false stack buffer).getD 11 0)
        = checksum false (memOf (ipHeaderZeroCheck (ackPacket false stack buffer))) 20 ∧
      checksum false (memOf ((ackPacket false stack buffer).take 20)) 20 = 0) := by
  have getD_take : ∀ (l : List Byte) (i : Nat), i < 20 → l.getD i 0 = (l.take 20).getD i 0 := by
    intro l i hi
    simp [List.getD_eq_getElem?_getD, List.getElem?_take, hi]
  unfold ipHeaderZeroCheck
  rw [getD_take (synPacket false stack) 10 (by decide),
    getD_take (synPacket false stack) 11 (by decide),
    getD_take (ackPacket false stack buffer) 10 (by decide),
    getD_take (ackPacket false stack buffer) 11 (by decide),
    synHeader_bigEndian, ackHeader_bigEndian]
  decide

/-! ## C11: the two host byte orders -/

/-- The big-endian accumulator times 256 is the little-endian accumulator plus
a multiple of `0xFFFF`. -/
theorem sumWords_swap_be (mem : Mem) : ∀ (n p : Nat),
    ∃ t, 256 * sumWords false mem p n 0 = sumWords true mem p n 0 + 65535 * t
  | 0, p => ⟨0, by simp [sumWords]⟩
  | 1, p => ⟨(mem p).val, by simp [sumWords, load16]; omega⟩
  | n + 2, p => by
    obtain ⟨t, ht⟩ := sumWords_swap_be mem n (p + 2)
    have h1 := sumWords_acc false mem n (p + 2) 0 (load16 false (mem p) (mem (p + 1)))
    have h2 := sumWords_acc true mem n (p + 2) 0 (load16 true (mem p) (mem (p + 1)))
    refine ⟨t + (mem p).val, ?_⟩
    simp only [sumWords]
    rw [h1, h2]
    simp only [load16, if_true, Bool.false_eq_true, if_false]
    omega

/-- The little-endian accumulator times 256 is the big-endian accumulator plus
a multiple of `0xFFFF`. -/
theorem sumWords_swap_le (mem : Mem) : ∀ (n p : Nat),
    ∃ t, 256 * sumWords true mem p n 0 = sumWords false mem p n 0 + 65535 * t
  | 0, p => ⟨0, by simp [sumWords]⟩
  | 1, p => ⟨0, by simp [sumWords, load16]⟩
  | n + 2, p => by
    obtain ⟨t, ht⟩ := sumWords_swap_le mem n (p + 2)
    have h1 := sumWords_acc false mem n (p + 2) 0 (load16 false (mem p) (mem (p + 1)))
    have h2 := sumWords_acc true mem n (p + 2) 0 (load16 true (mem p) (mem (p + 1)))
    refine ⟨t + (mem (p + 1)).val, ?_⟩
    simp only [sumWords]
    rw [h1, h2]
    simp only [load16, if_true, Bool.false_eq_true, if_false]
    omega

/-- Swapping the bytes of every word swaps the bytes of the one's-complement
sum. -/
theorem ocFold_swap (x y t u : Nat) (h1 : 256 * y = x + 65535 * t)
    (h2 : 256 * x = y + 65535 * u) : ocFold x = bswap16 (ocFold y) := by
  unfold ocFold bswap16
  by_cases hy : y = 0
  · have hx : x = 0 := by omega
    rw [if_pos hy, if_pos hx]
  · have hx : ¬ x = 0 := by omega
    rw [if_neg hy, if_neg hx]
    have hq := Nat.div_add_mod (y - 1) 65535
    have hq2 := Nat.div_add_mod (x - 1) 65535
    have hlt := Nat.mod_lt (y - 1) (show 0 < 65535 by decide)
    have hlt2 := Nat.mod_lt (x - 1) (show 0 < 65535 by decide)
    generalize (y - 1) / 65535 = q at hq
    generalize (x - 1) / 65535 = q2 at hq2
    generalize (y - 1) % 65535 = a at hq hlt ⊢
    generalize (x - 1) % 65535 = c at hq2 hlt2 ⊢
    have hm := Nat.div_add_mod (a + 1) 256
    have hml := Nat.mod_lt (a + 1) (show 0 < 256 by decide)
    have hh : (a + 1) / 256 % 256 = (a + 1) / 256 := Nat.mod_eq_of_lt (by omega)
    rw [hh]
    generalize (a + 1) / 256 = h at hm ⊢
    generalize (a + 1) % 256 = l at hm hml ⊢
    omega

theorem bswap16_complement (a : Nat) (h : a ≤ 65535) :
    bswap16 (65535 - a) = 65535 - bswap16 a := by
  unfold bswap16
  have hm := Nat.div_add_mod a 256
  have hml := Nat.mod_lt a (show 0 < 256 by decide)
  have h1 : (65535 - a) % 256 = 255 - a % 256 := by omega
  have h2 : (65535 - a) / 256 = 255 - a / 256 := by omega
  have h3 : a / 256 % 256 = a / 256 := Nat.mod_eq_of_lt (by omega)
  have h4 : (255 - a / 256) % 256 = 255 - a / 256 := Nat.mod_eq_of_lt (by omega)
  rw [h1, h2, h3, h4]
  omega

theorem swap_bytes (h l : Nat) (hh : h < 256) (hl : l < 256) :
    (l * 256 + h) % 256 = h ∧ (l * 256 + h) / 256 % 256 = l := by
  constructor <;> omega

theorem bswap16_bytes (w : Nat) (hw : w < 65536) :
    bswap16 w % 256 = w / 256 ∧ bswap16 w / 256 % 256 = w % 256 := by
  unfold bswap16
  have hlt : w / 256 < 256 := by omega
  rw [Nat.mod_eq_of_lt hlt]
  exact swap_bytes (w / 256) (w % 256) hlt (Nat.mod_lt w (by decide))

theorem store16_bswap (m : Mem) (k w : Nat) (hw : w < 65536) :
    store16 true m k (bswap16 w) = store16 false m k w := by
  have hb := bswap16_bytes w hw
  have e1 : byteOf (bswap16 w) = byteOf (w / 256) := by
    apply Fin.ext
    simp only [byteOf_val]
    rw [hb.1, Nat.mod_eq_of_lt (by omega)]
  have e2 : byteOf (bswap16 w / 256) = byteOf w := by
    apply Fin.ext
    simp only [byteOf_val]
    exact hb.2
  simp only [store16, if_true, Bool.false_eq_true, if_false, e1, e2]

theorem checksum_lt (le : Bool) (mem : Mem) (L : Int) : checksum le mem L < 65536 := by
  unfold checksum
  rw [notU16_eq]
  omega

/-- Closed form of `checksum` for byte counts up to 131076, on any memory. -/
theorem checksum_ocFold (le : Bool) (mem : Mem) (L : Int) (hmax : L ≤ 131076) :
    checksum le mem L = 65535 - ocFold (sumWords le mem 0 L.toNat 0) := by
  have hb := sumWords_bound le mem L.toNat 0 0
  unfold checksum
  rw [fold_correct _ (by omega)]

/-- C11 (as amended): for every memory and every byte count `L <= 131076`,
the value `checksum` returns on a little-endian host is the byte swap of the
value it returns on a big-endian host, so that the two bytes stored in memory
for the result are the same on both hosts. -/
theorem checksum_byte_order (mem : Mem) (L : Int) (hmax : L ≤ 131076) :
    checksum true mem L = bswap16 (checksum false mem L) ∧
    (∀ (m : Mem) (k : Nat),
      store16 true m k (checksum true mem L) = store16 false m k (checksum false mem L)) := by
  obtain ⟨t, ht⟩ := sumWords_swap_be mem L.toNat 0
  obtain ⟨u, hu⟩ := sumWords_swap_le mem L.toNat 0
  have hsw := ocFold_swap _ _ t u ht hu
  have h : checksum true mem L = bswap16 (checksum false mem L) := by
    rw [checksum_ocFold true mem L hmax, checksum_ocFold false mem L hmax, hsw,
      bswap16_complement _ (ocFold_le _)]
  refine ⟨h, fun m k => ?_⟩
  rw [h, store16_bswap m k _ (checksum_lt false mem L)]

/-- Witness for C11: three bytes. -/
theorem checksum_byte_order_witness :
    checksum true (memOf [0x12, 0x34, 0x56]) 3
      = bswap16 (checksum false (memOf [0x12, 0x34, 0x56]) 3) ∧
    (∀ (m : Mem) (k : Nat),
      store16 true m k (checksum true (memOf [0x12, 0x34, 0x56]) 3)
        = store16 false m k (checksum false (memOf [0x12, 0x34, 0x56]) 3)) :=
  checksum_byte_order (memOf [0x12, 0x34, 0x56]) 3 (by decide)

theorem longBuffer_sum_be : (words16 false longBuffer).sum = 4295033086 := by
  have h : (131076 : Nat) = 2 * 65538 := by norm_num
  unfold longBuffer
  rw [h, words16_replicate, List.sum_append, List.sum_replicate]
  rfl

/-- C11 (counterexample): for the 131077-byte buffer of 65538 words `0xFFFF`
and a last byte `0x01`, `checksum` returns `0xFFFF` on a little-endian host and
`0xFEFF` on a big-endian host, whose byte swap is `0xFFFE`. -/
theorem checksum_byte_order_long :
    checksum true (memOf longBuffer) 131077 = 65535 ∧
    checksum false (memOf longBuffer) 131077 = 65279 ∧
    bswap16 65279 = 65534 ∧
    checksum true (memOf longBuffer) 131077
      ≠ bswap16 (checksum false (memOf longBuffer) 131077) := by
  have hn : (131077 : Int).toNat = 131077 := rfl
  have hs : ∀ le, sumWords le (memOf longBuffer) 0 131077 0 = (words16 le longBuffer).sum := by
    intro le
    rw [sumWords_memOf le longBuffer 131077 (by rw [longBuffer_length]),
      List.take_of_length_le (by rw [longBuffer_length])]
  have h1 : checksum true (memOf longBuffer) 131077 = 65535 := by
    unfold checksum
    rw [hn, hs, longBuffer_sum, notU16_eq, fold2_eq, fold1_eq]
  have h2 : checksum false (memOf longBuffer) 131077 = 65279 := by
    unfold checksum
    rw [hn, hs, longBuffer_sum_be, notU16_eq, fold2_eq, fold1_eq]
  refine ⟨h1, h2, by decide, ?_⟩
  rw [h1, h2]
  decide

/-! ## C12: zero length -/

/-- C12: for a byte count of zero `checksum` returns `0xFFFF`, whatever the
memory behind the pointer holds: no byte of it enters the result. -/
theorem checksum_zero_length (le : Bool) (mem : Mem) : checksum le mem 0 = 0xFFFF := by
  have h : sumWords le mem 0 (0 : Int).toNat 0 = 0 := rfl
  unfold checksum
  rw [h]
  decide

/-! ## C16: the odd trailing byte -/

/-- C16 (as amended): for every memory and every odd byte count `2 * k + 1`,
the accumulator is the accumulator of the first `2 * k` bytes plus the final
word, and that word is the trailing byte `b` followed by a zero byte in
memory: on a little-endian host `b` is its low byte and it adds `b`; on a
big-endian host `b` is its high byte and it adds `256 * b`. -/
theorem odd_byte_contribution (le : Bool) (mem : Mem) (k : Nat) :
    sumWords le mem 0 (2 * k + 1) 0
      = sumWords le mem 0 (2 * k) 0 + load16 le (mem (2 * k)) 0 ∧
    load16 true (mem (2 * k)) 0 = (mem (2 * k)).val ∧
    load16 false (mem (2 * k)) 0 = 256 * (mem (2 * k)).val := by
  refine ⟨?_, by simp [load16], by simp [load16]⟩
  rw [sumWords_split le mem 1 k 0 0, Nat.zero_add]
  rfl

/-- C16 (counterexample): on a big-endian host the one-byte buffer `0x01` adds
256 to the accumulator, not 1. -/
theorem odd_byte_bigEndian :
    sumWords false (memOf [1]) 0 1 0 = 256 ∧ sumWords false (memOf [1]) 0 1 0 ≠ 1 := by
  decide

/-! ## C13: the shape of the packets sent -/

/-- The IP header bytes written before the checksum call, apart from the
checksum field, for both host byte orders. -/
theorem synIpHeader_bytes (le : Bool) (stack : Mem) :
    (synIpHeader le stack 0).val = 0x45 ∧ mbe16 (synIpHeader le stack) 2 = 40 ∧
    (synIpHeader le stack 8).val = 64 ∧ (synIpHeader le stack 9).val = 6 ∧
    mbe32 (synIpHeader le stack) 12 = 0x7F000001 ∧
    mbe32 (synIpHeader le stack) 16 = 0x7F000001 := by
  have h := AgreeBelow.synIpHeader le stack zeroMem
  unfold mbe16 mbe32
  rw [h 0 (by decide), h 2 (by decide), h 3 (by decide), h 8 (by decide), h 9 (by decide),
    h 12 (by decide), h 13 (by decide), h 14 (by decide), h 15 (by decide), h 16 (by decide),
    h 17 (by decide), h 18 (by decide), h 19 (by decide)]
  cases le <;> decide

theorem ackIpHeader_bytes (le : Bool) (stack : Mem) :
    (ackIpHeader le stack 0).val = 0x45 ∧ mbe16 (ackIpHeader le stack) 2 = 40 ∧
    (ackIpHeader le stack 8).val = 64 ∧ (ackIpHeader le stack 9).val = 6 ∧
    mbe32 (ackIpHeader le stack) 12 = 0x7F000001 ∧
    mbe32 (ackIpHeader le stack) 16 = 0x7F000001 := by
  have h := AgreeBelow.ackIpHeader le stack zeroMem
  unfold mbe16 mbe32
  rw [h 0 (by decide), h 2 (by decide), h 3 (by decide), h 8 (by decide), h 9 (by decide),
    h 12 (by decide), h 13 (by decide), h 14 (by decide), h 15 (by decide), h 16 (by decide),
    h 17 (by decide), h 18 (by decide), h 19 (by decide)]
  cases le <;> decide

/-- The IP header fields of a built datagram are those written before the
checksum call: the checksum store touches bytes 10 and 11 only and the TCP
header starts at byte 20. -/
theorem header_fields_kept (dg built : Mem)
    (h : ∀ i, i < 20 → i ≠ 10 → i ≠ 11 → built i = dg i) :
    (built 0).val = (dg 0).val ∧ mbe16 built 2 = mbe16 dg 2 ∧
    (built 8).val = (dg 8).val ∧ (built 9).val = (dg 9).val ∧
    mbe32 built 12 = mbe32 dg 12 ∧ mbe32 built 16 = mbe32 dg 16 := by
  unfold mbe16 mbe32
  rw [h 0 (by decide) (by decide) (by decide), h 2 (by decide) (by decide) (by decide),
    h 3 (by decide) (by decide) (by decide), h 8 (by decide) (by decide) (by decide),
    h 9 (by decide) (by decide) (by decide), h 12 (by decide) (by decide) (by decide),
    h 13 (by decide) (by decide) (by decide), h 14 (by decide) (by decide) (by decide),
    h 15 (by decide) (by decide) (by decide), h 16 (by decide) (by decide) (by decide),
    h 17 (by decide) (by decide) (by decide), h 18 (by decide) (by decide) (by decide),
    h 19 (by decide) (by decide) (by decide)]
  exact ⟨rfl, rfl, rfl, rfl, rfl, rfl⟩

/-- The fields of a 40-byte packet taken from a datagram in memory. -/
theorem packet_shape (dg : Mem)
    (h0 : (dg 0).val = 0x45) (h2 : mbe16 dg 2 = 40) (h8 : (dg 8).val = 64)
    (h9 : (dg 9).val = 6) (h12 : mbe32 dg 12 = 0x7F000001) (h16 : mbe32 dg 16 = 0x7F000001)
    (h32 : (dg 32).val = 0x50) :
    (firstBytes dg 40).length = 40 ∧
    ((firstBytes dg 40).getD 0 0).val / 16 = 4 ∧ ((firstBytes dg 40).getD 0 0).val % 16 = 5 ∧
    be16 (firstBytes dg 40) 2 = 40 ∧ ((firstBytes dg 40).getD 8 0).val = 64 ∧
    ((firstBytes dg 40).getD 9 0).val = 6 ∧ be32 (firstBytes dg 40) 12 = 0x7F000001 ∧
    be32 (firstBytes dg 40) 16 = 0x7F000001 ∧ ((firstBytes dg 40).getD 32 0).val / 16 = 5 := by
  rw [firstBytes_length, firstBytes_getD dg 40 0 (by decide), firstBytes_getD dg 40 8 (by decide),
    firstBytes_getD dg 40 9 (by decide), firstBytes_getD dg 40 32 (by decide),
    be16_firstBytes dg 40 2 (by decide), be32_firstBytes dg 40 12 (by decide),
    be32_firstBytes dg 40 16 (by decide), h0, h2, h8, h9, h12, h16, h32]
  decide

theorem synPacket_shape (le : Bool) (stack : Mem) :
    (synPacket le stack).length = 40 ∧
    ((synPacket le stack).getD 0 0).val / 16 = 4 ∧ ((synPacket le stack).getD 0 0).val % 16 = 5 ∧
    be16 (synPacket le stack) 2 = 40 ∧ ((synPacket le stack).getD 8 0).val = 64 ∧
    ((synPacket le stack).getD 9 0).val = 6 ∧ be32 (synPacket le stack) 12 = 0x7F000001 ∧
    be32 (synPacket le stack) 16 = 0x7F000001 ∧
    ((synPacket le stack).getD 32 0).val / 16 = 5 := by
  have hb := synIpHeader_bytes le stack
  have hk := header_fields_kept (synIpHeader le stack) (synDatagram le stack) (fun i h1 h2 h3 => by
    unfold synDatagram
    rw [synTcpHeader_low le _ i h1, setIpChecksum_other le _ i h2 h3])
  have hf := synTcpHeader_fields le (setIpChecksum le (synIpHeader le stack))
    (fun i h1 h2 => synDatagram_zero le stack i h1 h2)
  exact packet_shape (synDatagram le stack) (hk.1.trans hb.1) (hk.2.1.trans hb.2.1)
    (hk.2.2.1.trans hb.2.2.1) (hk.2.2.2.1.trans hb.2.2.2.1) (hk.2.2.2.2.1.trans hb.2.2.2.2.1)
    (hk.2.2.2.2.2.trans hb.2.2.2.2.2) hf.2.2.2.2.1

theorem ackPacket_shape (le : Bool) (stack buffer : Mem) :
    (ackPacket le stack buffer).length = 40 ∧
    ((ackPacket le stack buffer).getD 0 0).val / 16 = 4 ∧
    ((ackPacket le stack buffer).getD 0 0).val % 16 = 5 ∧
    be16 (ackPacket le stack buffer) 2 = 40 ∧ ((ackPacket le stack buffer).getD 8 0).val = 64 ∧
    ((ackPacket le stack buffer).getD 9 0).val = 6 ∧
    be32 (ackPacket le stack buffer) 12 = 0x7F000001 ∧
    be32 (ackPacket le stack buffer) 16 = 0x7F000001 ∧
    ((ackPacket le stack buffer).getD 32 0).val / 16 = 5 := by
  have hb := ackIpHeader_bytes le stack
  have hk := header_fields_kept (ackIpHeader le stack) (ackDatagram le stack buffer)
    (fun i h1 h2 h3 => by
      unfold ackDatagram
      rw [ackTcpHeader_low le buffer _ i h1, setIpChecksum_other le _ i h2 h3])
  have hf := ackTcpHeader_fields le buffer (setIpChecksum le (ackIpHeader le stack))
    (fun i h1 h2 => ackDatagram_zero le stack i h1 h2)
  exact packet_shape (ackDatagram le stack buffer) (hk.1.trans hb.1) (hk.2.1.trans hb.2.1)
    (hk.2.2.1.trans hb.2.2.1) (hk.2.2.2.1.trans hb.2.2.2.1) (hk.2.2.2.2.1.trans hb.2.2.2.2.1)
    (hk.2.2.2.2.2.trans hb.2.2.2.2.2) hf.2.2.2.1

theorem loopBody_sendAck (le : Bool) (startTime : Int) (buffer : Mem) (p : Poll)
    (pkt : List Byte) (r : Int) (h : Event.sendAck pkt r ∈ (loopBody le startTime buffer p).events) :
    ∃ stack buf, pkt = ackPacket le stack buf := by
  rcases loopBody_cases le startTime buffer p with
    ⟨_, hb⟩ | ⟨_, hb⟩ | ⟨_, hb⟩ | ⟨_, _, _, _, hb⟩ | ⟨data, _, _, _, _, hb⟩ |
    ⟨data, _, _, _, _, hb⟩ <;>
  rw [hb] at h <;> simp [Step.events] at h
  · exact ⟨p.stack, recvInto buffer data, h.1⟩
  · exact ⟨p.stack, recvInto buffer data, h.1⟩

theorem waitLoop_sendAck (le : Bool) (startTime : Int) (pkt : List Byte) (r : Int) :
    ∀ (polls : List Poll) (buffer : Mem) (out : Outcome),
      waitLoop le startTime buffer polls = some out → Event.sendAck pkt r ∈ out.trace →
      ∃ stack buf, pkt = ackPacket le stack buf
  | [], _, _, h, _ => by simp [waitLoop] at h
  | p :: ps, buffer, out, h, hmem => by
    have hb := loopBody_sendAck le startTime buffer p pkt r
    rw [waitLoop] at h
    split_ifs at h with hnow
    · split at h
      · rename_i buffer1 ev heq
        rw [heq] at hb
        rcases hw : waitLoop le startTime buffer1 ps with _ | o
        · rw [hw] at h; simp at h
        · rw [hw] at h
          simp only [Option.map_some', Option.some.injEq] at h
          rw [← h] at hmem
          simp only [Outcome.after, List.mem_append] at hmem
          rcases hmem with hmem | hmem
          · exact hb hmem
          · exact waitLoop_sendAck le startTime pkt r ps buffer1 o hw hmem
      · rename_i code ev heq
        rw [heq] at hb
        simp only [Option.some.injEq] at h
        rw [← h] at hmem
        exact hb hmem
      · rename_i received ev heq
        rw [heq] at hb
        simp only [Option.some.injEq] at h
        rw [← h] at hmem
        simp only [Outcome.after, List.mem_append] at hmem
        rcases hmem with hmem | hmem
        · exact hb hmem
        · cases received <;> simp [afterLoop] at hmem
    · simp only [Option.some.injEq] at h
      rw [← h] at hmem
      simp [afterLoop] at hmem

/-- Every ACK `sendto` of a run sends an `ackPacket`. -/
theorem main_sendAck (env : Env) (out : Outcome) (pkt : List Byte) (r : Int)
    (hrun : main env = some out) (hmem : Event.sendAck pkt r ∈ out.trace) :
    ∃ stack buf, pkt = ackPacket env.le stack buf := by
  unfold main at hrun
  split_ifs at hrun with h1 h2 h3
  · simp only [Option.some.injEq] at hrun
    rw [← hrun] at hmem; simp at hmem
  · simp only [Option.some.injEq] at hrun
    rw [← hrun] at hmem; simp at hmem
  · simp only [Option.some.injEq] at hrun
    rw [← hrun] at hmem; simp at hmem
  · rcases hw : waitLoop env.le env.startTime env.buffer env.polls with _ | o
    · rw [hw] at hrun; simp at hrun
    · rw [hw] at hrun
      simp only [Option.map_some', Option.some.injEq] at hrun
      rw [← hrun] at hmem
      simp only [Outcome.after, List.mem_append, List.mem_cons, List.mem_singleton] at hmem
      rcases hmem with hmem | hmem
      · simp at hmem
      · exact waitLoop_sendAck env.le env.startTime pkt r _ _ o hw hmem

/-- C13: every packet handed to `sendto` in a finished run, SYN or ACK, is
exactly 40 bytes long: a 20-byte IPv4 header with version 4, header length 5,
total length 40 in network byte order, TTL 64, protocol 6, source and
destination address 127.0.0.1, followed at byte 20 by a 20-byte TCP header
with data offset 5, and nothing after it. -/
theorem packets_are_forty_bytes (env : Env) (out : Outcome) (pkt : List Byte) (r : Int)
    (hrun : main env = some out)
    (hmem : Event.sendSyn pkt r ∈ out.trace ∨ Event.sendAck pkt r ∈ out.trace) :
    pkt.length = 40 ∧ sizeofIphdr + sizeofTcphdr = 40 ∧
    (pkt.getD 0 0).val / 16 = 4 ∧ (pkt.getD 0 0).val % 16 = 5 ∧
    be16 pkt 2 = 40 ∧ (pkt.getD 8 0).val = 64 ∧ (pkt.getD 9 0).val = 6 ∧
    be32 pkt 12 = 0x7F000001 ∧ be32 pkt 16 = 0x7F000001 ∧
    (pkt.getD 32 0).val / 16 = 5 := by
  rcases hmem with hmem | hmem
  · rw [main_sendSyn env out pkt r hrun hmem]
    have h := synPacket_shape env.le env.stack
    exact ⟨h.1, rfl, h.2⟩
  · obtain ⟨stack, buf, rfl⟩ := main_sendAck env out pkt r hrun hmem
    have h := ackPacket_shape env.le stack buf
    exact ⟨h.1, rfl, h.2⟩

/-- Witness for C13: the ACK packet of the run `acceptEnv`. -/
theorem packets_are_forty_bytes_witness :
    (ackPacket true zeroMem (recvInto zeroMem plainSynAck)).length = 40 ∧
    sizeofIphdr + sizeofTcphdr = 40 ∧
    ((ackPacket true zeroMem (recvInto zeroMem plainSynAck)).getD 0 0).val / 16 = 4 ∧
    ((ackPacket true zeroMem (recvInto zeroMem plainSynAck)).getD 0 0).val % 16 = 5 ∧
    be16 (ackPacket true zeroMem (recvInto zeroMem plainSynAck)) 2 = 40 ∧
    ((ackPacket true zeroMem (recvInto zeroMem plainSynAck)).getD 8 0).val = 64 ∧
    ((ackPacket true zeroMem (recvInto zeroMem plainSynAck)).getD 9 0).val = 6 ∧
    be32 (ackPacket true zeroMem (recvInto zeroMem plainSynAck)) 12 = 0x7F000001 ∧
    be32 (ackPacket true zeroMem (recvInto zeroMem plainSynAck)) 16 = 0x7F000001 ∧
    ((ackPacket true zeroMem (recvInto zeroMem plainSynAck)).getD 32 0).val / 16 = 5 :=
  packets_are_forty_bytes acceptEnv acceptOutcome _ 40 main_acceptEnv
    (Or.inr (by rw [ackPacket_zeroMem]; decide))

/-! ## The shape of the trace of a run -/

theorem main_silentEnv : main silentEnv = some silentOutcome := by
  simp [main, silentEnv, idlePoll, waitLoop, loopBody, afterLoop, Outcome.after, silentOutcome,
    TIMEOUT_SECONDS, synPacket_zeroMem]

theorem recvBytes_nonneg (data : List Byte) : 0 ≤ recvBytes data := by
  unfold recvBytes
  exact Int.ofNat_nonneg _

/-- Normal form of the trace of the wait loop: quiet actions, then the closing
actions of one of the ways out. -/
theorem waitLoop_trace_form (le : Bool) (startTime : Int) :
    ∀ (polls : List Poll) (buffer : Mem) (out : Outcome),
      waitLoop le startTime buffer polls = some out →
      ∃ head tail, out.trace = head ++ tail ∧ (∀ e ∈ head, e.quiet = true) ∧
        ((out.ret = -1 ∧ (tail = [.close] ∨ tail = [.timeoutMessage, .close])) ∨
         (∃ n pkt r, 0 ≤ n ∧
            tail = [.recvfrom n, .validate true, .sendAck pkt r, .close]))
  | [], _, _, h => by simp [waitLoop] at h
  | p :: ps, buffer, out, h => by
    rw [waitLoop] at h
    split_ifs at h with hnow
    · have ih : ∀ buffer1 ev, (∀ e ∈ ev, e.quiet = true) →
          (waitLoop le startTime buffer1 ps).map (Outcome.after ev) = some out →
          ∃ head tail, out.trace = head ++ tail ∧ (∀ e ∈ head, e.quiet = true) ∧
            ((out.ret = -1 ∧ (tail = [.close] ∨ tail = [.timeoutMessage, .close])) ∨
             (∃ n pkt r, 0 ≤ n ∧
                tail = [.recvfrom n, .validate true, .sendAck pkt r, .close])) := by
        intro buffer1 ev hev hm
        rcases hw : waitLoop le startTime buffer1 ps with _ | o
        · rw [hw] at hm; simp at hm
        · rw [hw] at hm
          simp only [Option.map_some', Option.some.injEq] at hm
          obtain ⟨head, tail, ht, hq, hcase⟩ := waitLoop_trace_form le startTime ps buffer1 o hw
          refine ⟨ev ++ head, tail, ?_, ?_, ?_⟩
          · rw [← hm]; simp [Outcome.after, ht]
          · intro e he
            rcases List.mem_append.mp he with he | he
            · exact hev e he
            · exact hq e he
          · rw [← hm]; exact hcase
      rcases loopBody_cases le startTime buffer p with
        ⟨h1, hb⟩ | ⟨h0, hb⟩ | ⟨h0, hb⟩ | ⟨data, h0, _, _, hb⟩ | ⟨data, h0, _, _, h1, hb⟩ |
        ⟨data, h0, _, _, h1, hb⟩
      · rw [hb] at h
        simp only [Option.some.injEq] at h
        refine ⟨[.select (TIMEOUT_SECONDS - (p.now2 - startTime)) p.activity], [.close], ?_, ?_,
          Or.inl ⟨?_, Or.inl rfl⟩⟩
        · rw [← h]; rfl
        · simp [Event.quiet]
        · rw [← h]
      · rw [hb] at h
        exact ih _ _ (by simp [Event.quiet]) h
      · rw [hb] at h
        exact ih _ _ (by simp [Event.quiet]) h
      · rw [hb] at h
        exact ih _ _ (by simp [Event.quiet]) h
      · rw [hb] at h
        simp only [Option.some.injEq] at h
        refine ⟨[.select (TIMEOUT_SECONDS - (p.now2 - startTime)) p.activity],
          [.recvfrom (recvBytes data), .validate true,
           .sendAck (ackPacket le p.stack (recvInto buffer data)) p.ackSend, .close], ?_, ?_,
          Or.inr ⟨_, _, _, recvBytes_nonneg data, rfl⟩⟩
        · rw [← h]; rfl
        · simp [Event.quiet]
      · rw [hb] at h
        simp only [Option.some.injEq] at h
        refine ⟨[.select (TIMEOUT_SECONDS - (p.now2 - startTime)) p.activity],
          [.recvfrom (recvBytes data), .validate true,
           .sendAck (ackPacket le p.stack (recvInto buffer data)) p.ackSend, .close], ?_, ?_,
          Or.inr ⟨_, _, _, recvBytes_nonneg data, rfl⟩⟩
        · rw [← h]; rfl
        · simp [Event.quiet]
    · simp only [Option.some.injEq] at h
      refine ⟨[], [.timeoutMessage, .close], ?_, ?_, Or.inl ⟨?_, Or.inr rfl⟩⟩
      · rw [← h]; rfl
      · simp
      · rw [← h]; rfl

/-- Normal form of the trace of a finished run. -/
theorem main_trace_form (env : Env) (out : Outcome) (hrun : main env = some out) :
    ∃ head tail, out.trace = head ++ tail ∧ (∀ e ∈ head, e.quiet = true) ∧
      ((out.ret = -1 ∧ (tail = [] ∨ tail = [.close] ∨ tail = [.timeoutMessage, .close])) ∨
       (∃ n pkt r, 0 ≤ n ∧ tail = [.recvfrom n, .validate true, .sendAck pkt r, .close])) := by
  unfold main at hrun
  split_ifs at hrun with h1 h2 h3
  · simp only [Option.some.injEq] at hrun
    refine ⟨[.socket env.sock], [], ?_, by simp [Event.quiet], Or.inl ⟨?_, Or.inl rfl⟩⟩
    · rw [← hrun]; rfl
    · rw [← hrun]
  · simp only [Option.some.injEq] at hrun
    refine ⟨[.socket env.sock, .setsockopt env.setsockopt], [.close], ?_, by simp [Event.quiet],
      Or.inl ⟨?_, Or.inr (Or.inl rfl)⟩⟩
    · rw [← hrun]; rfl
    · rw [← hrun]
  · simp only [Option.some.injEq] at hrun
    refine ⟨[.socket env.sock, .setsockopt env.setsockopt,
      .sendSyn (synPacket env.le env.stack) env.synSend], [.close], ?_, by simp [Event.quiet],
      Or.inl ⟨?_, Or.inr (Or.inl rfl)⟩⟩
    · rw [← hrun]; rfl
    · rw [← hrun]
  · rcases hw : waitLoop env.le env.startTime env.buffer env.polls with _ | o
    · rw [hw] at hrun; simp at hrun
    · rw [hw] at hrun
      simp only [Option.map_some', Option.some.injEq] at hrun
      obtain ⟨head, tail, ht, hq, hcase⟩ :=
        waitLoop_trace_form env.le env.startTime env.polls env.buffer o hw
      refine ⟨[.socket env.sock, .setsockopt env.setsockopt,
        .sendSyn (synPacket env.le env.stack) env.synSend] ++ head, tail, ?_, ?_, ?_⟩
      · rw [← hrun]; simp [Outcome.after, ht]
      · intro e he
        rcases List.mem_append.mp he with he | he
        · simp at he
          rcases he with rfl | rfl | rfl <;> rfl
        · exact hq e he
      · rw [← hrun]
        rcases hcase with ⟨hr, ht1 | ht1⟩ | hacc
        · exact Or.inl ⟨hr, Or.inr (Or.inl ht1)⟩
        · exact Or.inl ⟨hr, Or.inr (Or.inr ht1)⟩
        · exact Or.inr hacc

theorem quiet_not_sendAck (head : List Event) (hq : ∀ e ∈ head, e.quiet = true) :
    head.countP Event.isSendAck = 0 ∧ (∀ pkt r, Event.sendAck pkt r ∉ head) ∧
    Event.validate true ∉ head := by
  refine ⟨?_, ?_, ?_⟩
  · rw [List.countP_eq_zero]
    intro e he
    have := hq e he
    cases e <;> simp [Event.quiet, Event.isSendAck] at this ⊢
  · intro pkt r hmem
    have := hq _ hmem
    simp [Event.quiet] at this
  · intro hmem
    have := hq _ hmem
    simp [Event.quiet] at this


/-! ## C15: the timeouts handed to `select` -/

theorem selectTimeouts_append (a b : List Event) :
    selectTimeouts (a ++ b) = selectTimeouts a ++ selectTimeouts b := by
  induction a with
  | nil => rfl
  | cons e rest ih =>
    cases e <;> simp [selectTimeouts, ih]

/-- Each execution of the loop body performs one `select`, with the timeout
of line 155. -/
theorem loopBody_timeouts (le : Bool) (startTime : Int) (buffer : Mem) (p : Poll) :
    selectTimeouts (loopBody le startTime buffer p).events = [timeoutOf startTime p] := by
  rcases loopBody_cases le startTime buffer p with
    ⟨_, hb⟩ | ⟨_, hb⟩ | ⟨_, hb⟩ | ⟨_, _, _, _, hb⟩ | ⟨_, _, _, _, _, hb⟩ | ⟨_, _, _, _, _, hb⟩ <;>
  rw [hb] <;> simp [Step.events, selectTimeouts, timeoutOf]

/-- The timeouts of the wait loop are those of the polls of the iterations
that were entered, a prefix of the answers whose loop condition held. -/
theorem waitLoop_timeouts (le : Bool) (startTime : Int) :
    ∀ (polls : List Poll) (buffer : Mem) (out : Outcome),
      waitLoop le startTime buffer polls = some out →
      ∃ k, selectTimeouts out.trace = (polls.take k).map (timeoutOf startTime) ∧
        ∀ p ∈ polls.take k, p.now1 - startTime < TIMEOUT_SECONDS
  | [], _, _, h => by simp [waitLoop] at h
  | p :: ps, buffer, out, h => by
    have hb := loopBody_timeouts le startTime buffer p
    rw [waitLoop] at h
    split_ifs at h with hnow
    · split at h
      · rename_i buffer1 ev heq
        rw [heq] at hb
        rcases hw : waitLoop le startTime buffer1 ps with _ | o
        · rw [hw] at h; simp at h
        · rw [hw] at h
          simp only [Option.map_some', Option.some.injEq] at h
          obtain ⟨k, hk, hlt⟩ := waitLoop_timeouts le startTime ps buffer1 o hw
          refine ⟨k + 1, ?_, ?_⟩
          · rw [← h]
            simp only [Outcome.after, selectTimeouts_append, List.take_succ_cons, List.map_cons]
            simp only [Step.events] at hb
            rw [hb, hk]
            rfl
          · intro q hq
            simp only [List.take_succ_cons, List.mem_cons] at hq
            rcases hq with rfl | hq
            · exact hnow
            · exact hlt q hq
      · rename_i code ev heq
        rw [heq] at hb
        simp only [Option.some.injEq] at h
        refine ⟨1, ?_, ?_⟩
        · rw [← h]
          simp only [Step.events] at hb
          simp [hb]
        · intro q hq
          simp at hq
          rw [hq]; exact hnow
      · rename_i received ev heq
        rw [heq] at hb
        simp only [Option.some.injEq] at h
        refine ⟨1, ?_, ?_⟩
        · rw [← h]
          simp only [Step.events] at hb
          simp only [Outcome.after, selectTimeouts_append, hb]
          cases received <;> simp [afterLoop, selectTimeouts]
        · intro q hq
          simp at hq
          rw [hq]; exact hnow
    · simp only [Option.some.injEq] at h
      refine ⟨0, ?_, ?_⟩
      · rw [← h]; simp [afterLoop, selectTimeouts]
      · simp

theorem main_timeouts (env : Env) (out : Outcome) (hrun : main env = some out) :
    ∃ k, selectTimeouts out.trace = (env.polls.take k).map (timeoutOf env.startTime) ∧
      ∀ p ∈ env.polls.take k, p.now1 - env.startTime < TIMEOUT_SECONDS := by
  unfold main at hrun
  split_ifs at hrun with h1 h2 h3
  · simp only [Option.some.injEq] at hrun
    exact ⟨0, by rw [← hrun]; simp [selectTimeouts], by simp⟩
  · simp only [Option.some.injEq] at hrun
    exact ⟨0, by rw [← hrun]; simp [selectTimeouts], by simp⟩
  · simp only [Option.some.injEq] at hrun
    exact ⟨0, by rw [← hrun]; simp [selectTimeouts], by simp⟩
  · rcases hw : waitLoop env.le env.startTime env.buffer env.polls with _ | o
    · rw [hw] at hrun; simp at hrun
    · rw [hw] at hrun
      simp only [Option.map_some', Option.some.injEq] at hrun
      obtain ⟨k, hk, hlt⟩ := waitLoop_timeouts env.le env.startTime env.polls env.buffer o hw
      refine ⟨k, ?_, hlt⟩
      rw [← hrun]
      simp only [Outcome.after, selectTimeouts_append, hk]
      simp [selectTimeouts]

theorem clockMonotone_now2 : ∀ (polls : List Poll) (t : Int), clockMonotone t polls →
    ∀ p ∈ polls, t ≤ p.now2
  | [], _, _, p, hp => by simp at hp
  | q :: qs, t, h, p, hp => by
    obtain ⟨h1, h2, h3⟩ := h
    rcases List.mem_cons.mp hp with rfl | hp
    · omega
    · have := clockMonotone_now2 qs q.now2 h3 p hp
      omega

theorem clockMonotone_pairwise (startTime : Int) : ∀ (polls : List Poll) (t : Int),
    clockMonotone t polls →
    List.Pairwise (fun a b => b ≤ a) (polls.map (timeoutOf startTime))
  | [], _, _ => by simp
  | q :: qs, t, h => by
    obtain ⟨h1, h2, h3⟩ := h
    rw [List.map_cons, List.pairwise_cons]
    refine ⟨?_, clockMonotone_pairwise startTime qs q.now2 h3⟩
    intro b hb
    obtain ⟨p, hp, rfl⟩ := List.mem_map.mp hb
    have := clockMonotone_now2 qs q.now2 h3 p hp
    unfold timeoutOf
    omega

/-- The iterations entered are those whose timeouts appear in the trace. -/
theorem main_consumed (env : Env) (out : Outcome) (hrun : main env = some out) :
    selectTimeouts out.trace = (consumedPolls env out).map (timeoutOf env.startTime) ∧
    ∀ p ∈ consumedPolls env out, p.now1 - env.startTime < TIMEOUT_SECONDS := by
  obtain ⟨k, hk, hlt⟩ := main_timeouts env out hrun
  have hc : consumedPolls env out = env.polls.take k := by
    unfold consumedPolls iterations
    rw [hk, List.length_map, List.length_take]
    by_cases h : k ≤ env.polls.length
    · rw [Nat.min_eq_left h]
    · rw [Nat.min_eq_right (by omega), List.take_of_length_le (le_refl _),
        List.take_of_length_le (by omega)]
  rw [hc]
  exact ⟨hk, hlt⟩

/-- C15 (as amended): in every finished run the timeouts handed to `select`
are, in order, those of the iterations entered.  Each iteration is entered
only while the clock reading at the loop condition shows less than 5 elapsed
seconds, and its timeout is `TIMEOUT_SECONDS` minus the elapsed seconds at the
second clock reading of the iteration, so that on the whole-second clock the
poll is set to expire at `start_time + 5`.  With a non-decreasing clock no
timeout exceeds 5 and the timeouts never grow from one iteration to the
next. -/
theorem select_timeouts_shrink (env : Env) (out : Outcome) (hrun : main env = some out) :
    selectTimeouts out.trace = (consumedPolls env out).map (timeoutOf env.startTime) ∧
    (∀ p ∈ consumedPolls env out,
      p.now1 - env.startTime < TIMEOUT_SECONDS ∧
      timeoutOf env.startTime p = TIMEOUT_SECONDS - (p.now2 - env.startTime) ∧
      p.now2 + timeoutOf env.startTime p = env.startTime + TIMEOUT_SECONDS) ∧
    (∀ tv ∈ selectTimeouts out.trace, ∃ p ∈ env.polls,
      p.now1 - env.startTime < TIMEOUT_SECONDS ∧
      tv = TIMEOUT_SECONDS - (p.now2 - env.startTime) ∧
      p.now2 + tv = env.startTime + TIMEOUT_SECONDS) ∧
    (clockMonotone env.startTime env.polls →
      (∀ tv ∈ selectTimeouts out.trace, tv ≤ TIMEOUT_SECONDS) ∧
      List.Pairwise (fun a b => b ≤ a) (selectTimeouts out.trace)) := by
  obtain ⟨hk, hlt⟩ := main_consumed env out hrun
  have hsub : ∀ p ∈ consumedPolls env out, p ∈ env.polls := fun p hp =>
    List.mem_of_mem_take hp
  refine ⟨hk, ?_, ?_, ?_⟩
  · intro p hp
    refine ⟨hlt p hp, rfl, ?_⟩
    unfold timeoutOf
    omega
  · intro tv htv
    rw [hk] at htv
    obtain ⟨p, hp, rfl⟩ := List.mem_map.mp htv
    refine ⟨p, hsub p hp, hlt p hp, rfl, ?_⟩
    unfold timeoutOf
    omega
  · intro hmono
    constructor
    · intro tv htv
      rw [hk] at htv
      obtain ⟨p, hp, rfl⟩ := List.mem_map.mp htv
      have := clockMonotone_now2 env.polls env.startTime hmono p (hsub p hp)
      unfold timeoutOf
      omega
    · rw [hk]
      have hp := clockMonotone_pairwise env.startTime env.polls env.startTime hmono
      exact hp.sublist ((List.take_sublist _ env.polls).map _)

theorem main_shrinkEnv : main shrinkEnv = some shrinkOutcome := by
  simp [main, shrinkEnv, idlePoll, waitLoop, loopBody, afterLoop, Outcome.after,
    shrinkOutcome, TIMEOUT_SECONDS, synPacket_zeroMem]

theorem main_lateEnv : main lateEnv = some lateOutcome := by
  simp [main, lateEnv, latePoll, idlePoll, waitLoop, loopBody, afterLoop, Outcome.after,
    lateOutcome, TIMEOUT_SECONDS, synPacket_zeroMem]

/-- Witness for C15: the run `shrinkEnv`, whose clock readings 100, 101, 103,
105 are non-decreasing: two iterations are entered, with timeouts 4 and 2,
the values that the loop body hands to `select` at the readings 101 and
103. -/
theorem select_timeouts_shrink_witness :
    main shrinkEnv = some shrinkOutcome ∧
    clockMonotone shrinkEnv.startTime shrinkEnv.polls ∧
    consumedPolls shrinkEnv shrinkOutcome = [idlePoll 101, idlePoll 103] ∧
    selectTimeouts shrinkOutcome.trace = [4, 2] ∧
    (loopBody true 100 zeroMem (idlePoll 101)).events = [.select 4 0] ∧
    (loopBody true 100 zeroMem (idlePoll 103)).events = [.select 2 0] ∧
    selectTimeouts shrinkOutcome.trace
      = (consumedPolls shrinkEnv shrinkOutcome).map (timeoutOf shrinkEnv.startTime) ∧
    (∀ tv ∈ selectTimeouts shrinkOutcome.trace, tv ≤ TIMEOUT_SECONDS) ∧
    List.Pairwise (fun a b => b ≤ a) (selectTimeouts shrinkOutcome.trace) :=
  have hm : clockMonotone shrinkEnv.startTime shrinkEnv.polls := by
    simp [clockMonotone, shrinkEnv, idlePoll]
  have hw := select_timeouts_shrink shrinkEnv shrinkOutcome main_shrinkEnv
  ⟨main_shrinkEnv, hm, rfl, rfl, by decide, by decide, hw.1, hw.2.2.2 hm⟩

/-- C15 (counterexample): in the run `lateEnv` the clock does not go back, yet
a `select` is started, with timeout 0, in an iteration whose timeout
computation reads 5 elapsed seconds. -/
theorem select_after_deadline :
    clockMonotone lateEnv.startTime lateEnv.polls ∧
    main lateEnv = some lateOutcome ∧
    latePoll ∈ lateEnv.polls ∧
    TIMEOUT_SECONDS ≤ latePoll.now2 - lateEnv.startTime ∧
    Event.select (TIMEOUT_SECONDS - (latePoll.now2 - lateEnv.startTime)) latePoll.activity
      ∈ lateOutcome.trace ∧
    selectTimeouts lateOutcome.trace = [0] := by
  refine ⟨by simp [clockMonotone, lateEnv, latePoll, idlePoll], main_lateEnv,
    by simp [lateEnv], by decide, by decide, by decide⟩

/-! ## C17: the byte count of the checksum call -/

/-- C17 (the code on a little-endian host): in both header builds the byte
count given to `checksum` is 10240, not 40, which is more than the 4096 bytes
of `datagram`; and the result depends on memory outside the array: with the
same bytes inside the array, the checksum is 40104 when the byte after the
array is zero and 40103 when it is `0x01`. -/
theorem checksum_count_littleEndian (stack : Mem) :
    checksumCount true (synIpHeader true stack) = 10240 ∧
    checksumCount true (ackIpHeader true stack) = 10240 ∧
    ((sizeofIphdr + sizeofTcphdr : Nat) : Int) = 40 ∧
    (sizeofDatagram : Int) < 10240 ∧
    (∀ i, i < sizeofDatagram → synIpHeader true zeroMem i = synIpHeader true dirtyStack i) ∧
    checksum true (synIpHeader true zeroMem) (checksumCount true (synIpHeader true zeroMem))
      = 40104 ∧
    checksum true (synIpHeader true dirtyStack) (checksumCount true (synIpHeader true dirtyStack))
      = 40103 := by
  refine ⟨?_, ?_, by decide, by decide, ?_, synChecksum_zeroMem, synChecksum_dirty⟩
  · rw [checksumCount_syn]; rfl
  · rw [checksumCount_ack]; rfl
  · exact AgreeBelow.synIpHeader true zeroMem dirtyStack

/-! ## Packets laid over a used receive buffer -/

theorem recvInto_data (old : Mem) (data : List Byte) (i : Nat) (h1 : i < data.length)
    (h2 : i < sizeofBuffer) : recvInto old data i = data.getD i 0 := by
  unfold recvInto
  rw [if_pos (by rw [List.length_take]; omega)]

theorem ackPacket_congr (le : Bool) (stack b1 b2 : Mem)
    (h : recvSeqField le b1 = recvSeqField le b2) :
    ackPacket le stack b1 = ackPacket le stack b2 := by
  unfold ackPacket ackDatagram ackTcpHeader
  rw [h]

theorem ackPacket_stale :
    ackPacket true zeroMem (recvInto (recvInto zeroMem strayPacket) shortPacket) =
      [0x45, 0, 0, 40, 0xd4, 0x31, 0, 0, 64, 6, 0xa8, 0x9c, 127, 0, 0, 1, 127, 0, 0, 1,
       0xd4, 0x31, 0x30, 0x39, 0, 0, 2, 0x58, 0, 0, 1, 0xf5, 0x50, 0x10, 0x20, 0, 0, 0, 0, 0] := by
  unfold ackPacket ackDatagram setIpChecksum
  rw [ackChecksum_zeroMem]
  decide

theorem main_staleEnv : main staleEnv = some staleOutcome := by
  have h1 : isSynAck true (recvInto zeroMem strayPacket) = false := by decide
  have h2 : isSynAck true (recvInto (recvInto zeroMem strayPacket) shortPacket) = true := by
    decide
  have h3 : recvBytes strayPacket = 40 := by decide
  have h4 : recvBytes shortPacket = 20 := by decide
  simp [main, staleEnv, deliverPoll, waitLoop, loopBody, afterLoop, Outcome.after, staleOutcome,
    TIMEOUT_SECONDS, synPacket_zeroMem, ackPacket_stale, h1, h2, h3, h4]

theorem main_freshEnv : main freshEnv = some freshOutcome := by
  have h1 : isSynAck true (recvInto zeroMem shortPacket) = false := by decide
  have h4 : recvBytes shortPacket = 20 := by decide
  simp [main, freshEnv, deliverPoll, idlePoll, waitLoop, loopBody, afterLoop, Outcome.after,
    freshOutcome, TIMEOUT_SECONDS, synPacket_zeroMem, h1, h4]


/-! ## The SYN-ACK test on a packet that holds the bytes it reads -/

theorem recvInto_covers (old : Mem) (data : List Byte)
    (hlen : pktTcpOffset data + 14 ≤ data.length) (i : Nat) (hi : i < pktTcpOffset data + 14) :
    recvInto old data i = data.getD i 0 := by
  have hnib : pktTcpOffset data ≤ 60 := by unfold pktTcpOffset; omega
  exact recvInto_data old data i (by omega) (by unfold sizeofBuffer; omega)

theorem recvTcpOffset_recvInto (old : Mem) (data : List Byte)
    (hlen : pktTcpOffset data + 14 ≤ data.length) :
    recvTcpOffset (recvInto old data) = pktTcpOffset data := by
  unfold recvTcpOffset
  rw [recvInto_covers old data hlen 0 (by omega)]
  unfold pktTcpOffset
  omega

/-- The fields that the client parses from the receive buffer are those of the
packet just received, when that packet is at least `4 * ihl + 14` bytes long. -/
theorem recv_fields_packet (old : Mem) (data : List Byte)
    (hlen : pktTcpOffset data + 14 ≤ data.length) :
    recvSrcPort (recvInto old data) = pktSrcPort data ∧
    recvDstPort (recvInto old data) = pktDstPort data ∧
    recvSeqNum (recvInto old data) = pktSeqNum data ∧
    recvAckNum (recvInto old data) = pktAckNum data ∧
    recvSynFlag (recvInto old data) = pktSynFlag data ∧
    recvAckFlag (recvInto old data) = pktAckFlag data := by
  have hoff := recvTcpOffset_recvInto old data hlen
  have hget := recvInto_covers old data hlen
  unfold recvSrcPort recvDstPort recvSeqNum recvAckNum recvSynFlag recvAckFlag pktSrcPort
    pktDstPort pktSeqNum pktAckNum pktSynFlag pktAckFlag mbe16 mbe32 be16 be32
  rw [hoff]
  refine ⟨?_, ?_, ?_, ?_, ?_, ?_⟩
  · rw [hget _ (by omega), hget _ (by omega)]
  · rw [hget _ (by omega), hget _ (by omega)]
  · rw [hget _ (by omega), hget _ (by omega), hget _ (by omega), hget _ (by omega)]
  · rw [hget _ (by omega), hget _ (by omega), hget _ (by omega), hget _ (by omega)]
  · rw [hget _ (by omega)]
  · rw [hget _ (by omega)]

theorem packetIsSynAck_iff (data : List Byte) :
    packetIsSynAck data = true ↔
      (pktSrcPort data = 12345 ∧ pktDstPort data = 54321 ∧ pktSynFlag data = 1 ∧
       pktAckFlag data = 1 ∧ pktAckNum data = 201) := by
  unfold packetIsSynAck
  simp only [Bool.and_eq_true, beq_iff_eq]
  tauto

/-- The test of lines 187-190 on a packet of at least `4 * ihl + 14` bytes is
the SYN-ACK predicate on the bytes of that packet, whatever the receive
buffer held before. -/
theorem isSynAck_packet (le : Bool) (old : Mem) (data : List Byte)
    (hlen : pktTcpOffset data + 14 ≤ data.length) :
    isSynAck le (recvInto old data) = packetIsSynAck data := by
  have hf := recv_fields_packet old data hlen
  rw [Bool.eq_iff_iff, isSynAck_iff_fields, packetIsSynAck_iff, hf.1, hf.2.1, hf.2.2.2.1,
    hf.2.2.2.2.1, hf.2.2.2.2.2]
  rfl

theorem coversTcpFields_iff (data : List Byte) :
    coversTcpFields data = true ↔ pktTcpOffset data + 14 ≤ data.length := by
  simp [coversTcpFields]

/-- A packet that satisfies the SYN-ACK predicate holds its flags byte. -/
theorem packetIsSynAck_covers (data : List Byte) (h : packetIsSynAck data = true) :
    coversTcpFields data = true := by
  rw [coversTcpFields_iff]
  by_contra hlt
  have hflag := ((packetIsSynAck_iff data).mp h).2.2.1
  unfold pktSynFlag at hflag
  rw [List.getD_eq_default _ _ (by omega)] at hflag
  simp [flag] at hflag

/-! ## C3: the SYN-ACK test -/

/-- A byte of the datagram after the TCP header fields of the ACK are written
depends on the datagram before through that byte and the two bytes that the
bit-field assignments read (offsets 32 and 33). -/
theorem ackTcpHeader_congr_dg (le : Bool) (buffer dg1 dg2 : Mem) (i : Nat)
    (hi : dg1 i = dg2 i) (h32 : dg1 32 = dg2 32) (h33 : dg1 33 = dg2 33) :
    ackTcpHeader le buffer dg1 i = ackTcpHeader le buffer dg2 i := by
  cases le <;>
  simp [ackTcpHeader, sizeofIphdr, store16, store32, write8, setHighNibble, setFlag, hi, h32,
    h33]

/-- The bytes of the ACK packet other than its IP checksum field (bytes 10
and 11) do not depend on the memory at and after `datagram`. -/
theorem ackPacket_getD_stack (le : Bool) (s1 s2 buffer : Mem) (i : Nat) (h10 : i ≠ 10)
    (h11 : i ≠ 11) :
    (ackPacket le s1 buffer).getD i 0 = (ackPacket le s2 buffer).getD i 0 := by
  unfold ackPacket
  by_cases hi : i < sizeofIphdr + sizeofTcphdr
  · rw [firstBytes_getD _ _ _ hi, firstBytes_getD _ _ _ hi]
    have hagree : ∀ j, j < 4096 → j ≠ 10 → j ≠ 11 →
        setIpChecksum le (ackIpHeader le s1) j = setIpChecksum le (ackIpHeader le s2) j := by
      intro j hj hj10 hj11
      rw [setIpChecksum_other le _ j hj10 hj11, setIpChecksum_other le _ j hj10 hj11]
      exact AgreeBelow.ackIpHeader le s1 s2 j hj
    have hi2 : i < 4096 := by
      have : sizeofIphdr + sizeofTcphdr = 40 := rfl
      omega
    unfold ackDatagram
    exact ackTcpHeader_congr_dg le buffer _ _ i (hagree i hi2 h10 h11)
      (hagree 32 (by decide) (by decide) (by decide))
      (hagree 33 (by decide) (by decide) (by decide))
  · rw [List.getD_eq_default _ _ (by rw [firstBytes_length]; omega),
      List.getD_eq_default _ _ (by rw [firstBytes_length]; omega)]

/-- On a big-endian host the byte count of the checksum call is 40 and the
whole ACK packet does not depend on the memory at and after `datagram`. -/
theorem ackPacket_bigEndian_stack (s1 s2 buffer : Mem) :
    ackPacket false s1 buffer = ackPacket false s2 buffer := by
  have hc : checksum false (ackIpHeader false s1) (checksumCount false (ackIpHeader false s1))
      = checksum false (ackIpHeader false s2) (checksumCount false (ackIpHeader false s2)) := by
    rw [checksumCount_ack, checksumCount_ack]
    unfold checksum
    rw [(AgreeBelow.ackIpHeader false s1 s2).sumWords false 0 _ 0 (by decide)]
  have hagree : AgreeBelow 4096 (setIpChecksum false (ackIpHeader false s1))
      (setIpChecksum false (ackIpHeader false s2)) := by
    unfold setIpChecksum
    rw [hc]
    exact (AgreeBelow.ackIpHeader false s1 s2).store16 _ _ _
  unfold ackPacket ackDatagram
  exact (hagree.ackTcpHeader false buffer).firstBytes _ (by decide)

theorem ackPacket_ackNum (le : Bool) (stack buffer : Mem) :
    be32 (ackPacket le stack buffer) 28 = (recvSeqNum buffer + 1) % 4294967296 := by
  unfold ackPacket
  rw [be32_firstBytes _ _ _ (by decide)]
  exact ackTcpHeader_ackNum le buffer _

/-- C18 (as amended): for a received packet that is at least `4 * ihl + 14`
bytes long, `ihl` being the low nibble of its first byte, the accept/reject
decision and the acknowledgment number placed in the ACK depend on the bytes
of that packet only.  The decision is the SYN-ACK predicate on the packet and
the acknowledgment number is the packet's sequence number plus one; and for
any two receive buffers and any two contents of the memory at and after
`datagram`, the decision is the same and the ACK packets agree in every byte
other than the two bytes of the IP checksum field; on a big-endian host they
agree in these two bytes as well. -/
theorem decision_from_packet_bytes (le : Bool) (old1 old2 stack1 stack2 : Mem)
    (data : List Byte) (hlen : 4 * ((data.getD 0 0).val % 16) + 14 ≤ data.length) :
    isSynAck le (recvInto old1 data) = packetIsSynAck data ∧
    isSynAck le (recvInto old1 data) = isSynAck le (recvInto old2 data) ∧
    be32 (ackPacket le stack1 (recvInto old1 data)) 28 = (pktSeqNum data + 1) % 4294967296 ∧
    be32 (ackPacket le stack1 (recvInto old1 data)) 28
      = be32 (ackPacket le stack2 (recvInto old2 data)) 28 ∧
    (∀ i, i ≠ 10 → i ≠ 11 →
      (ackPacket le stack1 (recvInto old1 data)).getD i 0
        = (ackPacket le stack2 (recvInto old2 data)).getD i 0) ∧
    (le = false →
      ackPacket le stack1 (recvInto old1 data) = ackPacket le stack2 (recvInto old2 data)) := by
  have hseq : ∀ old : Mem, recvSeqNum (recvInto old data) = pktSeqNum data := fun old =>
    (recv_fields_packet old data hlen).2.2.1
  have hfield : recvSeqField le (recvInto old1 data) = recvSeqField le (recvInto old2 data) := by
    have hoff : ∀ old : Mem, recvTcpOffset (recvInto old data) = pktTcpOffset data := fun old =>
      recvTcpOffset_recvInto old data hlen
    have hget := fun old => recvInto_covers old data hlen
    unfold recvSeqField
    simp only [hoff]
    rw [hget old1 _ (by omega), hget old1 _ (by omega), hget old1 _ (by omega),
      hget old1 _ (by omega), hget old2 _ (by omega), hget old2 _ (by omega),
      hget old2 _ (by omega), hget old2 _ (by omega)]
  refine ⟨isSynAck_packet le old1 data hlen, ?_, ?_, ?_, ?_, ?_⟩
  · rw [isSynAck_packet le old1 data hlen, isSynAck_packet le old2 data hlen]
  · rw [ackPacket_ackNum, hseq]
  · rw [ackPacket_ackNum, ackPacket_ackNum, hseq, hseq]
  · intro i h10 h11
    rw [ackPacket_congr le stack1 _ _ hfield]
    exact ackPacket_getD_stack le stack1 stack2 _ i h10 h11
  · intro hbe
    subst hbe
    rw [ackPacket_congr false stack1 _ _ hfield]
    exact ackPacket_bigEndian_stack stack1 stack2 _

/-- Witness for C18: the 40-byte packets `plainSynAck` and `wrongAckSynAck`,
received after `strayPacket` with zero bytes after `datagram`, and received on
a zeroed buffer with the byte `0x01` after `datagram`: the first is accepted
and the second rejected in both runs, and the ACK carries acknowledgment
number 501.  On a big-endian host the two ACK packets are equal. -/
theorem decision_from_packet_bytes_witness :
    isSynAck true (recvInto (recvInto zeroMem strayPacket) plainSynAck)
      = packetIsSynAck plainSynAck ∧
    isSynAck true (recvInto (recvInto zeroMem strayPacket) plainSynAck)
      = isSynAck true (recvInto zeroMem plainSynAck) ∧
    be32 (ackPacket true zeroMem (recvInto (recvInto zeroMem strayPacket) plainSynAck)) 28
      = (pktSeqNum plainSynAck + 1) % 4294967296 ∧
    be32 (ackPacket true zeroMem (recvInto (recvInto zeroMem strayPacket) plainSynAck)) 28
      = be32 (ackPacket true dirtyStack (recvInto zeroMem plainSynAck)) 28 ∧
    (∀ i, i ≠ 10 → i ≠ 11 →
      (ackPacket true zeroMem (recvInto (recvInto zeroMem strayPacket) plainSynAck)).getD i 0
        = (ackPacket true dirtyStack (recvInto zeroMem plainSynAck)).getD i 0) ∧
    isSynAck true (recvInto (recvInto zeroMem strayPacket) wrongAckSynAck)
      = isSynAck true (recvInto zeroMem wrongAckSynAck) ∧
    isSynAck true (recvInto (recvInto zeroMem strayPacket) plainSynAck) = true ∧
    isSynAck true (recvInto (recvInto zeroMem strayPacket) wrongAckSynAck) = false ∧
    (pktSeqNum plainSynAck + 1) % 4294967296 = 501 ∧
    ackPacket false zeroMem (recvInto (recvInto zeroMem strayPacket) plainSynAck)
      = ackPacket false dirtyStack (recvInto zeroMem plainSynAck) :=
  have hw := decision_from_packet_bytes true (recvInto zeroMem strayPacket) zeroMem zeroMem
    dirtyStack plainSynAck (by decide)
  ⟨hw.1, hw.2.1, hw.2.2.1, hw.2.2.2.1, hw.2.2.2.2.1,
   (decision_from_packet_bytes true (recvInto zeroMem strayPacket) zeroMem zeroMem dirtyStack
    wrongAckSynAck (by decide)).2.1,
   by decide, by decide, by decide,
   (decision_from_packet_bytes false (recvInto zeroMem strayPacket) zeroMem zeroMem dirtyStack
    plainSynAck (by decide)).2.2.2.2.2 rfl⟩

/-- C18 (counterexample): two runs deliver the same 20-byte packet, an IP
header with no TCP header after it.  In the run that received the rejected
40-byte `strayPacket` before, the test reads the TCP header that packet left
at offset 20 of the buffer: the 20-byte packet is accepted, an ACK with
acknowledgment number 501 is sent and the run returns 0.  In the run that
received nothing before, the packet is rejected and the run returns -1.  The
accepted packet is 20 bytes long, less than `4 * 5 + 14`.  The same holds one
byte below the bound: the 33-byte `flaglessPacket`, a SYN-ACK header cut off
before its flags byte, is accepted after `strayPacket` and rejected on a
zeroed buffer.  On a little-endian host the IP checksum field of the ACK
varies with the memory after `datagram`: for the same packet on the same
buffer, byte 10 of the ACK is `0xa8` with zero bytes after `datagram` and
`0xa7` with the byte `0x01` after it. -/
theorem decision_depends_on_stale_bytes :
    isSynAck true (recvInto zeroMem strayPacket) = false ∧
    isSynAck true (recvInto (recvInto zeroMem strayPacket) shortPacket) = true ∧
    isSynAck true (recvInto zeroMem shortPacket) = false ∧
    shortPacket.length < 4 * ((shortPacket.getD 0 0).val % 16) + 14 ∧
    main staleEnv = some staleOutcome ∧ staleOutcome.ret = 0 ∧
    main freshEnv = some freshOutcome ∧ freshOutcome.ret = -1 ∧
    be32 (ackPacket true zeroMem (recvInto (recvInto zeroMem strayPacket) shortPacket)) 28
      = 501 ∧
    flaglessPacket.length + 1 = 4 * ((flaglessPacket.getD 0 0).val % 16) + 14 ∧
    isSynAck true (recvInto (recvInto zeroMem strayPacket) flaglessPacket) = true ∧
    isSynAck true (recvInto zeroMem flaglessPacket) = false ∧
    (ackPacket true zeroMem (recvInto zeroMem plainSynAck)).getD 10 0 = 0xa8 ∧
    (ackPacket true dirtyStack (recvInto zeroMem plainSynAck)).getD 10 0 = 0xa7 := by
  refine ⟨by decide, by decide, by decide, by decide, main_staleEnv, rfl, main_freshEnv, rfl, ?_,
    by decide, by decide, by decide, ?_, ?_⟩
  · rw [ackPacket_stale]
    decide
  · rw [ackPacket_zeroMem]
    decide
  · rw [ackPacket_dirty]
    decide

/-! ## The packets received during a run -/

theorem iterations_append (a b : List Event) :
    iterations (a ++ b) = iterations a + iterations b := by
  simp [iterations, selectTimeouts_append]

/-- A packet on which the test of lines 187-190 fails does not satisfy the
SYN-ACK predicate, whatever the receive buffer held before. -/
theorem reject_not_synAck (le : Bool) (buffer : Mem) (data : List Byte)
    (h : isSynAck le (recvInto buffer data) = false) : packetIsSynAck data = false := by
  cases hp : packetIsSynAck data with
  | false => rfl
  | true =>
    have hpk := isSynAck_packet le buffer data
      ((coversTcpFields_iff data).mp (packetIsSynAck_covers data hp))
    rw [hpk, hp] at h
    exact absurd h (by decide)

/-- A packet of at least `4 * ihl + 14` bytes on which the test passes
satisfies the SYN-ACK predicate. -/
theorem accept_synAck (le : Bool) (buffer : Mem) (data : List Byte)
    (h : isSynAck le (recvInto buffer data) = true) (hcov : coversTcpFields data = true) :
    packetIsSynAck data = true := by
  rw [← isSynAck_packet le buffer data ((coversTcpFields_iff data).mp hcov)]
  exact h

/-- The five ways in which one execution of the loop body can end, told apart
by the packet it receives. -/
theorem loopBody_received (le : Bool) (startTime : Int) (buffer : Mem) (p : Poll) :
    (received p = none ∧ loopBody le startTime buffer p =
      .ret (-1) [.select (TIMEOUT_SECONDS - (p.now2 - startTime)) p.activity, .close]) ∨
    (received p = none ∧ ∃ ev, loopBody le startTime buffer p = .next buffer ev ∧
      iterations ev = 1 ∧ (∀ pkt r, Event.sendAck pkt r ∉ ev) ∧ Event.validate true ∉ ev) ∨
    (∃ data, received p = some data ∧ isSynAck le (recvInto buffer data) = false ∧
      loopBody le startTime buffer p = .next (recvInto buffer data)
        [.select (TIMEOUT_SECONDS - (p.now2 - startTime)) p.activity,
         .recvfrom (recvBytes data), .validate false]) ∨
    (∃ data, received p = some data ∧ isSynAck le (recvInto buffer data) = true ∧
      p.ackSend < 0 ∧
      loopBody le startTime buffer p = .ret (-1)
        [.select (TIMEOUT_SECONDS - (p.now2 - startTime)) p.activity,
         .recvfrom (recvBytes data), .validate true,
         .sendAck (ackPacket le p.stack (recvInto buffer data)) p.ackSend, .close]) ∨
    (∃ data, received p = some data ∧ isSynAck le (recvInto buffer data) = true ∧
      0 ≤ p.ackSend ∧
      loopBody le startTime buffer p = .brk true
        [.select (TIMEOUT_SECONDS - (p.now2 - startTime)) p.activity,
         .recvfrom (recvBytes data), .validate true,
         .sendAck (ackPacket le p.stack (recvInto buffer data)) p.ackSend]) := by
  unfold loopBody received
  by_cases h1 : p.activity < 0
  · exact Or.inl ⟨by rw [if_neg (by omega)], by simp [h1]⟩
  · by_cases h2 : p.activity = 0
    · exact Or.inr (Or.inl ⟨by rw [if_neg (by omega)],
        [.select (TIMEOUT_SECONDS - (p.now2 - startTime)) p.activity], by simp [h2],
        by simp [iterations, selectTimeouts], by simp, by simp⟩)
    · have hpos : 0 < p.activity := by omega
      by_cases h3 : p.isset = true
      · rw [if_pos ⟨hpos, h3⟩]
        cases h4 : p.recv with
        | none =>
          exact Or.inr (Or.inl ⟨rfl,
            [.select (TIMEOUT_SECONDS - (p.now2 - startTime)) p.activity, .recvfrom (-1)],
            by simp [h1, h2, h3], by simp [iterations, selectTimeouts], by simp, by simp⟩)
        | some data =>
          cases h5 : isSynAck le (recvInto buffer data) with
          | false =>
            exact Or.inr (Or.inr (Or.inl ⟨data, rfl, h5, by simp [h1, h2, h3, h5]⟩))
          | true =>
            by_cases h6 : p.ackSend < 0
            · exact Or.inr (Or.inr (Or.inr (Or.inl
                ⟨data, rfl, h5, h6, by simp [h1, h2, h3, h5, h6]⟩)))
            · exact Or.inr (Or.inr (Or.inr (Or.inr
                ⟨data, rfl, h5, by omega, by simp [h1, h2, h3, h5, h6]⟩)))
      · exact Or.inr (Or.inl ⟨by rw [if_neg (by tauto)],
          [.select (TIMEOUT_SECONDS - (p.now2 - startTime)) p.activity], by simp [h1, h2, h3],
          by simp [iterations, selectTimeouts], by simp, by simp⟩)

/-- The run of the wait loop against the packets received.  Either the test
never passes: no packet received satisfies the SYN-ACK predicate, no ACK is
sent and the value is -1.  Or the test passes in the last iteration entered:
the packet received there satisfies the predicate provided it is at least
`4 * ihl + 14` bytes long, no packet received before it does, one ACK is sent,
and the value is 0 exactly when that `sendto` succeeded. -/
theorem waitLoop_packets (le : Bool) (startTime : Int) :
    ∀ (polls : List Poll) (buffer : Mem) (out : Outcome),
      waitLoop le startTime buffer polls = some out →
      (out.ret = -1 ∧ (∀ pkt r, Event.sendAck pkt r ∉ out.trace) ∧
        Event.validate true ∉ out.trace ∧
        ∀ q ∈ polls.take (iterations out.trace), ∀ d, received q = some d →
          packetIsSynAck d = false) ∨
      (∃ pre p d, polls.take (iterations out.trace) = pre ++ [p] ∧ received p = some d ∧
        (coversTcpFields d = true → packetIsSynAck d = true) ∧
        (∀ q ∈ pre, ∀ d1, received q = some d1 → packetIsSynAck d1 = false) ∧
        Event.validate true ∈ out.trace ∧
        (∃ pkt, Event.sendAck pkt p.ackSend ∈ out.trace) ∧
        (out.ret = 0 ↔ 0 ≤ p.ackSend) ∧ (out.ret = 0 ∨ out.ret = -1))
  | [], _, _, h => by simp [waitLoop] at h
  | p :: ps, buffer, out, h => by
    rw [waitLoop] at h
    split_ifs at h with hnow
    · have step : ∀ buffer1 ev, iterations ev = 1 → (∀ pkt r, Event.sendAck pkt r ∉ ev) →
          Event.validate true ∉ ev →
          (∀ d, received p = some d → packetIsSynAck d = false) →
          (waitLoop le startTime buffer1 ps).map (Outcome.after ev) = some out →
          (out.ret = -1 ∧ (∀ pkt r, Event.sendAck pkt r ∉ out.trace) ∧
            Event.validate true ∉ out.trace ∧
            ∀ q ∈ (p :: ps).take (iterations out.trace), ∀ d, received q = some d →
              packetIsSynAck d = false) ∨
          (∃ pre p1 d, (p :: ps).take (iterations out.trace) = pre ++ [p1] ∧
            received p1 = some d ∧ (coversTcpFields d = true → packetIsSynAck d = true) ∧
            (∀ q ∈ pre, ∀ d1, received q = some d1 → packetIsSynAck d1 = false) ∧
            Event.validate true ∈ out.trace ∧
            (∃ pkt, Event.sendAck pkt p1.ackSend ∈ out.trace) ∧
            (out.ret = 0 ↔ 0 ≤ p1.ackSend) ∧ (out.ret = 0 ∨ out.ret = -1)) := by
        intro buffer1 ev hev hno hnv hp hm
        rcases hw : waitLoop le startTime buffer1 ps with _ | o
        · rw [hw] at hm; simp at hm
        · rw [hw] at hm
          simp only [Option.map_some', Option.some.injEq] at hm
          subst hm
          have hk : iterations (Outcome.after ev o).trace = iterations o.trace + 1 := by
            simp only [Outcome.after, iterations_append, hev]
            omega
          have hret : (Outcome.after ev o).ret = o.ret := rfl
          have htr : (Outcome.after ev o).trace = ev ++ o.trace := rfl
          rw [hk, List.take_succ_cons]
          rcases waitLoop_packets le startTime ps buffer1 o hw with
            ⟨h1, h2, h2v, h3⟩ | ⟨pre, p1, d, h1, h2, h3, h4, h4v, ⟨pkt, h5⟩, h6, h7⟩
          · refine Or.inl ⟨by rw [hret]; exact h1, ?_, ?_, ?_⟩
            · intro pkt r hmem
              rw [htr] at hmem
              rcases List.mem_append.mp hmem with hmem | hmem
              · exact hno pkt r hmem
              · exact h2 pkt r hmem
            · intro hmem
              rw [htr] at hmem
              rcases List.mem_append.mp hmem with hmem | hmem
              · exact hnv hmem
              · exact h2v hmem
            · intro q hq d hd
              rcases List.mem_cons.mp hq with rfl | hq
              · exact hp d hd
              · exact h3 q hq d hd
          · refine Or.inr ⟨p :: pre, p1, d, by rw [h1]; rfl, h2, h3, ?_, ?_, ⟨pkt, ?_⟩, ?_, ?_⟩
            · intro q hq d1 hd
              rcases List.mem_cons.mp hq with rfl | hq
              · exact hp d1 hd
              · exact h4 q hq d1 hd
            · rw [htr]
              exact List.mem_append_right _ h4v
            · rw [htr]
              exact List.mem_append_right _ h5
            · rw [hret]; exact h6
            · rw [hret]; exact h7
      rcases loopBody_received le startTime buffer p with
        ⟨h0, hb⟩ | ⟨h0, ev, hb, hev, hno, hnv⟩ | ⟨data, h0, h1, hb⟩ | ⟨data, h0, h1, h2, hb⟩ |
        ⟨data, h0, h1, h2, hb⟩
      · rw [hb] at h
        simp only [Option.some.injEq] at h
        subst h
        refine Or.inl ⟨rfl, by simp, by simp, ?_⟩
        intro q hq d hd
        have hq1 : q = p := by
          simpa [iterations, selectTimeouts] using hq
        rw [hq1, h0] at hd
        simp at hd
      · rw [hb] at h
        exact step buffer ev hev hno hnv (fun d hd => by rw [h0] at hd; simp at hd) h
      · rw [hb] at h
        exact step _ _ (by simp [iterations, selectTimeouts]) (by simp) (by simp) (fun d hd => by
          rw [h0] at hd
          simp only [Option.some.injEq] at hd
          rw [← hd]
          exact reject_not_synAck le buffer data h1) h
      · rw [hb] at h
        simp only [Option.some.injEq] at h
        have hk : iterations out.trace = 1 := by
          rw [← h]; simp [iterations, selectTimeouts]
        have ht : List.take 1 (p :: ps) = [p] := rfl
        rw [hk, ht]
        have hret : out.ret = -1 := by rw [← h]
        refine Or.inr ⟨[], p, data, rfl, h0, accept_synAck le buffer data h1, by simp,
          by rw [← h]; simp,
          ⟨ackPacket le p.stack (recvInto buffer data), by rw [← h]; simp⟩, ?_, Or.inr hret⟩
        rw [hret]
        constructor
        · intro hc; simp at hc
        · intro hc; omega
      · rw [hb] at h
        simp only [Option.some.injEq] at h
        have hk : iterations out.trace = 1 := by
          rw [← h]; simp [iterations, selectTimeouts, Outcome.after, afterLoop]
        have ht : List.take 1 (p :: ps) = [p] := rfl
        rw [hk, ht]
        have hret : out.ret = 0 := by rw [← h]; rfl
        refine Or.inr ⟨[], p, data, rfl, h0, accept_synAck le buffer data h1, by simp,
          by rw [← h]; simp [Outcome.after],
          ⟨ackPacket le p.stack (recvInto buffer data), by rw [← h]; simp [Outcome.after]⟩, ?_,
          Or.inl hret⟩
        constructor
        · intro _; exact h2
        · intro _; exact hret
    · simp only [Option.some.injEq] at h
      subst h
      refine Or.inl ⟨rfl, by simp [afterLoop], by simp [afterLoop], ?_⟩
      intro q hq
      simp [iterations, selectTimeouts, afterLoop] at hq

theorem mem_receivedPackets (env : Env) (out : Outcome) (d : List Byte) :
    d ∈ receivedPackets env out ↔ ∃ q ∈ consumedPolls env out, received q = some d := by
  unfold receivedPackets
  rw [List.mem_filterMap]

/-- The run against the packets received: the test never passes, or it passes
on the packet received last. -/
theorem main_packets (env : Env) (out : Outcome) (hrun : main env = some out) :
    (out.ret = -1 ∧ (∀ pkt r, Event.sendAck pkt r ∉ out.trace) ∧
      Event.validate true ∉ out.trace ∧
      ∀ d ∈ receivedPackets env out, packetIsSynAck d = false) ∨
    (∃ pre p d, consumedPolls env out = pre ++ [p] ∧ received p = some d ∧
      receivedPackets env out = pre.filterMap received ++ [d] ∧
      (coversTcpFields d = true → packetIsSynAck d = true) ∧
      (∀ q ∈ pre, ∀ d1, received q = some d1 → packetIsSynAck d1 = false) ∧
      Event.validate true ∈ out.trace ∧
      (∃ pkt, Event.sendAck pkt p.ackSend ∈ out.trace) ∧
      (out.ret = 0 ↔ 0 ≤ p.ackSend) ∧ (out.ret = 0 ∨ out.ret = -1)) := by
  have hnil : iterations out.trace = 0 →
      (out.ret = -1 ∧ (∀ pkt r, Event.sendAck pkt r ∉ out.trace) ∧
        Event.validate true ∉ out.trace) →
      (out.ret = -1 ∧ (∀ pkt r, Event.sendAck pkt r ∉ out.trace) ∧
        Event.validate true ∉ out.trace ∧
        ∀ d ∈ receivedPackets env out, packetIsSynAck d = false) := by
    intro h0 h1
    refine ⟨h1.1, h1.2.1, h1.2.2, ?_⟩
    intro d hd
    unfold receivedPackets consumedPolls at hd
    rw [h0] at hd
    simp at hd
  unfold main at hrun
  split_ifs at hrun with h1 h2 h3
  · simp only [Option.some.injEq] at hrun
    subst hrun
    exact Or.inl (hnil (by simp [iterations, selectTimeouts]) ⟨rfl, by simp, by simp⟩)
  · simp only [Option.some.injEq] at hrun
    subst hrun
    exact Or.inl (hnil (by simp [iterations, selectTimeouts]) ⟨rfl, by simp, by simp⟩)
  · simp only [Option.some.injEq] at hrun
    subst hrun
    exact Or.inl (hnil (by simp [iterations, selectTimeouts]) ⟨rfl, by simp, by simp⟩)
  · rcases hw : waitLoop env.le env.startTime env.buffer env.polls with _ | o
    · rw [hw] at hrun; simp at hrun
    · rw [hw] at hrun
      simp only [Option.map_some', Option.some.injEq] at hrun
      have hk : iterations out.trace = iterations o.trace := by
        rw [← hrun]
        simp [Outcome.after, iterations_append, iterations, selectTimeouts]
      have hret : out.ret = o.ret := by rw [← hrun]; rfl
      have hack : ∀ pkt r, Event.sendAck pkt r ∈ out.trace ↔ Event.sendAck pkt r ∈ o.trace := by
        intro pkt r
        rw [← hrun]
        simp [Outcome.after]
      have hval : Event.validate true ∈ out.trace ↔ Event.validate true ∈ o.trace := by
        rw [← hrun]
        simp [Outcome.after]
      have hcons : consumedPolls env out = env.polls.take (iterations o.trace) := by
        unfold consumedPolls
        rw [hk]
      rcases waitLoop_packets env.le env.startTime env.polls env.buffer o hw with
        ⟨h4, h5, h5v, h6⟩ | ⟨pre, p, d, h4, h5, h6, h7, h7v, ⟨pkt, h8⟩, h9, h10⟩
      · refine Or.inl ⟨by rw [hret]; exact h4, fun pkt r hm => h5 pkt r ((hack pkt r).mp hm),
          fun hm => h5v (hval.mp hm), ?_⟩
        intro d hd
        obtain ⟨q, hq, hqd⟩ := (mem_receivedPackets env out d).mp hd
        rw [hcons] at hq
        exact h6 q hq d hqd
      · refine Or.inr ⟨pre, p, d, by rw [hcons]; exact h4, h5, ?_, h6, h7, hval.mpr h7v,
          ⟨pkt, (hack pkt _).mpr h8⟩, by rw [hret]; exact h9, by rw [hret]; exact h10⟩
        unfold receivedPackets
        rw [hcons, h4, List.filterMap_append]
        simp [List.filterMap_cons, h5]

theorem main_retryEnv : main retryEnv = some retryOutcome := by
  have h1 : isSynAck true (recvInto zeroMem wrongAckSynAck) = false := by decide
  have h2 : isSynAck true (recvInto (recvInto zeroMem wrongAckSynAck) plainSynAck) = true := by
    decide
  have h3 : recvBytes wrongAckSynAck = 40 := by decide
  have h4 : recvBytes plainSynAck = 40 := by decide
  have h5 : ackPacket true zeroMem (recvInto (recvInto zeroMem wrongAckSynAck) plainSynAck) =
      [0x45, 0, 0, 40, 0xd4, 0x31, 0, 0, 64, 6, 0xa8, 0x9c, 127, 0, 0, 1, 127, 0, 0, 1,
       0xd4, 0x31, 0x30, 0x39, 0, 0, 2, 0x58, 0, 0, 1, 0xf5, 0x50, 0x10, 0x20, 0, 0, 0, 0, 0] := by
    rw [ackPacket_congr true zeroMem _ (recvInto zeroMem plainSynAck) (by decide)]
    exact ackPacket_zeroMem
  simp [main, retryEnv, deliverPoll, waitLoop, loopBody, afterLoop, Outcome.after, retryOutcome,
    TIMEOUT_SECONDS, synPacket_zeroMem, h1, h2, h3, h4, h5]

theorem receivedPackets_retryEnv :
    receivedPackets retryEnv retryOutcome = [wrongAckSynAck, plainSynAck] := by
  simp [receivedPackets, consumedPolls, iterations, selectTimeouts, retryEnv, retryOutcome,
    received, deliverPoll]

theorem receivedPackets_staleEnv :
    receivedPackets staleEnv staleOutcome = [strayPacket, shortPacket] := by
  simp [receivedPackets, consumedPolls, iterations, selectTimeouts, staleEnv, staleOutcome,
    received, deliverPoll]

theorem receivedPackets_silentEnv : receivedPackets silentEnv silentOutcome = [] := by
  simp [receivedPackets, consumedPolls, iterations, selectTimeouts, silentEnv, silentOutcome,
    received, idlePoll]

/-! ## C8: the value returned -/

/-- C8 (as amended): a run whose answers reach the deadline returns; and
whenever a run returns, the value is 0 or -1.  If an iteration received a
packet that satisfies the SYN-ACK predicate and the `sendto` of the ACK in
that iteration returned a non-negative value, the value is 0.  If the value
is 0, the packet received last passed the test of lines 187-190 and the
`sendto` of its ACK returned a non-negative value; that packet satisfies the
SYN-ACK predicate provided it is at least `4 * ihl + 14` bytes long.  Hence,
in a run that passes the test on no packet shorter than that, the value is 0
if and only if an iteration received a packet that satisfies the SYN-ACK
predicate and the `sendto` of its ACK returned a non-negative value.  In
every run the value is -1 after a failed `socket`, `setsockopt` or SYN
`sendto`, after a failed `select`, after a failed ACK `sendto`, and when the
deadline has expired (timeout message). -/
theorem main_ret (env : Env) :
    ((∃ p ∈ env.polls, TIMEOUT_SECONDS ≤ p.now1 - env.startTime) →
      ∃ out, main env = some out) ∧
    (∀ out, main env = some out →
      (out.ret = 0 ∨ out.ret = -1) ∧
      ((∃ p ∈ consumedPolls env out, ∃ d, received p = some d ∧
          packetIsSynAck d = true ∧ 0 ≤ p.ackSend) → out.ret = 0) ∧
      (out.ret = 0 → ∃ pre p d, consumedPolls env out = pre ++ [p] ∧ received p = some d ∧
        receivedPackets env out = pre.filterMap received ++ [d] ∧
        Event.validate true ∈ out.trace ∧ 0 ≤ p.ackSend ∧
        (coversTcpFields d = true → packetIsSynAck d = true)) ∧
      ((Event.validate true ∈ out.trace →
          ∀ d, (receivedPackets env out).getLast? = some d → coversTcpFields d = true) →
        (out.ret = 0 ↔ ∃ p ∈ consumedPolls env out, ∃ d, received p = some d ∧
          packetIsSynAck d = true ∧ 0 ≤ p.ackSend)) ∧
      (out.ret = 0 ↔ (Event.validate true ∈ out.trace ∧
        ∃ pkt r, Event.sendAck pkt r ∈ out.trace ∧ 0 ≤ r)) ∧
      (env.sock < 0 ∨ env.setsockopt < 0 ∨ env.synSend < 0 → out.ret = -1) ∧
      (∀ tv r, Event.select tv r ∈ out.trace → r < 0 → out.ret = -1) ∧
      (∀ pkt r, Event.sendAck pkt r ∈ out.trace → r < 0 → out.ret = -1) ∧
      (Event.timeoutMessage ∈ out.trace → out.ret = -1)) := by
  constructor
  · intro h
    unfold main
    split_ifs
    · exact ⟨_, rfl⟩
    · exact ⟨_, rfl⟩
    · exact ⟨_, rfl⟩
    · obtain ⟨o, ho⟩ := waitLoop_terminates env.le env.startTime env.polls env.buffer h
      exact ⟨o.after [.socket env.sock, .setsockopt env.setsockopt,
        .sendSyn (synPacket env.le env.stack) env.synSend], by simp [ho]⟩
  · intro out hrun
    have hif : (∃ p ∈ consumedPolls env out, ∃ d, received p = some d ∧
        packetIsSynAck d = true ∧ 0 ≤ p.ackSend) → out.ret = 0 := by
      rintro ⟨q, hq, d1, hd1, hsyn, hsend⟩
      rcases main_packets env out hrun with
        ⟨_, _, _, h6⟩ | ⟨pre, p, d, h4, h5, _, _, h7, _, _, h9, _⟩
      · have := h6 d1 ((mem_receivedPackets env out d1).mpr ⟨q, hq, hd1⟩)
        rw [hsyn] at this
        exact absurd this (by decide)
      · rw [h4] at hq
        rcases List.mem_append.mp hq with hq | hq
        · have := h7 q hq d1 hd1
          rw [hsyn] at this
          exact absurd this (by decide)
        · rw [List.mem_singleton] at hq
          subst hq
          exact h9.mpr hsend
    have honly : out.ret = 0 → ∃ pre p d, consumedPolls env out = pre ++ [p] ∧
        received p = some d ∧ receivedPackets env out = pre.filterMap received ++ [d] ∧
        Event.validate true ∈ out.trace ∧ 0 ≤ p.ackSend ∧
        (coversTcpFields d = true → packetIsSynAck d = true) := by
      intro h0
      rcases main_packets env out hrun with
        ⟨h4, _, _, _⟩ | ⟨pre, p, d, h4, h5, h5r, h6, _, h7v, _, h9, _⟩
      · omega
      · exact ⟨pre, p, d, h4, h5, h5r, h7v, h9.mp h0, h6⟩
    have hiff : (Event.validate true ∈ out.trace →
          ∀ d, (receivedPackets env out).getLast? = some d → coversTcpFields d = true) →
        (out.ret = 0 ↔ ∃ p ∈ consumedPolls env out, ∃ d, received p = some d ∧
          packetIsSynAck d = true ∧ 0 ≤ p.ackSend) := by
      intro hcov
      refine ⟨fun h0 => ?_, hif⟩
      obtain ⟨pre, p, d, h4, h5, h5r, hv, hs, hsyn⟩ := honly h0
      refine ⟨p, by rw [h4]; simp, d, h5, hsyn (hcov hv d ?_), hs⟩
      rw [h5r]
      simp
    rcases main_outcome env out hrun with
      ⟨_, rfl⟩ | ⟨_, _, rfl⟩ | ⟨_, _, _, rfl⟩ | ⟨h1, h2, h3, o, ho, rfl⟩
    · exact ⟨Or.inr rfl, hif, honly, hiff, by simp, by simp, by simp, by simp, by simp⟩
    · exact ⟨Or.inr rfl, hif, honly, hiff, by simp, by simp, by simp, by simp, by simp⟩
    · exact ⟨Or.inr rfl, hif, honly, hiff, by simp, by simp, by simp, by simp, by simp⟩
    · have hr := loopOutcome_ret o ho
      have hf := loopOutcome_failures o ho
      refine ⟨by simpa [Outcome.after] using hr.1, hif, honly, hiff,
        by simpa [Outcome.after] using hr.2, ?_, ?_, ?_, ?_⟩
      · intro h; omega
      · intro tv r hm hneg
        simp only [Outcome.after, List.cons_append, List.nil_append, List.mem_cons,
          reduceCtorEq, false_or] at hm
        exact hf.1 tv r hm hneg
      · intro pkt r hm hneg
        simp only [Outcome.after, List.cons_append, List.nil_append, List.mem_cons,
          reduceCtorEq, false_or] at hm
        exact hf.2.1 pkt r hm hneg
      · intro hm
        simp only [Outcome.after, List.cons_append, List.nil_append, List.mem_cons,
          reduceCtorEq, false_or] at hm
        exact hf.2.2 hm

/-- Witness for C8: the run `retryEnv` receives `wrongAckSynAck`, which is
rejected, and then `plainSynAck`, and returns 0: an iteration received a
packet that satisfies the predicate and its ACK `sendto` returned 40.  The
run `silentEnv` returns -1: no iteration received such a packet. -/
theorem main_ret_witness :
    main retryEnv = some retryOutcome ∧ retryOutcome.ret = 0 ∧
    receivedPackets retryEnv retryOutcome = [wrongAckSynAck, plainSynAck] ∧
    packetIsSynAck wrongAckSynAck = false ∧ packetIsSynAck plainSynAck = true ∧
    isSynAck true (recvInto zeroMem wrongAckSynAck) = false ∧
    isSynAck true (recvInto (recvInto zeroMem wrongAckSynAck) plainSynAck) = true ∧
    (∃ p ∈ consumedPolls retryEnv retryOutcome, ∃ d, received p = some d ∧
      packetIsSynAck d = true ∧ 0 ≤ p.ackSend) ∧
    main silentEnv = some silentOutcome ∧ silentOutcome.ret = -1 ∧
    ¬ (∃ p ∈ consumedPolls silentEnv silentOutcome, ∃ d, received p = some d ∧
      packetIsSynAck d = true ∧ 0 ≤ p.ackSend) :=
  ⟨main_retryEnv, rfl, receivedPackets_retryEnv, by decide, by decide, by decide, by decide,
   (((main_ret retryEnv).2 retryOutcome main_retryEnv).2.2.2.1
      (fun _ d hd => by
        rw [receivedPackets_retryEnv] at hd
        simp only [List.getLast?_cons_cons, List.getLast?_singleton, Option.some.injEq] at hd
        rw [← hd]
        decide)).mp rfl,
   main_silentEnv, rfl,
   fun h => absurd (((main_ret silentEnv).2 silentOutcome main_silentEnv).2.1 h) (by decide)⟩

/-- C8 (counterexample): the run `staleEnv` returns 0 although neither of the
two packets it received satisfies the SYN-ACK predicate: `strayPacket` has no
SYN-ACK header at its offset 24, and the 20-byte `shortPacket` has no TCP
header at all; the test passed on the bytes that `strayPacket` left in the
receive buffer. -/
theorem success_without_synAck :
    main staleEnv = some staleOutcome ∧ staleOutcome.ret = 0 ∧
    receivedPackets staleEnv staleOutcome = [strayPacket, shortPacket] ∧
    packetIsSynAck strayPacket = false ∧ packetIsSynAck shortPacket = false ∧
    shortPacket.length = 20 ∧ pktTcpOffset shortPacket = 20 ∧
    coversTcpFields shortPacket = false :=
  ⟨main_staleEnv, rfl, receivedPackets_staleEnv, by decide, by decide, by decide, by decide,
    by decide⟩

/-! ## C14: when the ACK is sent -/

/-- C14 (as amended): the trace of every finished run consists of quiet
actions (no passed SYN-ACK test and no ACK transmission among them) followed
either by the closing actions of a failed run (value -1), or by a successful
`recvfrom`, the passed test of lines 187-190, one ACK `sendto` and `close`.
Hence an ACK is sent only right after the test has passed, at most one ACK is
sent and nothing but `close` follows it.  If an ACK is sent, it is for the
packet received last: no packet received before it satisfies the SYN-ACK
predicate, and this one does provided it is at least `4 * ihl + 14` bytes
long.  A run in which no packet is received, and a run in which no `recvfrom`
delivers a packet, returns -1 without sending an ACK. -/
theorem ack_after_accept_only (env : Env) (out : Outcome) (hrun : main env = some out) :
    (∃ head tail, out.trace = head ++ tail ∧ (∀ e ∈ head, e.quiet = true) ∧
      ((out.ret = -1 ∧ (tail = [] ∨ tail = [.close] ∨ tail = [.timeoutMessage, .close])) ∨
       (∃ n pkt r, 0 ≤ n ∧ tail = [.recvfrom n, .validate true, .sendAck pkt r, .close]))) ∧
    out.trace.countP Event.isSendAck ≤ 1 ∧
    ((∃ pkt r, Event.sendAck pkt r ∈ out.trace) → Event.validate true ∈ out.trace) ∧
    ((∃ pkt r, Event.sendAck pkt r ∈ out.trace) →
      ∃ earlier d, receivedPackets env out = earlier ++ [d] ∧
        (∀ d1 ∈ earlier, packetIsSynAck d1 = false) ∧
        (coversTcpFields d = true → packetIsSynAck d = true)) ∧
    (receivedPackets env out = [] →
      out.ret = -1 ∧ ∀ pkt r, Event.sendAck pkt r ∉ out.trace) ∧
    ((∀ n, Event.recvfrom n ∈ out.trace → n < 0) →
      out.ret = -1 ∧ ∀ pkt r, Event.sendAck pkt r ∉ out.trace) := by
  have hform := main_trace_form env out hrun
  have hpk : (∃ pkt r, Event.sendAck pkt r ∈ out.trace) →
      ∃ earlier d, receivedPackets env out = earlier ++ [d] ∧
        (∀ d1 ∈ earlier, packetIsSynAck d1 = false) ∧
        (coversTcpFields d = true → packetIsSynAck d = true) := by
    intro hack
    rcases main_packets env out hrun with
      ⟨_, h5, _, _⟩ | ⟨pre, p, d, h4, h5, h5r, h6, h7, _, _, _, _⟩
    · obtain ⟨pkt, r, hm⟩ := hack
      exact absurd hm (h5 pkt r)
    · refine ⟨pre.filterMap received, d, h5r, ?_, h6⟩
      intro d1 hd1
      obtain ⟨q, hq, hqd⟩ := List.mem_filterMap.mp hd1
      exact h7 q hq d1 hqd
  have hnone : receivedPackets env out = [] →
      out.ret = -1 ∧ ∀ pkt r, Event.sendAck pkt r ∉ out.trace := by
    intro hnil
    rcases main_packets env out hrun with
      ⟨h4, h5, _, _⟩ | ⟨pre, p, d, h4, h5, h5r, _, _, _, _, _, _⟩
    · exact ⟨h4, h5⟩
    · rw [hnil] at h5r
      simp at h5r
  refine ⟨hform, ?_, ?_, hpk, hnone, ?_⟩
  · obtain ⟨head, tail, ht, hq, hcase⟩ := hform
    have h0 := (quiet_not_sendAck head hq).1
    rw [ht, List.countP_append, h0]
    rcases hcase with ⟨_, rfl | rfl | rfl⟩ | ⟨n, pkt, r, _, rfl⟩ <;>
      simp [List.countP_cons, Event.isSendAck]
  · obtain ⟨head, tail, ht, hq, hcase⟩ := hform
    rintro ⟨pkt, r, hmem⟩
    rw [ht] at hmem ⊢
    rcases List.mem_append.mp hmem with hmem | hmem
    · exact absurd hmem ((quiet_not_sendAck head hq).2.1 pkt r)
    · rcases hcase with ⟨_, rfl | rfl | rfl⟩ | ⟨n, pkt1, r1, _, rfl⟩
      · simp at hmem
      · simp at hmem
      · simp at hmem
      · simp
  · obtain ⟨head, tail, ht, hq, hcase⟩ := hform
    intro hnone
    rcases hcase with ⟨hr, htail⟩ | ⟨n, pkt1, r1, hn, rfl⟩
    · refine ⟨hr, fun pkt r hmem => ?_⟩
      rw [ht] at hmem
      rcases List.mem_append.mp hmem with hmem | hmem
      · exact absurd hmem ((quiet_not_sendAck head hq).2.1 pkt r)
      · rcases htail with rfl | rfl | rfl <;> simp at hmem
    · have := hnone n (by rw [ht]; simp)
      omega

/-- Witness for C14: the run `retryEnv` sends one ACK; it is for the packet
received last, `plainSynAck`, which is 40 bytes long and satisfies the SYN-ACK
predicate, and the packet received before it, `wrongAckSynAck`, does not.  In
the run `silentEnv` no packet arrives; it returns -1 and its trace holds no
ACK `sendto`. -/
theorem ack_after_accept_only_witness :
    main retryEnv = some retryOutcome ∧
    receivedPackets retryEnv retryOutcome = [wrongAckSynAck, plainSynAck] ∧
    retryOutcome.trace.countP Event.isSendAck = 1 ∧
    (∃ earlier d, receivedPackets retryEnv retryOutcome = earlier ++ [d] ∧
      (∀ d1 ∈ earlier, packetIsSynAck d1 = false) ∧
      (coversTcpFields d = true → packetIsSynAck d = true)) ∧
    packetIsSynAck wrongAckSynAck = false ∧ coversTcpFields plainSynAck = true ∧
    packetIsSynAck plainSynAck = true ∧
    isSynAck true (recvInto zeroMem wrongAckSynAck) = false ∧
    isSynAck true (recvInto (recvInto zeroMem wrongAckSynAck) plainSynAck) = true ∧
    main silentEnv = some silentOutcome ∧ silentOutcome.ret = -1 ∧
    (∀ pkt r, Event.sendAck pkt r ∉ silentOutcome.trace) :=
  have hw := ack_after_accept_only retryEnv retryOutcome main_retryEnv
  have hs := (ack_after_accept_only silentEnv silentOutcome main_silentEnv).2.2.2.2.1
    receivedPackets_silentEnv
  ⟨main_retryEnv, receivedPackets_retryEnv, by decide,
   hw.2.2.2.1
     ⟨[0x45, 0, 0, 40, 0xd4, 0x31, 0, 0, 64, 6, 0xa8, 0x9c, 127, 0, 0, 1, 127, 0, 0, 1,
       0xd4, 0x31, 0x30, 0x39, 0, 0, 2, 0x58, 0, 0, 1, 0xf5, 0x50, 0x10, 0x20, 0, 0, 0, 0, 0],
      40, by simp [retryOutcome]⟩,
   by decide, by decide, by decide, by decide, by decide, main_silentEnv, hs.1, hs.2⟩

/-- C14 (counterexample): the run `staleEnv` sends an ACK although neither of
the two packets it received satisfies the SYN-ACK predicate: the ACK follows
the 20-byte `shortPacket`, an IP header with no TCP header, for which the
test passed on the bytes that `strayPacket` left in the receive buffer. -/
theorem ack_without_synAck :
    main staleEnv = some staleOutcome ∧
    receivedPackets staleEnv staleOutcome = [strayPacket, shortPacket] ∧
    (∀ d ∈ receivedPackets staleEnv staleOutcome, packetIsSynAck d = false) ∧
    staleOutcome.trace.countP Event.isSendAck = 1 ∧
    staleOutcome.trace.drop 7 =
      [.recvfrom 20, .validate true,
       .sendAck [0x45, 0, 0, 40, 0xd4, 0x31, 0, 0, 64, 6, 0xa8, 0x9c, 127, 0, 0, 1, 127, 0, 0, 1,
                 0xd4, 0x31, 0x30, 0x39, 0, 0, 2, 0x58, 0, 0, 1, 0xf5, 0x50, 0x10, 0x20, 0,
                 0, 0, 0, 0] 40,
       .close] :=
  ⟨main_staleEnv, receivedPackets_staleEnv, by rw [receivedPackets_staleEnv]; decide, by decide,
    by decide⟩

end A3
